import Mathlib

/-!
The v8plus C support layer (`v8plus_csup.c`): embedding and verified properties.

The file embeds the marshalling core of `v8plus_csup.c` in Lean: the classification of
stored name/value pairs (`v8plus_typeof`), typed extraction (`v8plus_arg_value`), the
two-pass positional argument decoder (`v8plus_args`), the thread-local error context
(`v8plus_verror`, `v8plus_error`, `v8plus_nverr`) and the variadic object builder
(`v8plus_obj_vsetprops`, `v8plus_obj`, `v8plus_obj_setprops`).

Conventions of the embedding

* C strings are Lean strings, one character per byte.
* Machine integers are naturals; a counter that can wrap is reduced modulo its width.
* A `double` is carried as its IEEE-754 bit pattern: the code only moves doubles around.
* libnvpair is an external library.  A name/value list is the list of its pairs in
  insertion order.  Every list the source allocates is created with `NV_UNIQUE_NAME`,
  so adding a pair first removes the pairs of the same name.
* Thread-local and heap state is passed explicitly in `world`.
* The process abort of a failed `VERIFY` and the undefined behaviour of a malformed
  variadic argument list are the `none` results of the functions concerned.
-/

namespace V8plus

/-! ## Types declared in `v8plus_glue.h` -/

/-- Modelled from the spec: the tagged value kinds `v8plus_type_t` of `v8plus_glue.h`,
which is not in src.  The enumerators are the ones `v8plus_csup.c` names; `OTHER n`
stands for an integer value that is none of them (the `default` arms of the source). -/
inductive v8plus_type_t where
  | V8PLUS_TYPE_NONE
  | V8PLUS_TYPE_STRING
  | V8PLUS_TYPE_NUMBER
  | V8PLUS_TYPE_BOOLEAN
  | V8PLUS_TYPE_JSFUNC
  | V8PLUS_TYPE_OBJECT
  | V8PLUS_TYPE_NULL
  | V8PLUS_TYPE_UNDEFINED
  | V8PLUS_TYPE_INVALID
  | V8PLUS_TYPE_ANY
  | V8PLUS_TYPE_STRNUMBER64
  | OTHER (n : Nat)
deriving DecidableEq, Repr

/-- Modelled from the spec: the error kinds `v8plus_errno_t` of `v8plus_glue.h`, which is
not in src (the taxonomy of section 7 of the specification). -/
inductive v8plus_errno_t where
  | V8PLUSERR_NOERROR
  | V8PLUSERR_NOMEM
  | V8PLUSERR_YOUSUCK
  | V8PLUSERR_UNKNOWN
  | V8PLUSERR_MISSINGARG
  | V8PLUSERR_BADARG
  | V8PLUSERR_EXTRAARG
  | V8PLUSERR_BADF
deriving DecidableEq, Repr

open v8plus_type_t v8plus_errno_t

/-- Modelled from the spec: the `NOEXTRA` flag bit `V8PLUS_ARG_F_NOEXTRA` of
`v8plus_glue.h`, which is not in src. -/
def V8PLUS_ARG_F_NOEXTRA : Nat := 0x01

/-- Modelled from the spec: the reserved marker key `V8PLUS_JSF_COOKIE` of
`v8plus_glue.h`, which is not in src. -/
def V8PLUS_JSF_COOKIE : String := ".__v8plus_jsfunc_cookie"

/-- Modelled from the spec: the message buffer length `V8PLUS_ERRMSG_LEN` of
`v8plus_glue.h`, which is not in src. -/
def V8PLUS_ERRMSG_LEN : Nat := 512

/-! ## libnvpair: pairs and lists -/

/-- A C `double`, as its 64-bit IEEE-754 pattern. -/
structure c_double where
  bits : Nat
deriving DecidableEq, Repr

/-- The `data_type_t` tags of libnvpair that the source names, `DATA_TYPE_STRING_ARRAY`
(the type of the marker pair), and `DATA_TYPE_OTHER code` for every remaining tag. -/
inductive data_type_t where
  | DATA_TYPE_BOOLEAN
  | DATA_TYPE_BYTE
  | DATA_TYPE_STRING
  | DATA_TYPE_UINT64_ARRAY
  | DATA_TYPE_STRING_ARRAY
  | DATA_TYPE_NVLIST
  | DATA_TYPE_BOOLEAN_VALUE
  | DATA_TYPE_DOUBLE
  | DATA_TYPE_OTHER (code : Nat)
deriving DecidableEq, Repr

open data_type_t

mutual
/-- The typed value carried by an `nvpair_t`. -/
inductive nvvalue where
  | BOOLEAN
  | BYTE (v : Nat)
  | STRING (s : String)
  | UINT64_ARRAY (a : List Nat)
  | STRING_ARRAY (a : List String)
  | NVLIST (l : List nvpair)
  | BOOLEAN_VALUE (b : Bool)
  | DOUBLE (d : c_double)
  | OTHER (code : Nat)
/-- An `nvpair_t`: a name and a typed value. -/
inductive nvpair where
  | mk (name : String) (value : nvvalue)
end

/-- An `nvlist_t`: its pairs, oldest first. -/
abbrev nvlist := List nvpair

/-- The name of a pair (`nvpair_name`). -/
def nvpair.name : nvpair → String
  | .mk n _ => n

/-- The typed value of a pair. -/
def nvpair.value : nvpair → nvvalue
  | .mk _ v => v

/-- The tag of a pair (`nvpair_type`). -/
def nvpair_type (pp : nvpair) : data_type_t :=
  match pp.value with
  | .BOOLEAN => DATA_TYPE_BOOLEAN
  | .BYTE _ => DATA_TYPE_BYTE
  | .STRING _ => DATA_TYPE_STRING
  | .UINT64_ARRAY _ => DATA_TYPE_UINT64_ARRAY
  | .STRING_ARRAY _ => DATA_TYPE_STRING_ARRAY
  | .NVLIST _ => DATA_TYPE_NVLIST
  | .BOOLEAN_VALUE _ => DATA_TYPE_BOOLEAN_VALUE
  | .DOUBLE _ => DATA_TYPE_DOUBLE
  | .OTHER code => DATA_TYPE_OTHER code

/-- The byte of a pair (`nvpair_value_byte`); `none` is the nonzero return on a pair of
another type. -/
def nvpair_value_byte (pp : nvpair) : Option Nat :=
  match pp.value with
  | .BYTE v => some v
  | _ => none

/-- The array of a pair (`nvpair_value_uint64_array`): the elements, whose count is the
length of the list. -/
def nvpair_value_uint64_array (pp : nvpair) : Option (List Nat) :=
  match pp.value with
  | .UINT64_ARRAY a => some a
  | _ => none

/-- The string of a pair (`nvpair_value_string`). -/
def nvpair_value_string (pp : nvpair) : Option String :=
  match pp.value with
  | .STRING s => some s
  | _ => none

/-- The double of a pair (`nvpair_value_double`). -/
def nvpair_value_double (pp : nvpair) : Option c_double :=
  match pp.value with
  | .DOUBLE d => some d
  | _ => none

/-- The boolean of a pair (`nvpair_value_boolean_value`). -/
def nvpair_value_boolean_value (pp : nvpair) : Option Bool :=
  match pp.value with
  | .BOOLEAN_VALUE b => some b
  | _ => none

/-- The nested list of a pair (`nvpair_value_nvlist`). -/
def nvpair_value_nvlist (pp : nvpair) : Option nvlist :=
  match pp.value with
  | .NVLIST l => some l
  | _ => none

/-- The first pair of the given name (`nvlist_lookup_nvpair`); `none` is `ENOENT`. -/
def nvlist_lookup_nvpair (lp : nvlist) (name : String) : Option nvpair :=
  lp.find? (fun q => q.name == name)

/-- The list after a successful add to an `NV_UNIQUE_NAME` list: the pairs of the same
name are removed and the new pair is linked at the end. -/
def nvlist_add (lp : nvlist) (p : nvpair) : nvlist :=
  lp.filter (fun q => q.name != p.name) ++ [p]

/-! ## libc -/

/-- The errno value `ENOMEM`. -/
def ENOMEM : Nat := 12

/-- The errno value `EINVAL`. -/
def EINVAL : Nat := 22

/-- The errno value `ERANGE`. -/
def ERANGE : Nat := 34

/-- The errno value `EBADF`. -/
def EBADF : Nat := 9

/-- The largest `unsigned long long`. -/
def ULLONG_MAX : Nat := 2 ^ 64 - 1

/-- What the source takes from outside src and the specification does not fix. -/
structure v8plus_env where
  /-- whether `strtoull` stores `EINVAL` in `errno` when it performs no conversion; ISO C
  leaves `errno` alone there, POSIX allows `EINVAL`, illumos libc sets it -/
  noconv_einval : Bool
  /-- the message text of libc `strerror` -/
  strerror : Nat → String
  /-- the canonical description of an error kind (`v8plus_strerror`, not in src) -/
  v8plus_strerror : v8plus_errno_t → String
  /-- the integer value of a kind (the enumerators of `v8plus_glue.h`, not in src) -/
  type_number : v8plus_type_t → Int

/-- The `isspace` of the C locale. -/
def isspace (c : Char) : Bool :=
  c.toNat == 32 || (9 ≤ c.toNat && c.toNat ≤ 13)

/-- The value of a character as a digit: `0`-`9`, then letters of either case from 10. -/
def digit_value (c : Char) : Option Nat :=
  if 48 ≤ c.toNat ∧ c.toNat ≤ 57 then some (c.toNat - 48)
  else if 97 ≤ c.toNat ∧ c.toNat ≤ 122 then some (c.toNat - 87)
  else if 65 ≤ c.toNat ∧ c.toNat ≤ 90 then some (c.toNat - 55)
  else none

/-- Whether a character is a digit of the base. -/
def is_digit_of (base : Nat) (c : Char) : Bool :=
  match digit_value c with
  | some d => decide (d < base)
  | none => false

/-- The longest run of leading digits of the base, read most significant first; the
accumulator is `none` until a digit has been read. -/
def strtoull_digits (base : Nat) : List Char → Option Nat → Option Nat
  | [], acc => acc
  | c :: cs, acc =>
    match digit_value c with
    | some d =>
      if d < base then strtoull_digits base cs (some (acc.getD 0 * base + d)) else acc
    | none => acc

/-- The text after an optional sign, and whether the sign was a minus. -/
def strtoull_sign (cs : List Char) : Bool × List Char :=
  match cs with
  | c :: r => if c.toNat = 45 then (true, r) else if c.toNat = 43 then (false, r) else (false, cs)
  | [] => (false, cs)

/-- The base chosen by `strtoull` when called with base 0, and the text the digits are
read from: hexadecimal after `0x` or `0X` followed by a hexadecimal digit, octal after any
other leading `0`, decimal otherwise. -/
def strtoull_base (cs : List Char) : Nat × List Char :=
  match cs with
  | z :: x :: h :: r =>
    if z.toNat = 48 then
      if (x.toNat = 120 ∨ x.toNat = 88) ∧ is_digit_of 16 h = true then (16, h :: r) else (8, cs)
    else (10, cs)
  | z :: _ => if z.toNat = 48 then (8, cs) else (10, cs)
  | [] => (10, cs)

/-- The scan of `strtoull(s, NULL, 0)`: leading white space and one sign are skipped and
the longest run of digits is converted; whatever follows is ignored.  The result is
whether the sign was a minus, and the value of the digits, `none` when there is no digit
to convert. -/
def strtoull_scan (s : String) : Bool × Option Nat :=
  let sg := strtoull_sign (s.data.dropWhile isspace)
  let bd := strtoull_base sg.2
  (sg.1, strtoull_digits bd.1 bd.2 none)

/-- The call `strtoull(s, NULL, 0)` of libc: the returned value and the `errno` it leaves
(0 when it does not store one).  Without any digit the result is 0; a value above
`ULLONG_MAX` gives `ULLONG_MAX` and `ERANGE`; a minus sign negates modulo 2^64. -/
def strtoull (E : v8plus_env) (s : String) : Nat × Nat :=
  match strtoull_scan s with
  | (_, none) => (0, if E.noconv_einval then EINVAL else 0)
  | (neg, some v) =>
    if ULLONG_MAX < v then (ULLONG_MAX, ERANGE)
    else (if neg then (2 ^ 64 - v) % 2 ^ 64 else v, 0)

/-- The text `snprintf` produces for `%u` and for `PRIu64`: the decimal digits. -/
def fmt_dec (n : Nat) : String := Nat.repr n

/-- The text `snprintf` produces for `%d`. -/
def fmt_int (n : Int) : String :=
  if n < 0 then "-" ++ fmt_dec n.natAbs else fmt_dec n.natAbs

/-! ## Process state -/

/-- The state the functions read and write: the thread-local error context, the hold
counts of the function handles, the number of lists obtained from `nvlist_alloc` and not
yet freed, and the results the next libnvpair allocations and adds will have (an errno
each, 0 for success; when the script is used up every further operation succeeds). -/
structure world where
  _v8plus_errno : v8plus_errno_t
  _v8plus_errmsg : String
  jsfunc_holds : Nat → Nat
  nv_live : Nat
  nv_script : List Nat

/-- What `snprintf` leaves in a buffer of the given size: at most `size - 1` bytes. -/
def snprintf_buf (size : Nat) (text : String) : String :=
  ⟨text.data.take (size - 1)⟩

/-- `v8plus_verror`; `fmt` is the expanded message, `none` for a `NULL` format.  The
result is the returned pointer, always `NULL`. -/
def v8plus_verror (E : v8plus_env) (e : v8plus_errno_t) (fmt : Option String) (w : world) :
    Option nvlist × world :=
  let msg :=
    match fmt with
    | none =>
      if e = V8PLUSERR_NOERROR then ""
      else snprintf_buf V8PLUS_ERRMSG_LEN (E.v8plus_strerror e)
    | some text => snprintf_buf V8PLUS_ERRMSG_LEN text
  (none, { w with _v8plus_errmsg := msg, _v8plus_errno := e })

/-- `v8plus_error`. -/
def v8plus_error (E : v8plus_env) (e : v8plus_errno_t) (fmt : Option String) (w : world) :
    Option nvlist × world :=
  (none, (v8plus_verror E e fmt w).2)

/-- `v8plus_nverr`; `member` is `none` for a `NULL` name. -/
def v8plus_nverr (E : v8plus_env) (nverr : Nat) (member : Option String) (w : world) :
    Option nvlist × world :=
  let msg := snprintf_buf V8PLUS_ERRMSG_LEN
    ("nvlist manipulation error on member " ++ member.getD "<none>" ++ ": " ++
      E.strerror nverr)
  let e :=
    if nverr = ENOMEM then V8PLUSERR_NOMEM
    else if nverr = EINVAL then V8PLUSERR_YOUSUCK
    else V8PLUSERR_UNKNOWN
  (none, { w with _v8plus_errmsg := msg, _v8plus_errno := e })

/-- `v8plus_syserr`. -/
def v8plus_syserr (E : v8plus_env) (syserr : Nat) (fmt : Option String) (w : world) :
    Option nvlist × world :=
  let e :=
    if syserr = ENOMEM then V8PLUSERR_NOMEM
    else if syserr = EBADF then V8PLUSERR_BADF
    else V8PLUSERR_UNKNOWN
  (none, (v8plus_verror E e fmt w).2)

/-- `v8plus_void`. -/
def v8plus_void (E : v8plus_env) (w : world) : Option nvlist × world :=
  v8plus_error E V8PLUSERR_NOERROR none w

/-! ## Classification and extraction -/

/-- `v8plus_typeof`. -/
def v8plus_typeof (pp : nvpair) : v8plus_type_t :=
  match nvpair_type pp with
  | DATA_TYPE_DOUBLE => V8PLUS_TYPE_NUMBER
  | DATA_TYPE_STRING => V8PLUS_TYPE_STRING
  | DATA_TYPE_NVLIST => V8PLUS_TYPE_OBJECT
  | DATA_TYPE_BOOLEAN_VALUE => V8PLUS_TYPE_BOOLEAN
  | DATA_TYPE_BOOLEAN => V8PLUS_TYPE_UNDEFINED
  | DATA_TYPE_BYTE =>
    match nvpair_value_byte pp with
    | none => V8PLUS_TYPE_INVALID
    | some v => if v ≠ 0 then V8PLUS_TYPE_INVALID else V8PLUS_TYPE_NULL
  | DATA_TYPE_UINT64_ARRAY =>
    match nvpair_value_uint64_array pp with
    | none => V8PLUS_TYPE_INVALID
    | some a => if a.length ≠ 1 then V8PLUS_TYPE_INVALID else V8PLUS_TYPE_JSFUNC
  | _ => V8PLUS_TYPE_INVALID

/-- What an output location of `v8plus_args` can hold: the payload types of the source
(`char *`, `double`, `boolean_t`, `v8plus_jsfunc_t`, `nvlist_t *`, `const nvpair_t *`,
`data_type_t`, `uint64_t`). -/
inductive out_value where
  | string (s : String)
  | double (d : c_double)
  | boolean (b : Bool)
  | jsfunc (j : Nat)
  | nvlist (l : nvlist)
  | nvpair (p : nvpair)
  | data_type (dt : data_type_t)
  | uint64 (v : Nat)

/-- The content of the storage an output pointer refers to; `none` before any write. -/
abbrev out_slot := Option out_value

/-- The store `*vp = x` under the guard `vp != NULL`: `vp` is `none` for `NULL`, else
the current content of the storage. -/
def store (vp : Option out_slot) (x : out_value) : Option out_slot :=
  match vp with
  | none => none
  | some _ => some (some x)

/-- `v8plus_arg_value`: the return code and the storage behind `vp` afterwards. -/
def v8plus_arg_value (E : v8plus_env) (t : v8plus_type_t) (pp : nvpair)
    (vp : Option out_slot) : Int × Option out_slot :=
  let dt := nvpair_type pp
  match t with
  | V8PLUS_TYPE_NONE => (-1, vp)
  | V8PLUS_TYPE_STRING =>
    if dt = DATA_TYPE_STRING then
      match nvpair_value_string pp with
      | some s => (0, store vp (.string s))
      | none => (0, vp)
    else (-1, vp)
  | V8PLUS_TYPE_NUMBER =>
    if dt = DATA_TYPE_DOUBLE then
      match nvpair_value_double pp with
      | some d => (0, store vp (.double d))
      | none => (0, vp)
    else (-1, vp)
  | V8PLUS_TYPE_BOOLEAN =>
    if dt = DATA_TYPE_BOOLEAN_VALUE then
      match nvpair_value_boolean_value pp with
      | some b => (0, store vp (.boolean b))
      | none => (0, vp)
    else (-1, vp)
  | V8PLUS_TYPE_JSFUNC =>
    if dt = DATA_TYPE_UINT64_ARRAY then
      match nvpair_value_uint64_array pp with
      | some a => if a.length = 1 then (0, store vp (.jsfunc (a.headD 0))) else (-1, vp)
      | none => (-1, vp)
    else (-1, vp)
  | V8PLUS_TYPE_OBJECT =>
    if dt = DATA_TYPE_NVLIST then
      match nvpair_value_nvlist pp with
      | some l => (0, store vp (.nvlist l))
      | none => (0, vp)
    else (-1, vp)
  | V8PLUS_TYPE_NULL =>
    if dt = DATA_TYPE_BYTE then
      match nvpair_value_byte pp with
      | some v => if v = 0 then (0, vp) else (-1, vp)
      | none => (-1, vp)
    else (-1, vp)
  | V8PLUS_TYPE_UNDEFINED => (if dt = DATA_TYPE_BOOLEAN then 0 else -1, vp)
  | V8PLUS_TYPE_ANY => (0, store vp (.nvpair pp))
  | V8PLUS_TYPE_INVALID => (0, store vp (.data_type dt))
  | V8PLUS_TYPE_STRNUMBER64 =>
    if dt = DATA_TYPE_STRING then
      match nvpair_value_string pp with
      | some s =>
        let r := strtoull E s
        if r.2 ≠ 0 then (-1, vp) else (0, store vp (.uint64 r.1))
      | none => (-1, vp)
    else (-1, vp)
  | OTHER _ => (-1, vp)

/-! ## The argument decoder -/

/-- One declared argument of a call of `v8plus_args`: the kind `t`, and the output pointer
that follows it in the variadic list (`none` for `NULL`, else the content of the storage it
refers to).  No pointer follows `V8PLUS_TYPE_UNDEFINED` or `V8PLUS_TYPE_NULL`; the field is
not read for these kinds.  The list of declarations ends where the `V8PLUS_TYPE_NONE` of
the C call stands. -/
structure v8plus_argdecl where
  t : v8plus_type_t
  vp : Option out_slot

/-- The pointer the second loop of `v8plus_args` uses for a declaration: `NULL` for the
kinds without payload, else the next variadic argument. -/
def args_vp (a : v8plus_argdecl) : Option out_slot :=
  match a.t with
  | V8PLUS_TYPE_UNDEFINED => none
  | V8PLUS_TYPE_NULL => none
  | _ => a.vp

/-- The declaration after the second loop handled it: a pointer taken from the variadic
list refers to the storage `v8plus_arg_value` left behind. -/
def args_written (a : v8plus_argdecl) (vp1 : Option out_slot) : v8plus_argdecl :=
  match a.t with
  | V8PLUS_TYPE_UNDEFINED => a
  | V8PLUS_TYPE_NULL => a
  | _ => { a with vp := vp1 }

/-- The key of a position: `snprintf(buf, sizeof (buf), "%u", i)` with `char buf[32]`. -/
def args_key (i : Nat) : String := snprintf_buf 32 (fmt_dec i)

/-- The first loop of `v8plus_args`, from counter `i` (a `uint_t`): `Sum.inl w` is the
return of -1 with the error recorded in `w`, `Sum.inr i` the exit of the loop with the
final counter. -/
def v8plus_args_validate (E : v8plus_env) (lp : nvlist) :
    Nat → List v8plus_argdecl → world → world ⊕ Nat
  | i, [], _ => Sum.inr i
  | i, a :: rest, w =>
    if a.t = V8PLUS_TYPE_NONE then Sum.inr i
    else
      match nvlist_lookup_nvpair lp (args_key i) with
      | none =>
        Sum.inl (v8plus_error E V8PLUSERR_MISSINGARG
          (some ("argument " ++ fmt_dec i ++ " is required")) w).2
      | some pp =>
        if (v8plus_arg_value E a.t pp none).1 ≠ 0 then
          Sum.inl (v8plus_error E V8PLUSERR_BADARG
            (some ("argument " ++ fmt_dec i ++ " is of incorrect type")) w).2
        else v8plus_args_validate E lp ((i + 1) % 2 ^ 32) rest w

/-- The second loop of `v8plus_args`, from counter `i`: the declarations with the
storage written; `none` is the abort of a failed `VERIFY`. -/
def v8plus_args_extract (E : v8plus_env) (lp : nvlist) :
    Nat → List v8plus_argdecl → Option (List v8plus_argdecl)
  | _, [] => some []
  | i, a :: rest =>
    if a.t = V8PLUS_TYPE_NONE then some (a :: rest)
    else
      match nvlist_lookup_nvpair lp (args_key i) with
      | none => none
      | some pp =>
        let r := v8plus_arg_value E a.t pp (args_vp a)
        if r.1 ≠ 0 then none
        else
          match v8plus_args_extract E lp ((i + 1) % 2 ^ 32) rest with
          | none => none
          | some rest1 => some (args_written a r.2 :: rest1)

/-- `v8plus_args`: the return code, the state and the declarations with their storage
afterwards; `none` is the abort of a failed `VERIFY`. -/
def v8plus_args (E : v8plus_env) (lp : nvlist) (flags : Nat) (args : List v8plus_argdecl)
    (w : world) : Option (Int × world × List v8plus_argdecl) :=
  match v8plus_args_validate E lp 0 args w with
  | Sum.inl w1 => some (-1, w1, args)
  | Sum.inr i =>
    if flags &&& V8PLUS_ARG_F_NOEXTRA ≠ 0 ∧ (nvlist_lookup_nvpair lp (args_key i)).isSome then
      some (-1, (v8plus_error E V8PLUSERR_EXTRAARG
        (some "superfluous extra argument(s) detected") w).2, args)
    else
      match v8plus_args_extract E lp 0 args with
      | none => none
      | some args1 => some (0, w, args1)

/-! ## The object builder -/

/-- One argument of the variadic list of the object builder. -/
inductive va_item where
  | type (t : v8plus_type_t)
  | str (s : String)
  | dbl (d : c_double)
  | bool (b : Bool)
  | jsfunc (j : Nat)
  | pair (p : nvpair)
  | u64 (v : Nat)

/-- The errno of the next libnvpair allocation or add, taken from the script. -/
def nv_result (w : world) : Nat × world :=
  match w.nv_script with
  | [] => (0, w)
  | e :: r => (e, { w with nv_script := r })

/-- The call `nvlist_alloc(&slp, NV_UNIQUE_NAME, 0)`: the errno, the new empty list and
the state, in which a list that was obtained counts as live. -/
def nvlist_alloc (w : world) : Nat × nvlist × world :=
  let r := nv_result w
  if r.1 = 0 then (0, [], { r.2 with nv_live := r.2.nv_live + 1 }) else (r.1, [], r.2)

/-- The call `nvlist_free` on a list obtained from `nvlist_alloc`. -/
def nvlist_free (w : world) : world :=
  { w with nv_live := w.nv_live - 1 }

/-- An add to an `NV_UNIQUE_NAME` list: the errno, the list and the state.  A failed add
leaves the list as it was. -/
def nvlist_add_pair (lp : nvlist) (p : nvpair) (w : world) : Nat × nvlist × world :=
  let r := nv_result w
  if r.1 = 0 then (0, nvlist_add lp p, r.2) else (r.1, lp, r.2)

/-- `nvlist_add_string`. -/
def nvlist_add_string (lp : nvlist) (name : String) (s : String) (w : world) :=
  nvlist_add_pair lp (.mk name (.STRING s)) w

/-- `nvlist_add_double`. -/
def nvlist_add_double (lp : nvlist) (name : String) (d : c_double) (w : world) :=
  nvlist_add_pair lp (.mk name (.DOUBLE d)) w

/-- `nvlist_add_boolean_value`. -/
def nvlist_add_boolean_value (lp : nvlist) (name : String) (b : Bool) (w : world) :=
  nvlist_add_pair lp (.mk name (.BOOLEAN_VALUE b)) w

/-- `nvlist_add_uint64_array`. -/
def nvlist_add_uint64_array (lp : nvlist) (name : String) (a : List Nat) (w : world) :=
  nvlist_add_pair lp (.mk name (.UINT64_ARRAY a)) w

/-- `nvlist_add_string_array`. -/
def nvlist_add_string_array (lp : nvlist) (name : String) (a : List String) (w : world) :=
  nvlist_add_pair lp (.mk name (.STRING_ARRAY a)) w

/-- `nvlist_add_nvlist`: the parent receives a copy of the nested list. -/
def nvlist_add_nvlist (lp : nvlist) (name : String) (slp : nvlist) (w : world) :=
  nvlist_add_pair lp (.mk name (.NVLIST slp)) w

/-- `nvlist_add_byte`. -/
def nvlist_add_byte (lp : nvlist) (name : String) (v : Nat) (w : world) :=
  nvlist_add_pair lp (.mk name (.BYTE v)) w

/-- `nvlist_add_boolean`. -/
def nvlist_add_boolean (lp : nvlist) (name : String) (w : world) :=
  nvlist_add_pair lp (.mk name .BOOLEAN) w

/-- `nvlist_add_nvpair`: a copy of the pair, under the name of the pair. -/
def nvlist_add_nvpair (lp : nvlist) (pp : nvpair) (w : world) :=
  nvlist_add_pair lp pp w

/-- Modelled from the spec: `v8plus_jsfunc_hold`, which is not in src: `hold(handle)`
increments the reference count of the function handle. -/
def v8plus_jsfunc_hold (j : Nat) (w : world) : world :=
  { w with jsfunc_holds := Function.update w.jsfunc_holds j (w.jsfunc_holds j + 1) }

/-- The outcome of the builder on a failed add: -1, with the error of `v8plus_nverr`. -/
def vsetprops_added (E : v8plus_env) (name : String) (ap : List va_item)
    (r : Nat × nvlist × world) : Option (Int × nvlist × List va_item × world) :=
  if r.1 ≠ 0 then some (-1, r.2.1, ap, (v8plus_nverr E r.1 (some name) r.2.2).2)
  else some (0, r.2.1, ap, r.2.2)

/-- The arms of the switch of `v8plus_obj_vsetprops` other than `V8PLUS_TYPE_OBJECT`, for
the property `name` of kind `nt`: the value is taken from the variadic list and added.
The result is -1 where the source returns -1 and 0 where it reaches `break`, with the
list, the remaining variadic arguments and the state; `none` when the variadic list does
not hold an argument of the type the arm reads. -/
def vsetprops_arm (E : v8plus_env) (lp : nvlist) (nt : v8plus_type_t) (name : String)
    (ap : List va_item) (w : world) : Option (Int × nvlist × List va_item × world) :=
  match nt with
  | V8PLUS_TYPE_STRING =>
    match ap with
    | .str s :: ap1 => vsetprops_added E name ap1 (nvlist_add_string lp name s w)
    | _ => none
  | V8PLUS_TYPE_NUMBER =>
    match ap with
    | .dbl d :: ap1 => vsetprops_added E name ap1 (nvlist_add_double lp name d w)
    | _ => none
  | V8PLUS_TYPE_BOOLEAN =>
    match ap with
    | .bool b :: ap1 => vsetprops_added E name ap1 (nvlist_add_boolean_value lp name b w)
    | _ => none
  | V8PLUS_TYPE_JSFUNC =>
    match ap with
    | .jsfunc j :: ap1 =>
      let r := nvlist_add_uint64_array lp name [j] w
      if r.1 ≠ 0 then some (-1, r.2.1, ap1, (v8plus_nverr E r.1 (some name) r.2.2).2)
      else
        let r2 := nvlist_add_string_array r.2.1 V8PLUS_JSF_COOKIE [] r.2.2
        if r2.1 ≠ 0 then
          some (-1, r2.2.1, ap1, (v8plus_nverr E r2.1 (some V8PLUS_JSF_COOKIE) r2.2.2).2)
        else some (0, r2.2.1, ap1, v8plus_jsfunc_hold j r2.2.2)
    | _ => none
  | V8PLUS_TYPE_NULL => vsetprops_added E name ap (nvlist_add_byte lp name 0 w)
  | V8PLUS_TYPE_UNDEFINED => vsetprops_added E name ap (nvlist_add_boolean lp name w)
  | V8PLUS_TYPE_ANY =>
    match ap with
    | .pair pp :: ap1 => vsetprops_added E name ap1 (nvlist_add_nvpair lp pp w)
    | _ => none
  | V8PLUS_TYPE_STRNUMBER64 =>
    match ap with
    | .u64 v :: ap1 =>
      vsetprops_added E name ap1
        (nvlist_add_string lp name (snprintf_buf 32 (fmt_dec (v % 2 ^ 64))) w)
    | _ => none
  | _ =>
    some (-1, lp, ap,
      (v8plus_error E V8PLUSERR_YOUSUCK
        (some ("invalid property type " ++ fmt_int (E.type_number nt))) w).2)

/-- The outcome of one round of the builder. -/
abbrev vsetprops_result := Int × nvlist × List va_item × world

/-- The `V8PLUS_TYPE_OBJECT` arm of `v8plus_obj_vsetprops` from the return of the nested
call on: a nested failure returns -1 at once; else the nested list `slp` is added to `lp`
under `name` and freed, and a failed add is recorded and returns -1. -/
def vsetprops_object_add (E : v8plus_env) (lp : nvlist) (name : String)
    (nested : Option vsetprops_result) : Option vsetprops_result :=
  match nested with
  | none => none
  | some (rc, slp, ap3, w3) =>
    if rc ≠ 0 then some (-1, lp, ap3, w3)
    else
      let r := nvlist_add_nvlist lp name slp w3
      let w4 := nvlist_free r.2.2
      if r.1 ≠ 0 then some (-1, r.2.1, ap3, (v8plus_nverr E r.1 (some name) w4).2)
      else some (0, r.2.1, ap3, w4)

/-- The end of a round of the loop of `v8plus_obj_vsetprops`: an arm that returned -1
ends the call; after `break` the next kind is read from the variadic list and the loop
goes on (`next`). -/
def vsetprops_loop (next : nvlist → v8plus_type_t → List va_item → world →
      Option vsetprops_result)
    (group : Option vsetprops_result) : Option vsetprops_result :=
  match group with
  | none => none
  | some (rc, lp1, ap4, w1) =>
    if rc ≠ 0 then some (-1, lp1, ap4, w1)
    else
      match ap4 with
      | .type nt2 :: ap5 => next lp1 nt2 ap5 w1
      | _ => none

/-- `v8plus_obj_vsetprops`, on the list `lp`, first kind `nt`, variadic list `ap`: the
return code, the list, the unread variadic arguments and the state.  The first argument
bounds the number of loop rounds and nested calls; `none` when it is used up or when the
variadic list does not hold an argument of the type the source reads. -/
def v8plus_obj_vsetprops (E : v8plus_env) :
    Nat → nvlist → v8plus_type_t → List va_item → world → Option vsetprops_result
  | 0, _, _, _, _ => none
  | fuel + 1, lp, nt, ap, w =>
    if nt = V8PLUS_TYPE_NONE then some (0, lp, ap, w)
    else
      match ap with
      | .str name :: ap1 =>
        vsetprops_loop (v8plus_obj_vsetprops E fuel)
          (match nt with
            | V8PLUS_TYPE_OBJECT =>
              match ap1 with
              | .type nt1 :: ap2 =>
                let a := nvlist_alloc w
                if a.1 ≠ 0 then
                  some (-1, lp, ap2, (v8plus_nverr E a.1 (some name) a.2.2).2)
                else
                  vsetprops_object_add E lp name
                    (v8plus_obj_vsetprops E fuel a.2.1 nt1 ap2 a.2.2)
              | _ => none
            | _ => vsetprops_arm E lp nt name ap1 w)
      | _ => none

/-- `v8plus_obj`: the returned list (`none` for `NULL`) and the state; the outer `none`
is a variadic list that does not hold what the source reads. -/
def v8plus_obj (E : v8plus_env) (t : v8plus_type_t) (ap : List va_item) (w : world) :
    Option (Option nvlist × world) :=
  let a := nvlist_alloc w
  if a.1 ≠ 0 then some (v8plus_nverr E a.1 none a.2.2)
  else
    match v8plus_obj_vsetprops E (ap.length + 1) a.2.1 t ap a.2.2 with
    | none => none
    | some (err, rp, _, w1) =>
      if err ≠ 0 then some (none, nvlist_free w1) else some (some rp, w1)

/-- `v8plus_obj_setprops`: the return code, the list and the state. -/
def v8plus_obj_setprops (E : v8plus_env) (lp : nvlist) (t : v8plus_type_t)
    (ap : List va_item) (w : world) : Option (Int × nvlist × world) :=
  match v8plus_obj_vsetprops E (ap.length + 1) lp t ap w with
  | none => none
  | some (err, lp1, _, w1) => some (err, lp1, w1)

/-! ## Specification-side definitions -/

/-- Acceptance of a stored pair for a declared kind, in the words of the specification:
the pair classifies to the declared kind; `Any` and `Invalid` accept every pair; the
string-encoded integer accepts a pair that classifies as a string whose text `strtoull`
converts without an error; `None` and unknown kinds accept nothing. -/
def kind_accepts (E : v8plus_env) (t : v8plus_type_t) (pp : nvpair) : Prop :=
  match t with
  | V8PLUS_TYPE_ANY => True
  | V8PLUS_TYPE_INVALID => True
  | V8PLUS_TYPE_STRNUMBER64 =>
    v8plus_typeof pp = V8PLUS_TYPE_STRING ∧
      match nvpair_value_string pp with
      | some s => (strtoull E s).2 = 0
      | none => False
  | V8PLUS_TYPE_NONE => False
  | OTHER _ => False
  | k => v8plus_typeof pp = k

/-- The decoded payload of a stored pair for a declared kind, in the words of the
specification: the double for a number, the text for a string, the boolean for a boolean,
the nested container for an object, the 64-bit id for a function handle, the parsed
integer for a string-encoded integer, the raw pair for `Any`, the stored primitive tag for
`Invalid`; nothing for the kinds without payload. -/
def decoded_payload (E : v8plus_env) (t : v8plus_type_t) (pp : nvpair) : Option out_value :=
  match t, pp.value with
  | V8PLUS_TYPE_NUMBER, .DOUBLE d => some (.double d)
  | V8PLUS_TYPE_STRING, .STRING s => some (.string s)
  | V8PLUS_TYPE_BOOLEAN, .BOOLEAN_VALUE b => some (.boolean b)
  | V8PLUS_TYPE_OBJECT, .NVLIST l => some (.nvlist l)
  | V8PLUS_TYPE_JSFUNC, .UINT64_ARRAY [j] => some (.jsfunc j)
  | V8PLUS_TYPE_STRNUMBER64, .STRING s => some (.uint64 (strtoull E s).1)
  | V8PLUS_TYPE_ANY, _ => some (.nvpair pp)
  | V8PLUS_TYPE_INVALID, _ => some (.data_type (nvpair_type pp))
  | _, _ => none

/-- Every declared position of the list is present in the container and accepted for its
declared kind. -/
def positions_ok (E : v8plus_env) (lp : nvlist) (args : List v8plus_argdecl) : Prop :=
  ∀ i a, args[i]? = some a →
    ∃ pp, nvlist_lookup_nvpair lp (fmt_dec i) = some pp ∧ kind_accepts E a.t pp

/-- A declared kind list as a caller can pass it: fewer than 2^32 kinds (the position
counter is a `uint_t`), none of them the terminator. -/
def args_wf (args : List v8plus_argdecl) : Prop :=
  args.length < 2 ^ 32 ∧ ∀ a ∈ args, a.t ≠ V8PLUS_TYPE_NONE

/-! ## Concrete data -/

/-- An environment whose `strtoull` reports `EINVAL` for a failed conversion. -/
def env_einval : v8plus_env := ⟨true, fun _ => "error", fun _ => "error", fun _ => 0⟩

/-- An environment whose `strtoull` leaves `errno` alone on a failed conversion. -/
def env_iso : v8plus_env := ⟨false, fun _ => "error", fun _ => "error", fun _ => 0⟩

/-- A state without recorded error, holds, live lists or scripted failures. -/
def world0 : world := ⟨V8PLUSERR_NOERROR, "", fun _ => 0, 0, []⟩

/-- The double 3.5. -/
def double_3_5 : c_double := ⟨0x400C000000000000⟩

/-- Every declared position of the list is present in the container and its value
classifies to exactly the declared kind. -/
def positions_classify (lp : nvlist) (args : List v8plus_argdecl) : Prop :=
  ∀ i a, args[i]? = some a →
    ∃ pp, nvlist_lookup_nvpair lp (fmt_dec i) = some pp ∧ v8plus_typeof pp = a.t

/-- The whole text is an unsigned 64-bit integer literal, in the words of the
specification: a hexadecimal literal (`0x` or `0X`, then hexadecimal digits only), an
octal literal (a leading `0`, then octal digits only) or a decimal literal (decimal digits
only), of a value that fits 64 bits. -/
def is_uint64_literal (s : String) : Bool :=
  match s.data with
  | [] => false
  | z :: rest =>
    if z.toNat = 48 then
      match rest with
      | x :: hs =>
        if x.toNat = 120 ∨ x.toNat = 88 then
          !hs.isEmpty && hs.all (is_digit_of 16) &&
            decide ((strtoull_digits 16 hs none).getD 0 ≤ ULLONG_MAX)
        else rest.all (is_digit_of 8) &&
          decide ((strtoull_digits 8 rest none).getD 0 ≤ ULLONG_MAX)
      | [] => true
    else s.data.all (is_digit_of 10) &&
      decide ((strtoull_digits 10 s.data none).getD 0 ≤ ULLONG_MAX)

/-- A property of one of the supported kinds other than `Object`, as a caller of the
builder writes it after the name: the kind with its payload. -/
inductive prop_value where
  | string (s : String)
  | number (d : c_double)
  | boolean (b : Bool)
  | jsfunc (j : Nat)
  | null
  | undefined
  | strnumber64 (v : Nat)

/-- The kind of a property. -/
def prop_value.kind : prop_value → v8plus_type_t
  | .string _ => V8PLUS_TYPE_STRING
  | .number _ => V8PLUS_TYPE_NUMBER
  | .boolean _ => V8PLUS_TYPE_BOOLEAN
  | .jsfunc _ => V8PLUS_TYPE_JSFUNC
  | .null => V8PLUS_TYPE_NULL
  | .undefined => V8PLUS_TYPE_UNDEFINED
  | .strnumber64 _ => V8PLUS_TYPE_STRNUMBER64

/-- The variadic arguments that carry the payload of a property. -/
def prop_value.va : prop_value → List va_item
  | .string s => [.str s]
  | .number d => [.dbl d]
  | .boolean b => [.bool b]
  | .jsfunc j => [.jsfunc j]
  | .null => []
  | .undefined => []
  | .strnumber64 v => [.u64 v]

/-- The payload of a property as extraction hands it out; `none` for the kinds without
payload. -/
def prop_value.payload : prop_value → Option out_value
  | .string s => some (.string s)
  | .number d => some (.double d)
  | .boolean b => some (.boolean b)
  | .jsfunc j => some (.jsfunc j)
  | .null => none
  | .undefined => none
  | .strnumber64 v => some (.uint64 v)

/-- The primitive encoding of a property, in the words of the specification: a double
for `Number`, a string for `String`, a boolean value for `Boolean`, a single-element
unsigned-64 array for `FunctionHandle`, the byte 0 for `Null`, the valueless boolean flag
for `Undefined`, the decimal text for `StringEncodedInteger`. -/
def prop_value.encoding : prop_value → nvvalue
  | .string s => .STRING s
  | .number d => .DOUBLE d
  | .boolean b => .BOOLEAN_VALUE b
  | .jsfunc j => .UINT64_ARRAY [j]
  | .null => .BYTE 0
  | .undefined => .BOOLEAN
  | .strnumber64 v => .STRING (fmt_dec v)

/-- A valid payload: the integers are unsigned 64-bit values. -/
def prop_value.valid : prop_value → Prop
  | .jsfunc j => j < 2 ^ 64
  | .strnumber64 v => v < 2 ^ 64
  | _ => True

/-- The double 1.0. -/
def double_1_0 : c_double := ⟨0x3FF0000000000000⟩

/-! ## The deferral engine -/

/-- The task record `v8plus_uv_ctx_t`.  Pointers are addresses; the worker is the function
its pointer refers to, taken as a function of the object and the context; the completion
function is known by its address. -/
structure v8plus_uv_ctx_t where
  vuc_obj : Nat
  vuc_ctx : Nat
  vuc_result : Nat
  vuc_worker : Nat → Nat → Nat
  vuc_completion : Nat

/-- The request `uv_work_t` of libuv, of which the source uses the `data` pointer. -/
structure uv_work_t where
  data : v8plus_uv_ctx_t

/-- The state the deferral engine reads and writes: the hold counts of the objects, the
number of records obtained from `malloc` and not yet freed, the requests handed to
`uv_queue_work`, and the calls made to completion functions so far, each with the address
of the function and its arguments (object, context, result). -/
structure uv_world where
  obj_holds : Nat → Nat
  heap_records : Nat
  queued : List uv_work_t
  completion_calls : List (Nat × Nat × Nat × Nat)

/-- Modelled from the spec: `v8plus_obj_hold`, which is not in src: the hold count of the
owning object is incremented. -/
def v8plus_obj_hold (cop : Nat) (s : uv_world) : uv_world :=
  { s with obj_holds := Function.update s.obj_holds cop (s.obj_holds cop + 1) }

/-- Modelled from the spec: `v8plus_obj_rele`, which is not in src: the hold of the
owning object is released. -/
def v8plus_obj_rele (cop : Nat) (s : uv_world) : uv_world :=
  { s with obj_holds := Function.update s.obj_holds cop (s.obj_holds cop - 1) }

/-- `v8plus_uv_worker`: the result of the worker is stored in the task record. -/
def v8plus_uv_worker (wp : uv_work_t) : uv_work_t :=
  { data := { wp.data with
      vuc_result := wp.data.vuc_worker wp.data.vuc_obj wp.data.vuc_ctx } }

/-- `v8plus_uv_completion`: the completion function is called with the object, the
context and the stored result, the hold of the object is released and both records are
freed. -/
def v8plus_uv_completion (wp : uv_work_t) (s : uv_world) : uv_world :=
  let s1 := { s with completion_calls := s.completion_calls ++
    [(wp.data.vuc_completion, wp.data.vuc_obj, wp.data.vuc_ctx, wp.data.vuc_result)] }
  let s2 := v8plus_obj_rele wp.data.vuc_obj s1
  { s2 with heap_records := s2.heap_records - 2 }

/-- `v8plus_defer`: the request handed to `uv_queue_work` and the state.  Both records
are allocated and zeroed, the object is held, the task record is filled in and the request
is queued with `v8plus_uv_worker` and `v8plus_uv_completion` as its two steps. -/
def v8plus_defer (cop ctxp : Nat) (worker : Nat → Nat → Nat) (completion : Nat)
    (s : uv_world) : uv_work_t × uv_world :=
  let s1 := { s with heap_records := s.heap_records + 2 }
  let s2 := v8plus_obj_hold cop s1
  let cp : v8plus_uv_ctx_t :=
    { vuc_obj := cop, vuc_ctx := ctxp, vuc_result := 0, vuc_worker := worker,
      vuc_completion := completion }
  let wp : uv_work_t := { data := cp }
  (wp, { s2 with queued := s2.queued ++ [wp] })

/-! ## Group sequences of the object builder -/

/-- A group sequence as a caller of the builder writes it: `done` is the terminating
`V8PLUS_TYPE_NONE`; `value`, `any` and `object` are a group (name, kind, payload) followed
by the rest of the sequence, where the payload of an object is the nested sequence with
its own terminator; `bad` is a group of a kind outside the supported set, followed by
whatever the caller wrote after its name. -/
inductive prop_groups where
  | done
  | value (name : String) (v : prop_value) (rest : prop_groups)
  | any (name : String) (pp : nvpair) (rest : prop_groups)
  | object (name : String) (members : prop_groups) (rest : prop_groups)
  | bad (name : String) (nt : v8plus_type_t) (junk : List va_item)

/-- The first kind of a sequence: the named parameter `t` of the entry points. -/
def prop_groups.first : prop_groups → v8plus_type_t
  | .done => V8PLUS_TYPE_NONE
  | .value _ v _ => v.kind
  | .any _ _ _ => V8PLUS_TYPE_ANY
  | .object _ _ _ => V8PLUS_TYPE_OBJECT
  | .bad _ nt _ => nt

/-- The variadic arguments of a sequence after its first kind, through its terminator. -/
def prop_groups.va : prop_groups → List va_item
  | .done => []
  | .value name v rest => .str name :: (v.va ++ .type rest.first :: rest.va)
  | .any name pp rest => .str name :: .pair pp :: .type rest.first :: rest.va
  | .object name members rest =>
    .str name :: .type members.first :: (members.va ++ .type rest.first :: rest.va)
  | .bad name _ junk => .str name :: junk

/-- A sequence whose payloads are valid and whose `bad` groups are of the kind `Invalid`
or of a kind value outside the enumeration. -/
def prop_groups.wf : prop_groups → Prop
  | .done => True
  | .value _ v rest => v.valid ∧ rest.wf
  | .any _ _ rest => rest.wf
  | .object _ members rest => members.wf ∧ rest.wf
  | .bad _ nt _ => nt = V8PLUS_TYPE_INVALID ∨ ∃ n, nt = OTHER n

/-- A sequence without a group of an unsupported kind, at any depth. -/
def prop_groups.supported : prop_groups → Prop
  | .done => True
  | .value _ _ rest => rest.supported
  | .any _ _ rest => rest.supported
  | .object _ members rest => members.supported ∧ rest.supported
  | .bad _ _ _ => False

/-- The container after the group (name, v) was added: the encoding under the name, and
for a function handle the reserved marker key after it. -/
def prop_value.store (name : String) (v : prop_value) (lp : nvlist) : nvlist :=
  match v with
  | .jsfunc _ =>
    nvlist_add (nvlist_add lp (.mk name v.encoding))
      (.mk V8PLUS_JSF_COOKIE (.STRING_ARRAY []))
  | _ => nvlist_add lp (.mk name v.encoding)

/-- The container a sequence builds on `lp`, in the words of the specification: the
groups are added in order; a group of kind `Any` adds the supplied pair; an object adds,
under its name, the container its nested sequence builds from an empty one, and the
groups after the nested terminator go to the enclosing container. -/
def prop_groups.build : prop_groups → nvlist → nvlist
  | .done, lp => lp
  | .value name v rest, lp => rest.build (v.store name lp)
  | .any _ pp rest, lp => rest.build (nvlist_add lp pp)
  | .object name members rest, lp =>
    rest.build (nvlist_add lp (.mk name (.NVLIST (members.build []))))
  | .bad _ _ _, lp => lp

/-- The function handles a sequence encodes, at any depth. -/
def prop_groups.held : prop_groups → List Nat
  | .done => []
  | .value _ (.jsfunc j) rest => j :: rest.held
  | .value _ _ rest => rest.held
  | .any _ _ rest => rest.held
  | .object _ members rest => members.held ++ rest.held
  | .bad _ _ _ => []

/-- The keys the top-level groups of a sequence write in the enclosing container: the
name of a group, for a group of kind `Any` the name of the supplied pair, and the reserved
marker key for a function handle. -/
def prop_groups.keys : prop_groups → List String
  | .done => []
  | .value name (.jsfunc _) rest => name :: V8PLUS_JSF_COOKIE :: rest.keys
  | .value name _ rest => name :: rest.keys
  | .any _ pp rest => pp.name :: rest.keys
  | .object name _ rest => name :: rest.keys
  | .bad _ _ _ => []

/-- The names of the top-level groups of a sequence. -/
def prop_groups.names : prop_groups → List String
  | .done => []
  | .value name _ rest => name :: rest.names
  | .any name _ rest => name :: rest.names
  | .object name _ rest => name :: rest.names
  | .bad name _ _ => [name]

/-- The names of the pairs that the top-level groups of kind `Any` supply. -/
def prop_groups.pair_names : prop_groups → List String
  | .done => []
  | .value _ _ rest => rest.pair_names
  | .any _ pp rest => pp.name :: rest.pair_names
  | .object _ _ rest => rest.pair_names
  | .bad _ _ _ => []

/-- The members a libnvpair failure during a sequence can be reported on: the names of the
groups at any depth, and the reserved marker key for a function handle. -/
def prop_groups.members : prop_groups → List String
  | .done => []
  | .value name (.jsfunc _) rest => name :: V8PLUS_JSF_COOKIE :: rest.members
  | .value name _ rest => name :: rest.members
  | .any name _ rest => name :: rest.members
  | .object name ms rest => name :: (ms.members ++ rest.members)
  | .bad _ _ _ => []

/-- The unsupported kinds that occur in a sequence, at any depth. -/
def prop_groups.bad_kinds : prop_groups → List v8plus_type_t
  | .done => []
  | .value _ _ rest => rest.bad_kinds
  | .any _ _ rest => rest.bad_kinds
  | .object _ ms rest => ms.bad_kinds ++ rest.bad_kinds
  | .bad _ nt _ => [nt]

/-- What the top-level groups of a sequence leave under a key: the pair of the last group
that writes the key, `none` when no group writes it. -/
def prop_groups.last_write : prop_groups → String → Option nvpair
  | .done, _ => none
  | .value name v rest, key =>
    (rest.last_write key).or
      (match v with
        | .jsfunc _ =>
          if key = V8PLUS_JSF_COOKIE then some (.mk V8PLUS_JSF_COOKIE (.STRING_ARRAY []))
          else if key = name then some (.mk name v.encoding) else none
        | _ => if key = name then some (.mk name v.encoding) else none)
  | .any _ pp rest, key =>
    (rest.last_write key).or (if key = pp.name then some pp else none)
  | .object name members rest, key =>
    (rest.last_write key).or
      (if key = name then some (.mk name (.NVLIST (members.build []))) else none)
  | .bad _ _ _, _ => none

/-- The hold counts after the given function handles were held once each. -/
def holds_after (hs : List Nat) (h : Nat → Nat) : Nat → Nat :=
  fun j => h j + hs.count j

/-- The container-op mapping of an errno, in the words of the specification:
out-of-memory gives `NOMEM`, invalid-argument `YOUSUCK`, anything else `UNKNOWN`. -/
def nverr_kind (e : Nat) : v8plus_errno_t :=
  if e = ENOMEM then V8PLUSERR_NOMEM
  else if e = EINVAL then V8PLUSERR_YOUSUCK
  else V8PLUSERR_UNKNOWN

/-- The message of a container-op failure on a member, as it fits the message buffer. -/
def nverr_text (E : v8plus_env) (member : String) (e : Nat) : String :=
  snprintf_buf V8PLUS_ERRMSG_LEN
    ("nvlist manipulation error on member " ++ member ++ ": " ++ E.strerror e)

/-- The message recorded for a group of an unsupported kind, as it fits the message
buffer. -/
def invalid_type_text (E : v8plus_env) (nt : v8plus_type_t) : String :=
  snprintf_buf V8PLUS_ERRMSG_LEN ("invalid property type " ++ fmt_int (E.type_number nt))

/-- The state `w1` differs from `w` by successful libnvpair calls, which took the results
`zs` from the script, and by holds of the function handles `hs`. -/
def world_after (zs : List Nat) (hs : List Nat) (w w1 : world) : Prop :=
  (∀ z ∈ zs, z = 0) ∧ w.nv_script = zs ++ w1.nv_script ∧
    w1._v8plus_errno = w._v8plus_errno ∧ w1._v8plus_errmsg = w._v8plus_errmsg ∧
    w1.jsfunc_holds = holds_after hs w.jsfunc_holds

/-- The state `w1` is that of a build which started in `w` and failed: after successful
libnvpair calls either a call failed with an errno `e`, the last result taken from the
script, and the error context holds the container-op mapping of `e` and a message on one
of the given members; or a group of one of the given unsupported kinds was met and the
error context holds `YOUSUCK` and the message on the invalid property type. -/
def failed_after (E : v8plus_env) (members : List String) (kinds : List v8plus_type_t)
    (w w1 : world) : Prop :=
  ∃ zs, (∀ z ∈ zs, z = 0) ∧
    ((∃ e m, e ≠ 0 ∧ m ∈ members ∧ w.nv_script = zs ++ e :: w1.nv_script ∧
        w1._v8plus_errno = nverr_kind e ∧ w1._v8plus_errmsg = nverr_text E m e) ∨
      (∃ nt, nt ∈ kinds ∧ w.nv_script = zs ++ w1.nv_script ∧
        w1._v8plus_errno = V8PLUSERR_YOUSUCK ∧ w1._v8plus_errmsg = invalid_type_text E nt))

/-- The outcome of the builder on the sequence `gs`, started on the container `lp` in the
state `w` with the variadic arguments `extra` after the sequence.  Either it returns 0:
the sequence has no unsupported group, the container is the one the sequence builds, only
`extra` is left unread, every libnvpair call succeeded, the error context is untouched,
each encoded function handle was held once and every nested container was freed.  Or it
returns -1: the keys no top-level group writes are as before and the state is that of a
failed build. -/
def build_outcome (E : v8plus_env) (gs : prop_groups) (lp : nvlist) (w : world)
    (extra : List va_item) (r : vsetprops_result) : Prop :=
  (r.1 = 0 ∧ gs.supported ∧ r.2.1 = gs.build lp ∧ r.2.2.1 = extra ∧
      (∃ zs, world_after zs gs.held w r.2.2.2) ∧ r.2.2.2.nv_live = w.nv_live) ∨
    (r.1 = -1 ∧
      (∀ key, key ∉ gs.keys →
        nvlist_lookup_nvpair r.2.1 key = nvlist_lookup_nvpair lp key) ∧
      failed_after E gs.members gs.bad_kinds w r.2.2.2)

/-- The double 1.0 under "b" in an object under "a": the sequence of the nested
construction example. -/
def groups_a_b : prop_groups :=
  .object "a" (.value "b" (.number double_1_0) .done) .done

/-- The outcome of one round of the loop of the builder, started on the container `lp` in
the state `w`.  Either the arm reached `break` with 0: the container is `built`, the
variadic arguments `tail` are left, the libnvpair calls succeeded, the function handles
`hs` were held and what was allocated was freed.  Or it returned -1: the keys outside
`keys` are as before and the state is that of a failed build. -/
def round_outcome (E : v8plus_env) (keys members : List String)
    (kinds : List v8plus_type_t) (hs : List Nat) (lp built : nvlist)
    (tail : List va_item) (w : world) (r : vsetprops_result) : Prop :=
  (r.1 = 0 ∧ r.2.1 = built ∧ r.2.2.1 = tail ∧ (∃ zs, world_after zs hs w r.2.2.2) ∧
      r.2.2.2.nv_live = w.nv_live) ∨
    (r.1 = -1 ∧
      (∀ key, key ∉ keys → nvlist_lookup_nvpair r.2.1 key = nvlist_lookup_nvpair lp key) ∧
      failed_after E members kinds w r.2.2.2)

/-- A number under "a" followed by a group "x" of kind `Invalid`. -/
def groups_a_invalid : prop_groups :=
  .value "a" (.number double_1_0) (.bad "x" V8PLUS_TYPE_INVALID [])

/-- A state without recorded error, holds or live lists, in which the third libnvpair
call fails with `ENOMEM`. -/
def world_third_fails : world := ⟨V8PLUSERR_NOERROR, "", fun _ => 0, 0, [0, 0, 12]⟩

/-! ## The libnvpair calls of a build -/

/-- Whether a sequence is without a group of an unsupported kind. -/
def prop_groups.supported_dec : (gs : prop_groups) → Decidable gs.supported
  | .done => isTrue trivial
  | .value _ _ rest => supported_dec rest
  | .any _ _ rest => supported_dec rest
  | .object _ ms rest =>
    match supported_dec ms, supported_dec rest with
    | isTrue h1, isTrue h2 => isTrue ⟨h1, h2⟩
    | isFalse h1, _ => isFalse (fun h => h1 h.1)
    | _, isFalse h2 => isFalse (fun h => h2 h.2)
  | .bad _ _ _ => isFalse (fun h => h)

instance (gs : prop_groups) : Decidable gs.supported := gs.supported_dec

/-- The libnvpair adds the group (name, v) makes, in order, each by the member that a
failure of it is reported on: one add on the name of the group, and for a function handle
a second add, on the reserved marker key. -/
def prop_value.calls (name : String) (v : prop_value) : List String :=
  match v with
  | .jsfunc _ => [name, V8PLUS_JSF_COOKIE]
  | _ => [name]

/-- The function handle the group of a property holds once its adds succeeded. -/
def prop_value.held (v : prop_value) : List Nat :=
  match v with
  | .jsfunc j => [j]
  | _ => []

/-- The container after the add number `k` of the group (name, v) failed: a function
handle whose marker add failed has left its array under the name. -/
def prop_value.store_at (name : String) (v : prop_value) (k : Nat) (lp : nvlist) : nvlist :=
  match v, k with
  | .jsfunc _, 1 => nvlist_add lp (.mk name v.encoding)
  | _, _ => lp

/-- The libnvpair allocations and adds a build of the sequence makes while none of them
fails, in order, each by the member that a failure of it is reported on.  A group of a
kind other than `Object` makes the adds of its kind, on its name (a group of kind `Any`
too); an object makes the allocation of the nested container, the calls of the nested
sequence, and the add of the nested container, the first and the last on the name of the
object; a group of an unsupported kind makes no call and ends the build. -/
def prop_groups.calls : prop_groups → List String
  | .done => []
  | .value name v rest => v.calls name ++ rest.calls
  | .any name _ rest => name :: rest.calls
  | .object name ms rest =>
    name :: (ms.calls ++ (if ms.supported then name :: rest.calls else []))
  | .bad _ _ _ => []

/-- The container given to `v8plus_obj_setprops` as it is after the call number `k` of
the sequence failed: the groups before the failing one were added, and a failure at any
depth of an object leaves the enclosing container without the object. -/
def prop_groups.built_at : prop_groups → Nat → nvlist → nvlist
  | .done, _, lp => lp
  | .value name v rest, k, lp =>
    if k < (v.calls name).length then v.store_at name k lp
    else rest.built_at (k - (v.calls name).length) (v.store name lp)
  | .any _ pp rest, k, lp =>
    if k = 0 then lp else rest.built_at (k - 1) (nvlist_add lp pp)
  | .object name ms rest, k, lp =>
    if k < ms.calls.length + 2 then lp
    else rest.built_at (k - (ms.calls.length + 2))
      (nvlist_add lp (.mk name (.NVLIST (ms.build []))))
  | .bad _ _ _, _, lp => lp

/-- The function handles held when the call number `k` of the sequence fails: those of
the groups before the failing one, at any depth. -/
def prop_groups.held_at : prop_groups → Nat → List Nat
  | .done, _ => []
  | .value name v rest, k =>
    if k < (v.calls name).length then []
    else v.held ++ rest.held_at (k - (v.calls name).length)
  | .any _ _ rest, k => if k = 0 then [] else rest.held_at (k - 1)
  | .object _ ms rest, k =>
    if k = 0 then []
    else if k - 1 < ms.calls.length then ms.held_at (k - 1)
    else if k - 1 = ms.calls.length then ms.held
    else ms.held ++ rest.held_at (k - (ms.calls.length + 2))
  | .bad _ _ _, _ => []

/-- The function handle 7 under "f" in an object under "a", followed by the number 1.0
under "c". -/
def groups_a_f_c : prop_groups :=
  .object "a" (.value "f" (.jsfunc 7) .done) (.value "c" (.number double_1_0) .done)

/-! ## Verified properties -/

/-! ### Formatted text and acceptance -/

theorem snprintf_buf_of_lt (size : Nat) (text : String) (h : text.length < size) :
    snprintf_buf size text = text := by
  unfold snprintf_buf
  have : text.data.length ≤ size - 1 := by
    have : text.length = text.data.length := rfl
    omega
  rw [List.take_of_length_le this]

theorem fmt_dec_length (n e : Nat) (he : 0 < e) (h : n < 10 ^ e) : (fmt_dec n).length ≤ e :=
  Nat.repr_length n e he h

theorem args_key_eq (i : Nat) (h : i < 2 ^ 32) : args_key i = fmt_dec i := by
  unfold args_key
  apply snprintf_buf_of_lt
  have := fmt_dec_length i 10 (by norm_num) (by omega)
  omega

theorem arg_value_accepts (E : v8plus_env) (t : v8plus_type_t) (pp : nvpair)
    (vp : Option out_slot) :
    (v8plus_arg_value E t pp vp).1 = 0 ↔ kind_accepts E t pp := by
  obtain ⟨name, v⟩ := pp
  cases t <;> cases v <;>
    simp [v8plus_arg_value, kind_accepts, v8plus_typeof, nvpair_type, nvpair.value,
      nvpair_value_string, nvpair_value_double, nvpair_value_boolean_value,
      nvpair_value_uint64_array, nvpair_value_nvlist, nvpair_value_byte] <;>
    split <;> simp_all

/-! ### The first loop of `v8plus_args` -/

theorem validate_ok (E : v8plus_env) (lp : nvlist) :
    ∀ (args : List v8plus_argdecl) (i : Nat) (w : world), i + args.length < 2 ^ 32 →
      (∀ j a, args[j]? = some a →
        ∃ pp, nvlist_lookup_nvpair lp (fmt_dec (i + j)) = some pp ∧ kind_accepts E a.t pp) →
      v8plus_args_validate E lp i args w = Sum.inr (i + args.length) := by
  intro args
  induction args with
  | nil => intro i w _ _; simp [v8plus_args_validate]
  | cons a rest ih =>
    intro i w hlen hok
    obtain ⟨pp, hpp, hacc⟩ := hok 0 a (by simp)
    have hne : a.t ≠ V8PLUS_TYPE_NONE := by
      intro h; rw [h] at hacc; exact hacc
    simp only [List.length_cons] at hlen
    have hmod : (i + 1) % 2 ^ 32 = i + 1 := Nat.mod_eq_of_lt (by omega)
    have hrc := (arg_value_accepts E a.t pp none).2 hacc
    rw [Nat.add_zero] at hpp
    rw [v8plus_args_validate, if_neg hne, args_key_eq i (by omega), hpp]
    simp only [hrc, ne_eq, not_true_eq_false, if_false, hmod]
    rw [ih (i + 1) w (by omega)]
    · simp only [List.length_cons]; congr 1; omega
    · intro j b hb
      have := hok (j + 1) b (by simpa using hb)
      rwa [show i + (j + 1) = i + 1 + j by omega] at this

theorem validate_inr (E : v8plus_env) (lp : nvlist) :
    ∀ (args : List v8plus_argdecl) (i : Nat) (w : world) (k : Nat), i + args.length < 2 ^ 32 →
      (∀ a ∈ args, a.t ≠ V8PLUS_TYPE_NONE) →
      v8plus_args_validate E lp i args w = Sum.inr k →
      k = i + args.length ∧ ∀ j a, args[j]? = some a →
        ∃ pp, nvlist_lookup_nvpair lp (fmt_dec (i + j)) = some pp ∧ kind_accepts E a.t pp := by
  intro args
  induction args with
  | nil =>
    intro i w k _ _ h
    simp [v8plus_args_validate] at h
    simp [h]
  | cons a rest ih =>
    intro i w k hlen hnone h
    have hne : a.t ≠ V8PLUS_TYPE_NONE := hnone a (by simp)
    simp only [List.length_cons] at hlen
    have hmod : (i + 1) % 2 ^ 32 = i + 1 := Nat.mod_eq_of_lt (by omega)
    rw [v8plus_args_validate, if_neg hne, args_key_eq i (by omega)] at h
    cases hpp : nvlist_lookup_nvpair lp (fmt_dec i) with
    | none => simp [hpp] at h
    | some pp =>
      simp only [hpp] at h
      by_cases hrc : (v8plus_arg_value E a.t pp none).1 = 0
      · simp only [hrc, ne_eq, not_true_eq_false, if_false, hmod] at h
        obtain ⟨hk, hrest⟩ := ih (i + 1) w k (by omega)
          (fun b hb => hnone b (List.mem_cons_of_mem _ hb)) h
        refine ⟨by simp only [List.length_cons]; omega, ?_⟩
        intro j b hb
        cases j with
        | zero =>
          simp at hb
          subst hb
          exact ⟨pp, by simpa using hpp, (arg_value_accepts E _ pp none).1 hrc⟩
        | succ j =>
          have := hrest j b (by simpa using hb)
          rwa [show i + 1 + j = i + (j + 1) by omega] at this
      · simp [hrc] at h

theorem validate_inl (E : v8plus_env) (lp : nvlist) :
    ∀ (args : List v8plus_argdecl) (i : Nat) (w w1 : world),
      v8plus_args_validate E lp i args w = Sum.inl w1 →
      w1._v8plus_errno = V8PLUSERR_MISSINGARG ∨ w1._v8plus_errno = V8PLUSERR_BADARG := by
  intro args
  induction args with
  | nil => intro i w w1 h; simp [v8plus_args_validate] at h
  | cons a rest ih =>
    intro i w w1 h
    rw [v8plus_args_validate] at h
    split at h
    · simp at h
    · split at h
      · simp only [Sum.inl.injEq] at h
        subst h
        left; rfl
      · split at h
        · simp only [Sum.inl.injEq] at h
          subst h
          right; rfl
        · exact ih _ _ _ h

theorem errmsg_of_short (E : v8plus_env) (e : v8plus_errno_t) (text : String) (w : world)
    (h : text.length < V8PLUS_ERRMSG_LEN) :
    (v8plus_error E e (some text) w).2._v8plus_errno = e ∧
      (v8plus_error E e (some text) w).2._v8plus_errmsg = text := by
  simp [v8plus_error, v8plus_verror, snprintf_buf_of_lt _ _ h]

theorem validate_fail (E : v8plus_env) (lp : nvlist) :
    ∀ (args : List v8plus_argdecl) (i : Nat) (w : world) (n : Nat) (a : v8plus_argdecl),
      i + args.length < 2 ^ 32 → (∀ b ∈ args, b.t ≠ V8PLUS_TYPE_NONE) →
      args[n]? = some a →
      (∀ j b, j < n → args[j]? = some b →
        ∃ pp, nvlist_lookup_nvpair lp (fmt_dec (i + j)) = some pp ∧ kind_accepts E b.t pp) →
      (∀ pp, nvlist_lookup_nvpair lp (fmt_dec (i + n)) = some pp → ¬ kind_accepts E a.t pp) →
      v8plus_args_validate E lp i args w = Sum.inl
        (match nvlist_lookup_nvpair lp (fmt_dec (i + n)) with
          | none => (v8plus_error E V8PLUSERR_MISSINGARG
              (some ("argument " ++ fmt_dec (i + n) ++ " is required")) w).2
          | some _ => (v8plus_error E V8PLUSERR_BADARG
              (some ("argument " ++ fmt_dec (i + n) ++ " is of incorrect type")) w).2) := by
  intro args
  induction args with
  | nil => intro i w n a _ _ h; simp at h
  | cons a0 rest ih =>
    intro i w n a hlen hnone hn hprev hfail
    have hne : a0.t ≠ V8PLUS_TYPE_NONE := hnone a0 (by simp)
    simp only [List.length_cons] at hlen
    have hmod : (i + 1) % 2 ^ 32 = i + 1 := Nat.mod_eq_of_lt (by omega)
    rw [v8plus_args_validate, if_neg hne, args_key_eq i (by omega)]
    cases n with
    | zero =>
      simp at hn
      subst hn
      simp only [Nat.add_zero] at hfail ⊢
      cases hpp : nvlist_lookup_nvpair lp (fmt_dec i) with
      | none => rfl
      | some pp =>
        have hrc : (v8plus_arg_value E a0.t pp none).1 ≠ 0 :=
          fun h => hfail pp hpp ((arg_value_accepts E _ pp none).1 h)
        simp [hrc]
    | succ n =>
      obtain ⟨pp, hpp, hacc⟩ := hprev 0 a0 (by omega) (by simp)
      rw [Nat.add_zero] at hpp
      have hrc := (arg_value_accepts E a0.t pp none).2 hacc
      simp only [hpp, hrc, ne_eq, not_true_eq_false, if_false, hmod]
      have := ih (i + 1) w n a (by omega) (fun b hb => hnone b (List.mem_cons_of_mem _ hb))
        (by simpa using hn)
        (by
          intro j b hj hb
          have := hprev (j + 1) b (by omega) (by simpa using hb)
          rwa [show i + (j + 1) = i + 1 + j by omega] at this)
        (by rwa [show i + 1 + n = i + (n + 1) by omega])
      rw [this, show i + 1 + n = i + (n + 1) by omega]

/-! ### The second loop of `v8plus_args` -/

theorem arg_value_rc (E : v8plus_env) (t : v8plus_type_t) (pp : nvpair)
    (vp vq : Option out_slot) :
    (v8plus_arg_value E t pp vp).1 = (v8plus_arg_value E t pp vq).1 := by
  by_cases h : kind_accepts E t pp
  · rw [(arg_value_accepts E t pp vp).2 h, (arg_value_accepts E t pp vq).2 h]
  · obtain ⟨name, v⟩ := pp
    cases t <;> cases v <;>
      simp [v8plus_arg_value, nvpair_type, nvpair.value,
        nvpair_value_string, nvpair_value_double, nvpair_value_boolean_value,
        nvpair_value_uint64_array, nvpair_value_nvlist, nvpair_value_byte] <;>
      split <;> simp_all

theorem arg_value_payload (E : v8plus_env) (t : v8plus_type_t) (pp : nvpair)
    (vp : Option out_slot) (h : kind_accepts E t pp)
    (ht : ¬ (t = V8PLUS_TYPE_UNDEFINED ∨ t = V8PLUS_TYPE_NULL)) :
    ∃ x, decoded_payload E t pp = some x ∧ (v8plus_arg_value E t pp vp).2 = store vp x := by
  obtain ⟨name, v⟩ := pp
  cases t <;> cases v <;>
    simp_all [v8plus_arg_value, kind_accepts, v8plus_typeof, nvpair_type, nvpair.value,
      nvpair_value_string, nvpair_value_double, nvpair_value_boolean_value,
      nvpair_value_uint64_array, nvpair_value_nvlist, nvpair_value_byte, decoded_payload]
  case mk.V8PLUS_TYPE_JSFUNC.UINT64_ARRAY a =>
    obtain ⟨j, rfl⟩ := List.length_eq_one.mp h
    exact ⟨_, rfl, rfl⟩
  all_goals (split at h <;> simp at h)

theorem args_written_eq (a : v8plus_argdecl) (vp1 : Option out_slot) :
    args_written a vp1 =
      if a.t = V8PLUS_TYPE_UNDEFINED ∨ a.t = V8PLUS_TYPE_NULL then a else ⟨a.t, vp1⟩ := by
  obtain ⟨t, vp⟩ := a
  cases t <;> simp [args_written]

theorem args_vp_eq (a : v8plus_argdecl)
    (ht : ¬ (a.t = V8PLUS_TYPE_UNDEFINED ∨ a.t = V8PLUS_TYPE_NULL)) : args_vp a = a.vp := by
  obtain ⟨t, vp⟩ := a
  cases t <;> simp_all [args_vp]

theorem extract_ok (E : v8plus_env) (lp : nvlist) :
    ∀ (args : List v8plus_argdecl) (i : Nat), i + args.length < 2 ^ 32 →
      (∀ j a, args[j]? = some a →
        ∃ pp, nvlist_lookup_nvpair lp (fmt_dec (i + j)) = some pp ∧ kind_accepts E a.t pp) →
      ∃ args1, v8plus_args_extract E lp i args = some args1 := by
  intro args
  induction args with
  | nil => intro i _ _; exact ⟨[], rfl⟩
  | cons a rest ih =>
    intro i hlen hok
    obtain ⟨pp, hpp, hacc⟩ := hok 0 a (by simp)
    have hne : a.t ≠ V8PLUS_TYPE_NONE := by
      intro h; rw [h] at hacc; exact hacc
    simp only [List.length_cons] at hlen
    have hmod : (i + 1) % 2 ^ 32 = i + 1 := Nat.mod_eq_of_lt (by omega)
    have hrc := (arg_value_accepts E a.t pp (args_vp a)).2 hacc
    rw [Nat.add_zero] at hpp
    obtain ⟨rest1, hrest⟩ := ih (i + 1) (by omega) (by
      intro j b hb
      have := hok (j + 1) b (by simpa using hb)
      rwa [show i + (j + 1) = i + 1 + j by omega] at this)
    refine ⟨args_written a (v8plus_arg_value E a.t pp (args_vp a)).2 :: rest1, ?_⟩
    rw [v8plus_args_extract, if_neg hne, args_key_eq i (by omega), hpp]
    simp only [hrc, ne_eq, not_true_eq_false, if_false, hmod, hrest]

theorem extract_spec (E : v8plus_env) (lp : nvlist) :
    ∀ (args : List v8plus_argdecl) (i : Nat) (args1 : List v8plus_argdecl),
      i + args.length < 2 ^ 32 → (∀ a ∈ args, a.t ≠ V8PLUS_TYPE_NONE) →
      v8plus_args_extract E lp i args = some args1 →
      args1.length = args.length ∧ ∀ j a, args[j]? = some a →
        ∃ pp, nvlist_lookup_nvpair lp (fmt_dec (i + j)) = some pp ∧
          (v8plus_arg_value E a.t pp (args_vp a)).1 = 0 ∧
          args1[j]? = some (args_written a (v8plus_arg_value E a.t pp (args_vp a)).2) := by
  intro args
  induction args with
  | nil =>
    intro i args1 _ _ h
    simp [v8plus_args_extract] at h
    subst h
    simp
  | cons a rest ih =>
    intro i args1 hlen hnone h
    have hne : a.t ≠ V8PLUS_TYPE_NONE := hnone a (by simp)
    simp only [List.length_cons] at hlen
    have hmod : (i + 1) % 2 ^ 32 = i + 1 := Nat.mod_eq_of_lt (by omega)
    rw [v8plus_args_extract, if_neg hne, args_key_eq i (by omega)] at h
    cases hpp : nvlist_lookup_nvpair lp (fmt_dec i) with
    | none => simp [hpp] at h
    | some pp =>
      simp only [hpp] at h
      by_cases hrc : (v8plus_arg_value E a.t pp (args_vp a)).1 = 0
      · simp only [hrc, ne_eq, not_true_eq_false, if_false, hmod] at h
        cases hrest : v8plus_args_extract E lp (i + 1) rest with
        | none => simp [hrest] at h
        | some rest1 =>
          simp only [hrest, Option.some.injEq] at h
          subst h
          obtain ⟨hl, hr⟩ := ih (i + 1) rest1 (by omega)
            (fun b hb => hnone b (List.mem_cons_of_mem _ hb)) hrest
          refine ⟨by simp [hl], ?_⟩
          intro j b hb
          cases j with
          | zero =>
            simp at hb
            subst hb
            exact ⟨pp, by simpa using hpp, hrc, by simp⟩
          | succ j =>
            have := hr j b (by simpa using hb)
            rw [show i + 1 + j = i + (j + 1) by omega] at this
            simpa using this
      · simp [hrc] at h

/-! ### The argument decoder: success, failures, outputs -/

theorem positions_ok_shift (E : v8plus_env) (lp : nvlist) (args : List v8plus_argdecl) :
    positions_ok E lp args ↔
      ∀ j a, args[j]? = some a →
        ∃ pp, nvlist_lookup_nvpair lp (fmt_dec (0 + j)) = some pp ∧ kind_accepts E a.t pp := by
  simp [positions_ok]

theorem fmt_dec_short (i : Nat) (h : i < 2 ^ 32) : (fmt_dec i).length ≤ 10 :=
  fmt_dec_length i 10 (by norm_num) (by omega)

theorem args_success_iff (E : v8plus_env) (lp : nvlist) (flags : Nat)
    (args : List v8plus_argdecl) (w : world) (hwf : args_wf args) :
    (∃ w1 args1, v8plus_args E lp flags args w = some (0, w1, args1)) ↔
      positions_ok E lp args ∧
        (flags &&& V8PLUS_ARG_F_NOEXTRA ≠ 0 →
          nvlist_lookup_nvpair lp (fmt_dec args.length) = none) := by
  obtain ⟨hlen, hnone⟩ := hwf
  constructor
  · rintro ⟨w1, args1, h⟩
    unfold v8plus_args at h
    cases hv : v8plus_args_validate E lp 0 args w with
    | inl w2 => simp [hv] at h
    | inr k =>
      obtain ⟨hk, hok⟩ := validate_inr E lp args 0 w k (by omega) hnone hv
      simp only [Nat.zero_add] at hk
      subst hk
      refine ⟨(positions_ok_shift E lp args).2 hok, ?_⟩
      intro hf
      simp only [hv, args_key_eq _ hlen] at h
      by_contra hl
      have : (nvlist_lookup_nvpair lp (fmt_dec args.length)).isSome = true := by
        cases hx : nvlist_lookup_nvpair lp (fmt_dec args.length) with
        | none => exact absurd hx hl
        | some _ => rfl
      simp [hf, this] at h
  · rintro ⟨hok, hextra⟩
    have hok1 := (positions_ok_shift E lp args).1 hok
    have hv := validate_ok E lp args 0 w (by omega) hok1
    obtain ⟨args1, hx⟩ := extract_ok E lp args 0 (by omega) hok1
    refine ⟨w, args1, ?_⟩
    unfold v8plus_args
    simp only [hv, Nat.zero_add, args_key_eq _ hlen, hx]
    rw [if_neg]
    rintro ⟨hf, hs⟩
    rw [hextra hf] at hs
    simp at hs

/-- C1 (amended): for a declared kind list a caller can pass, `v8plus_args` returns 0
exactly when every position `i` has its key `decimal(i)` in the container with a value
accepted for the declared kind (classification to that kind; `Any` and `Invalid` accept
every value; the string-encoded integer accepts a string that `strtoull` converts without
error) and, when `NOEXTRA` is set, the key `decimal(len)` is absent. -/
theorem v8plus_args_success_iff (E : v8plus_env) (lp : nvlist) (flags : Nat)
    (args : List v8plus_argdecl) (w : world) (hwf : args_wf args) :
    (∃ w1 args1, v8plus_args E lp flags args w = some (0, w1, args1)) ↔
      positions_ok E lp args ∧
        (flags &&& V8PLUS_ARG_F_NOEXTRA ≠ 0 →
          nvlist_lookup_nvpair lp (fmt_dec args.length) = none) :=
  args_success_iff E lp flags args w hwf

/-- C1 (as stated, refuted): a declared `Any` accepts the number stored under "0", and a
declared string-encoded integer accepts the string "42" stored under "0"; in both calls
`v8plus_args` returns 0 although the stored value does not classify to the declared
kind. -/
theorem v8plus_args_success_not_by_typeof :
    ((∃ w1 args1, v8plus_args env_einval [.mk "0" (.DOUBLE double_3_5)] 0
        [⟨V8PLUS_TYPE_ANY, some none⟩] world0 = some (0, w1, args1)) ∧
      ¬ positions_classify [.mk "0" (.DOUBLE double_3_5)] [⟨V8PLUS_TYPE_ANY, some none⟩]) ∧
    ((∃ w1 args1, v8plus_args env_einval [.mk "0" (.STRING "42")] 0
        [⟨V8PLUS_TYPE_STRNUMBER64, some none⟩] world0 = some (0, w1, args1)) ∧
      ¬ positions_classify [.mk "0" (.STRING "42")] [⟨V8PLUS_TYPE_STRNUMBER64, some none⟩]) := by
  refine ⟨⟨⟨_, _, rfl⟩, ?_⟩, ⟨⟨_, _, rfl⟩, ?_⟩⟩
  · intro h
    obtain ⟨pp, hpp, ht⟩ := h 0 _ rfl
    have hl : nvlist_lookup_nvpair [.mk "0" (.DOUBLE double_3_5)] (fmt_dec 0) =
        some (.mk "0" (.DOUBLE double_3_5)) := by rfl
    rw [hl] at hpp
    injection hpp with hpp
    subst hpp
    exact absurd ht (by decide)
  · intro h
    obtain ⟨pp, hpp, ht⟩ := h 0 _ rfl
    have hl : nvlist_lookup_nvpair [.mk "0" (.STRING "42")] (fmt_dec 0) =
        some (.mk "0" (.STRING "42")) := by rfl
    rw [hl] at hpp
    injection hpp with hpp
    subst hpp
    exact absurd ht (by decide)

/-- Witness of C1: the signature [Number, String] with `NOEXTRA` on the container
with 3.5 under "0" and "x" under "1". -/
theorem v8plus_args_success_iff_witness :
    args_wf [⟨V8PLUS_TYPE_NUMBER, some none⟩, ⟨V8PLUS_TYPE_STRING, some none⟩] ∧
    ((∃ w1 args1, v8plus_args env_einval
        [.mk "0" (.DOUBLE double_3_5), .mk "1" (.STRING "x")] 1
        [⟨V8PLUS_TYPE_NUMBER, some none⟩, ⟨V8PLUS_TYPE_STRING, some none⟩] world0 =
          some (0, w1, args1)) ↔
      positions_ok env_einval [.mk "0" (.DOUBLE double_3_5), .mk "1" (.STRING "x")]
          [⟨V8PLUS_TYPE_NUMBER, some none⟩, ⟨V8PLUS_TYPE_STRING, some none⟩] ∧
        (1 &&& V8PLUS_ARG_F_NOEXTRA ≠ 0 →
          nvlist_lookup_nvpair [.mk "0" (.DOUBLE double_3_5), .mk "1" (.STRING "x")]
            (fmt_dec [(⟨V8PLUS_TYPE_NUMBER, some none⟩ : v8plus_argdecl),
              ⟨V8PLUS_TYPE_STRING, some none⟩].length) = none)) :=
  have hwf : args_wf [⟨V8PLUS_TYPE_NUMBER, some none⟩, ⟨V8PLUS_TYPE_STRING, some none⟩] :=
    ⟨by decide, by simp⟩
  ⟨hwf, v8plus_args_success_iff env_einval _ 1 _ world0 hwf⟩

theorem errmsg_required (E : v8plus_env) (i : Nat) (w : world) (h : i < 2 ^ 32) :
    (v8plus_error E V8PLUSERR_MISSINGARG
        (some ("argument " ++ fmt_dec i ++ " is required")) w).2._v8plus_errno =
        V8PLUSERR_MISSINGARG ∧
      (v8plus_error E V8PLUSERR_MISSINGARG
        (some ("argument " ++ fmt_dec i ++ " is required")) w).2._v8plus_errmsg =
        "argument " ++ fmt_dec i ++ " is required" := by
  apply errmsg_of_short
  have := fmt_dec_short i h
  simp only [String.length_append, V8PLUS_ERRMSG_LEN]
  have h1 : "argument ".length = 9 := by decide
  have h2 : " is required".length = 12 := by decide
  omega

theorem errmsg_incorrect (E : v8plus_env) (i : Nat) (w : world) (h : i < 2 ^ 32) :
    (v8plus_error E V8PLUSERR_BADARG
        (some ("argument " ++ fmt_dec i ++ " is of incorrect type")) w).2._v8plus_errno =
        V8PLUSERR_BADARG ∧
      (v8plus_error E V8PLUSERR_BADARG
        (some ("argument " ++ fmt_dec i ++ " is of incorrect type")) w).2._v8plus_errmsg =
        "argument " ++ fmt_dec i ++ " is of incorrect type" := by
  apply errmsg_of_short
  have := fmt_dec_short i h
  simp only [String.length_append, V8PLUS_ERRMSG_LEN]
  have h1 : "argument ".length = 9 := by decide
  have h2 : " is of incorrect type".length = 21 := by decide
  omega

/-- C2: when `i` is the lowest position whose validation fails (every lower position is
present and accepted, position `i` is absent or not accepted for its declared kind),
`v8plus_args` returns -1; the recorded kind is `MISSINGARG` with the message
"argument i is required" when the key `decimal(i)` is absent, and `BADARG` with the
message "argument i is of incorrect type" when it is present. -/
theorem v8plus_args_first_failure (E : v8plus_env) (lp : nvlist) (flags : Nat)
    (args : List v8plus_argdecl) (w : world) (hwf : args_wf args)
    (i : Nat) (a : v8plus_argdecl) (hi : args[i]? = some a)
    (hprev : ∀ j b, j < i → args[j]? = some b →
      ∃ pp, nvlist_lookup_nvpair lp (fmt_dec j) = some pp ∧ kind_accepts E b.t pp)
    (hfail : ∀ pp, nvlist_lookup_nvpair lp (fmt_dec i) = some pp → ¬ kind_accepts E a.t pp) :
    ∃ w1, v8plus_args E lp flags args w = some (-1, w1, args) ∧
      (nvlist_lookup_nvpair lp (fmt_dec i) = none →
        w1._v8plus_errno = V8PLUSERR_MISSINGARG ∧
          w1._v8plus_errmsg = "argument " ++ fmt_dec i ++ " is required") ∧
      (∀ pp, nvlist_lookup_nvpair lp (fmt_dec i) = some pp →
        w1._v8plus_errno = V8PLUSERR_BADARG ∧
          w1._v8plus_errmsg = "argument " ++ fmt_dec i ++ " is of incorrect type") := by
  obtain ⟨hlen, hnone⟩ := hwf
  have hil : i < args.length := by
    rcases Nat.lt_or_ge i args.length with h | h
    · exact h
    · rw [List.getElem?_eq_none h] at hi
      cases hi
  have hv := validate_fail E lp args 0 w i a (by omega) hnone hi
    (by simpa using hprev) (by simpa using hfail)
  simp only [Nat.zero_add] at hv
  refine ⟨_, by unfold v8plus_args; rw [hv], ?_, ?_⟩
  · intro hl
    simp only [hl]
    exact errmsg_required E i w (by omega)
  · intro pp hl
    simp only [hl]
    exact errmsg_incorrect E i w (by omega)

/-- Witness of C2: the signature [Number, String] against the container with only 3.5
under "0" fails at position 1, which is absent: `MISSINGARG`, "argument 1 is required". -/
theorem v8plus_args_first_failure_witness :
    ∃ w1, v8plus_args env_einval [.mk "0" (.DOUBLE double_3_5)] 1
        [⟨V8PLUS_TYPE_NUMBER, some none⟩, ⟨V8PLUS_TYPE_STRING, some none⟩] world0 =
        some (-1, w1, [⟨V8PLUS_TYPE_NUMBER, some none⟩, ⟨V8PLUS_TYPE_STRING, some none⟩]) ∧
      w1._v8plus_errno = V8PLUSERR_MISSINGARG ∧
      w1._v8plus_errmsg = "argument 1 is required" :=
  have hl : nvlist_lookup_nvpair [.mk "0" (.DOUBLE double_3_5)] (fmt_dec 1) = none := rfl
  let ⟨w1, h, hm, _⟩ := v8plus_args_first_failure env_einval [.mk "0" (.DOUBLE double_3_5)] 1
    [⟨V8PLUS_TYPE_NUMBER, some none⟩, ⟨V8PLUS_TYPE_STRING, some none⟩] world0
    ⟨by decide, by simp⟩ 1 ⟨V8PLUS_TYPE_STRING, some none⟩ rfl
    (by
      intro j b hj hb
      have hj0 : j = 0 := by omega
      subst hj0
      simp at hb
      subst hb
      exact ⟨.mk "0" (.DOUBLE double_3_5), rfl, rfl⟩)
    (by
      intro pp hpp
      rw [hl] at hpp
      cases hpp)
  ⟨w1, h, (hm hl).1, (hm hl).2.trans (by decide)⟩

theorem args_failure (E : v8plus_env) (lp : nvlist) (flags : Nat)
    (args : List v8plus_argdecl) (w : world) (rc : Int) (w1 : world)
    (args1 : List v8plus_argdecl)
    (h : v8plus_args E lp flags args w = some (rc, w1, args1)) (hrc : rc ≠ 0) :
    rc = -1 ∧ args1 = args ∧
      ((∃ w2, v8plus_args_validate E lp 0 args w = Sum.inl w2 ∧ w1 = w2) ∨
        ((∃ k, v8plus_args_validate E lp 0 args w = Sum.inr k) ∧
          w1._v8plus_errno = V8PLUSERR_EXTRAARG)) := by
  unfold v8plus_args at h
  cases hv : v8plus_args_validate E lp 0 args w with
  | inl w2 =>
    simp only [hv, Option.some.injEq, Prod.mk.injEq] at h
    obtain ⟨h1, h2, h3⟩ := h
    exact ⟨h1.symm, h3.symm, Or.inl ⟨w2, rfl, h2.symm⟩⟩
  | inr k =>
    simp only [hv] at h
    split at h
    · simp only [Option.some.injEq, Prod.mk.injEq] at h
      obtain ⟨h1, h2, h3⟩ := h
      refine ⟨h1.symm, h3.symm, Or.inr ⟨⟨k, rfl⟩, ?_⟩⟩
      rw [← h2]
      rfl
    · split at h
      · cases h
      · simp only [Option.some.injEq, Prod.mk.injEq] at h
        exact absurd h.1.symm hrc

/-- C3: when every declared position is present and accepted, then with `NOEXTRA` set
`v8plus_args` fails with kind `EXTRAARG` exactly when the key `decimal(N)` exists, and
with the flag clear it succeeds whether or not that key exists; when some declared
position is missing or not accepted, the call fails with a kind other than `EXTRAARG`. -/
theorem v8plus_args_extra (E : v8plus_env) (lp : nvlist) (flags : Nat)
    (args : List v8plus_argdecl) (w : world) (hwf : args_wf args) :
    (positions_ok E lp args →
      (flags &&& V8PLUS_ARG_F_NOEXTRA ≠ 0 →
        ((∃ w1 args1, v8plus_args E lp flags args w = some (-1, w1, args1) ∧
            w1._v8plus_errno = V8PLUSERR_EXTRAARG) ↔
          ∃ pp, nvlist_lookup_nvpair lp (fmt_dec args.length) = some pp)) ∧
      (flags &&& V8PLUS_ARG_F_NOEXTRA = 0 →
        ∃ w1 args1, v8plus_args E lp flags args w = some (0, w1, args1))) ∧
    (¬ positions_ok E lp args →
      ∃ w1, v8plus_args E lp flags args w = some (-1, w1, args) ∧
        w1._v8plus_errno ≠ V8PLUSERR_EXTRAARG) := by
  have hiff := args_success_iff E lp flags args w hwf
  obtain ⟨hlen, hnone⟩ := hwf
  refine ⟨fun hok => ⟨fun hf => ⟨?_, ?_⟩, fun hf => ?_⟩, fun hbad => ?_⟩
  · rintro ⟨w1, args1, h, -⟩
    cases hx : nvlist_lookup_nvpair lp (fmt_dec args.length) with
    | some pp => exact ⟨pp, rfl⟩
    | none =>
      obtain ⟨w2, args2, h2⟩ := hiff.2 ⟨hok, fun _ => hx⟩
      rw [h2] at h
      simp at h
  · rintro ⟨pp, hpp⟩
    have hv := validate_ok E lp args 0 w (by omega) ((positions_ok_shift E lp args).1 hok)
    refine ⟨(v8plus_error E V8PLUSERR_EXTRAARG
      (some "superfluous extra argument(s) detected") w).2, args, ?_, rfl⟩
    unfold v8plus_args
    simp only [hv, Nat.zero_add, args_key_eq _ hlen, hpp]
    rw [if_pos ⟨hf, rfl⟩]
  · exact hiff.2 ⟨hok, fun h => absurd hf h⟩
  · cases hv : v8plus_args_validate E lp 0 args w with
    | inr k =>
      exact absurd ((positions_ok_shift E lp args).2
        (validate_inr E lp args 0 w k (by omega) hnone hv).2) hbad
    | inl w1 =>
      refine ⟨w1, by unfold v8plus_args; rw [hv], ?_⟩
      rcases validate_inl E lp args 0 w w1 hv with h | h <;> rw [h] <;> decide

/-- Witness of C3: the signature [Number, String] with `NOEXTRA` on the container with
3.5 under "0", "x" under "1" and true under "2" fails with `EXTRAARG`. -/
theorem v8plus_args_extra_witness :
    ∃ w1 args1, v8plus_args env_einval
        [.mk "0" (.DOUBLE double_3_5), .mk "1" (.STRING "x"), .mk "2" (.BOOLEAN_VALUE true)] 1
        [⟨V8PLUS_TYPE_NUMBER, some none⟩, ⟨V8PLUS_TYPE_STRING, some none⟩] world0 =
          some (-1, w1, args1) ∧ w1._v8plus_errno = V8PLUSERR_EXTRAARG :=
  (((v8plus_args_extra env_einval
      [.mk "0" (.DOUBLE double_3_5), .mk "1" (.STRING "x"), .mk "2" (.BOOLEAN_VALUE true)] 1
      [⟨V8PLUS_TYPE_NUMBER, some none⟩, ⟨V8PLUS_TYPE_STRING, some none⟩] world0
      ⟨by decide, by simp⟩).1
    (by
      intro i a hi
      match i, hi with
      | 0, hi =>
        simp at hi
        subst hi
        exact ⟨.mk "0" (.DOUBLE double_3_5), rfl, rfl⟩
      | 1, hi =>
        simp at hi
        subst hi
        exact ⟨.mk "1" (.STRING "x"), rfl, rfl⟩
      | n + 2, hi => simp at hi)).1 (by decide)).2
    ⟨.mk "2" (.BOOLEAN_VALUE true), rfl⟩

/-- C4: when `v8plus_args` succeeds, the declarations come back in order and position
`i` holds: for `Undefined` and `Null` the declaration untouched (no slot), and for every
other kind the decoded payload of the value stored under `decimal(i)`, written through
the pointer of that position (nothing is written through a `NULL` pointer). -/
theorem v8plus_args_outputs (E : v8plus_env) (lp : nvlist) (flags : Nat)
    (args : List v8plus_argdecl) (w w1 : world) (args1 : List v8plus_argdecl)
    (hwf : args_wf args) (h : v8plus_args E lp flags args w = some (0, w1, args1)) :
    args1.length = args.length ∧
    ∀ i a, args[i]? = some a →
      ∃ pp, nvlist_lookup_nvpair lp (fmt_dec i) = some pp ∧
        ((a.t = V8PLUS_TYPE_UNDEFINED ∨ a.t = V8PLUS_TYPE_NULL) → args1[i]? = some a) ∧
        (¬ (a.t = V8PLUS_TYPE_UNDEFINED ∨ a.t = V8PLUS_TYPE_NULL) →
          ∃ x, decoded_payload E a.t pp = some x ∧ args1[i]? = some ⟨a.t, store a.vp x⟩) := by
  obtain ⟨hlen, hnone⟩ := hwf
  unfold v8plus_args at h
  cases hv : v8plus_args_validate E lp 0 args w with
  | inl w2 => simp [hv] at h
  | inr k =>
    simp only [hv] at h
    split at h
    · simp at h
    · cases hx : v8plus_args_extract E lp 0 args with
      | none => simp [hx] at h
      | some args2 =>
        simp only [hx, Option.some.injEq, Prod.mk.injEq, true_and] at h
        obtain ⟨-, rfl⟩ := h
        obtain ⟨hl, hs⟩ := extract_spec E lp args 0 args2 (by omega) hnone hx
        refine ⟨hl, ?_⟩
        intro i a hi
        obtain ⟨pp, hpp, hrc, hw⟩ := hs i a hi
        rw [Nat.zero_add] at hpp
        refine ⟨pp, hpp, ?_, ?_⟩
        · intro ht
          rw [hw, args_written_eq, if_pos ht]
        · intro ht
          have hacc := (arg_value_accepts E a.t pp (args_vp a)).1 hrc
          obtain ⟨x, hx1, hx2⟩ := arg_value_payload E a.t pp (args_vp a) hacc ht
          refine ⟨x, hx1, ?_⟩
          rw [hw, args_written_eq, if_neg ht, hx2, args_vp_eq a ht]

/-- Witness of C4: the signature [Number, String] with `NOEXTRA` against the container
with 3.5 under "0" and "x" under "1" succeeds with outputs (3.5, "x"). -/
theorem v8plus_args_outputs_witness :
    v8plus_args env_einval [.mk "0" (.DOUBLE double_3_5), .mk "1" (.STRING "x")] 1
        [⟨V8PLUS_TYPE_NUMBER, some none⟩, ⟨V8PLUS_TYPE_STRING, some none⟩] world0 =
      some (0, world0, [⟨V8PLUS_TYPE_NUMBER, some (some (.double double_3_5))⟩,
        ⟨V8PLUS_TYPE_STRING, some (some (.string "x"))⟩]) ∧
    ∃ pp, nvlist_lookup_nvpair [.mk "0" (.DOUBLE double_3_5), .mk "1" (.STRING "x")]
        (fmt_dec 1) = some pp ∧
      ∃ x, decoded_payload env_einval V8PLUS_TYPE_STRING pp = some x ∧
        [(⟨V8PLUS_TYPE_NUMBER, some (some (.double double_3_5))⟩ : v8plus_argdecl),
          ⟨V8PLUS_TYPE_STRING, some (some (.string "x"))⟩][1]? =
          some ⟨V8PLUS_TYPE_STRING, store (some none) x⟩ :=
  ⟨rfl,
    let ⟨pp, hpp, _, hx⟩ := (v8plus_args_outputs env_einval
      [.mk "0" (.DOUBLE double_3_5), .mk "1" (.STRING "x")] 1
      [⟨V8PLUS_TYPE_NUMBER, some none⟩, ⟨V8PLUS_TYPE_STRING, some none⟩] world0 world0
      [⟨V8PLUS_TYPE_NUMBER, some (some (.double double_3_5))⟩,
        ⟨V8PLUS_TYPE_STRING, some (some (.string "x"))⟩]
      ⟨by decide, by simp⟩ rfl).2 1 ⟨V8PLUS_TYPE_STRING, some none⟩ rfl
    ⟨pp, hpp, hx (by decide)⟩⟩

/-- C5: whenever `v8plus_args` fails, the return code is -1, the recorded kind is
`MISSINGARG`, `BADARG` or `EXTRAARG`, and every declaration comes back with its
storage as it was before the call, also those of the positions before the failing one. -/
theorem v8plus_args_all_or_nothing (E : v8plus_env) (lp : nvlist) (flags : Nat)
    (args : List v8plus_argdecl) (w : world) (rc : Int) (w1 : world)
    (args1 : List v8plus_argdecl)
    (h : v8plus_args E lp flags args w = some (rc, w1, args1)) (hrc : rc ≠ 0) :
    rc = -1 ∧ args1 = args ∧
      (w1._v8plus_errno = V8PLUSERR_MISSINGARG ∨ w1._v8plus_errno = V8PLUSERR_BADARG ∨
        w1._v8plus_errno = V8PLUSERR_EXTRAARG) := by
  obtain ⟨h1, h2, h3⟩ := args_failure E lp flags args w rc w1 args1 h hrc
  refine ⟨h1, h2, ?_⟩
  rcases h3 with ⟨w2, hv, rfl⟩ | ⟨-, he⟩
  · rcases validate_inl E lp args 0 w w1 hv with h | h
    · exact Or.inl h
    · exact Or.inr (Or.inl h)
  · exact Or.inr (Or.inr he)

/-- Witness of C5: the signature [Number, String] against the container with 3.5 under
"0" and a boolean under "1" fails at position 1; the slot of position 0, which validated,
still holds what it held before. -/
theorem v8plus_args_all_or_nothing_witness :
    v8plus_args env_einval [.mk "0" (.DOUBLE double_3_5), .mk "1" (.BOOLEAN_VALUE true)] 0
        [⟨V8PLUS_TYPE_NUMBER, some (some (.uint64 7))⟩, ⟨V8PLUS_TYPE_STRING, some none⟩]
        world0 =
      some (-1, ⟨V8PLUSERR_BADARG, "argument 1 is of incorrect type", world0.jsfunc_holds, 0, []⟩,
        [⟨V8PLUS_TYPE_NUMBER, some (some (.uint64 7))⟩, ⟨V8PLUS_TYPE_STRING, some none⟩]) ∧
    ((-1 : Int) = -1 ∧
      [(⟨V8PLUS_TYPE_NUMBER, some (some (.uint64 7))⟩ : v8plus_argdecl),
          ⟨V8PLUS_TYPE_STRING, some none⟩] =
        [⟨V8PLUS_TYPE_NUMBER, some (some (.uint64 7))⟩, ⟨V8PLUS_TYPE_STRING, some none⟩] ∧
      ((⟨V8PLUSERR_BADARG, "argument 1 is of incorrect type", world0.jsfunc_holds, 0, []⟩ :
          world)._v8plus_errno = V8PLUSERR_MISSINGARG ∨
        (⟨V8PLUSERR_BADARG, "argument 1 is of incorrect type", world0.jsfunc_holds, 0, []⟩ :
          world)._v8plus_errno = V8PLUSERR_BADARG ∨
        (⟨V8PLUSERR_BADARG, "argument 1 is of incorrect type", world0.jsfunc_holds, 0, []⟩ :
          world)._v8plus_errno = V8PLUSERR_EXTRAARG)) :=
  ⟨rfl, v8plus_args_all_or_nothing env_einval
    [.mk "0" (.DOUBLE double_3_5), .mk "1" (.BOOLEAN_VALUE true)] 0
    [⟨V8PLUS_TYPE_NUMBER, some (some (.uint64 7))⟩, ⟨V8PLUS_TYPE_STRING, some none⟩]
    world0 (-1) ⟨V8PLUSERR_BADARG, "argument 1 is of incorrect type", world0.jsfunc_holds, 0, []⟩
    _ rfl (by decide)⟩

/-! ### Classification, and decimal text read back by `strtoull` -/

/-- C9: `v8plus_typeof` is defined on every stored pair: a double gives `Number`, a
string `String`, a nested list `Object`, a boolean value `Boolean`, the valueless boolean
flag `Undefined`, a byte `Null` when it is 0 and `Invalid` otherwise, an unsigned-64 array
`FunctionHandle` when its length is 1 and `Invalid` otherwise, and a string array or any
other primitive encoding `Invalid`. -/
theorem v8plus_typeof_table (name : String) :
    (∀ d, v8plus_typeof (.mk name (.DOUBLE d)) = V8PLUS_TYPE_NUMBER) ∧
    (∀ s, v8plus_typeof (.mk name (.STRING s)) = V8PLUS_TYPE_STRING) ∧
    (∀ l, v8plus_typeof (.mk name (.NVLIST l)) = V8PLUS_TYPE_OBJECT) ∧
    (∀ b, v8plus_typeof (.mk name (.BOOLEAN_VALUE b)) = V8PLUS_TYPE_BOOLEAN) ∧
    v8plus_typeof (.mk name .BOOLEAN) = V8PLUS_TYPE_UNDEFINED ∧
    (∀ v, v8plus_typeof (.mk name (.BYTE v)) =
      if v = 0 then V8PLUS_TYPE_NULL else V8PLUS_TYPE_INVALID) ∧
    (∀ a, v8plus_typeof (.mk name (.UINT64_ARRAY a)) =
      if a.length = 1 then V8PLUS_TYPE_JSFUNC else V8PLUS_TYPE_INVALID) ∧
    (∀ a, v8plus_typeof (.mk name (.STRING_ARRAY a)) = V8PLUS_TYPE_INVALID) ∧
    (∀ code, v8plus_typeof (.mk name (.OTHER code)) = V8PLUS_TYPE_INVALID) := by
  refine ⟨?_, ?_, ?_, ?_, ?_, ?_, ?_, ?_, ?_⟩ <;> intros <;>
    simp [v8plus_typeof, nvpair_type, nvpair.value, nvpair_value_byte,
      nvpair_value_uint64_array]

theorem digit_value_digitChar (n : Nat) (h : n < 10) :
    digit_value (Nat.digitChar n) = some n := by
  interval_cases n <;> rfl

theorem digitChar_toNat (n : Nat) (h : n < 10) : (Nat.digitChar n).toNat = 48 + n := by
  interval_cases n <;> rfl

theorem strtoull_digits_toDigitsCore :
    ∀ (fuel n : Nat) (ds : List Char), n < fuel →
      strtoull_digits 10 (Nat.toDigitsCore 10 fuel n ds) none =
        strtoull_digits 10 ds (some n) := by
  intro fuel
  induction fuel with
  | zero => intro n ds h; omega
  | succ fuel ih =>
    intro n ds h
    have hd := digit_value_digitChar (n % 10) (Nat.mod_lt _ (by norm_num))
    have hlt : n % 10 < 10 := Nat.mod_lt _ (by norm_num)
    rw [Nat.toDigitsCore]
    by_cases h0 : n / 10 = 0
    · simp only [h0, if_true]
      have hn : n % 10 = n := Nat.mod_eq_of_lt (by omega)
      rw [hn] at hd hlt
      simp [strtoull_digits, hd, hlt, hn]
    · simp only [h0, if_false]
      rw [ih (n / 10) _ (by omega)]
      have : n / 10 * 10 + n % 10 = n := by omega
      simp [strtoull_digits, hd, hlt, this]

theorem toDigitsCore_head :
    ∀ (fuel n : Nat) (ds : List Char), n < fuel → 0 < n →
      ∃ c cs, Nat.toDigitsCore 10 fuel n ds = c :: cs ∧ 49 ≤ c.toNat ∧ c.toNat ≤ 57 := by
  intro fuel
  induction fuel with
  | zero => intro n ds h; omega
  | succ fuel ih =>
    intro n ds h hpos
    rw [Nat.toDigitsCore]
    by_cases h0 : n / 10 = 0
    · simp only [h0, if_true]
      have hn : n % 10 = n := Nat.mod_eq_of_lt (by omega)
      refine ⟨_, _, rfl, ?_⟩
      rw [hn, digitChar_toNat n (by omega)]
      omega
    · simp only [h0, if_false]
      exact ih (n / 10) _ (by omega) (by omega)

theorem strtoull_base_decimal (c : Char) (cs : List Char) (hc : c.toNat ≠ 48) :
    strtoull_base (c :: cs) = (10, c :: cs) := by
  rcases cs with _ | ⟨x, _ | ⟨h, r⟩⟩ <;> simp [strtoull_base, hc]

theorem strtoull_scan_fmt_dec (v : Nat) : strtoull_scan (fmt_dec v) = (false, some v) := by
  rcases Nat.eq_zero_or_pos v with h | h
  · subst h; rfl
  · have hdata : (fmt_dec v).data = Nat.toDigitsCore 10 (v + 1) v [] := rfl
    obtain ⟨c, cs, hcs, h1, h2⟩ := toDigitsCore_head (v + 1) v [] (by omega) h
    have hdig := strtoull_digits_toDigitsCore (v + 1) v [] (by omega)
    rw [hcs] at hdig
    have hsp : isspace c = false := by
      simp [isspace]
      omega
    unfold strtoull_scan
    rw [hdata, hcs]
    have hdrop : List.dropWhile isspace (c :: cs) = c :: cs := by
      simp [List.dropWhile, hsp]
    have hsign : strtoull_sign (c :: cs) = (false, c :: cs) := by
      have h45 : c.toNat ≠ 45 := by omega
      have h43 : c.toNat ≠ 43 := by omega
      simp [strtoull_sign, h45, h43]
    simp only [hdrop, hsign, strtoull_base_decimal c cs (by omega), hdig]
    simp [strtoull_digits]

theorem strtoull_fmt_dec (E : v8plus_env) (v : Nat) (h : v < 2 ^ 64) :
    strtoull E (fmt_dec v) = (v, 0) := by
  unfold strtoull
  rw [strtoull_scan_fmt_dec]
  have : ¬ ULLONG_MAX < v := by
    unfold ULLONG_MAX
    omega
  simp [this]

/-! ### The object builder: independence of the bound and of trailing arguments -/

theorem vsetprops_added_app (E : v8plus_env) (name : String) (ap x : List va_item)
    (r : Nat × nvlist × world) (rc : Int) (lp1 : nvlist) (ap1 : List va_item) (w1 : world)
    (h : vsetprops_added E name ap r = some (rc, lp1, ap1, w1)) :
    vsetprops_added E name (ap ++ x) r = some (rc, lp1, ap1 ++ x, w1) := by
  unfold vsetprops_added at h ⊢
  split at h <;> simp_all

theorem vsetprops_arm_app (E : v8plus_env) (lp : nvlist) (nt : v8plus_type_t) (name : String)
    (ap x : List va_item) (w : world) (rc : Int) (lp1 : nvlist) (ap1 : List va_item)
    (w1 : world) (h : vsetprops_arm E lp nt name ap w = some (rc, lp1, ap1, w1)) :
    vsetprops_arm E lp nt name (ap ++ x) w = some (rc, lp1, ap1 ++ x, w1) := by
  cases nt <;> simp only [vsetprops_arm] at h ⊢
  case V8PLUS_TYPE_NULL => exact vsetprops_added_app E name ap x _ rc lp1 ap1 w1 h
  case V8PLUS_TYPE_UNDEFINED => exact vsetprops_added_app E name ap x _ rc lp1 ap1 w1 h
  case V8PLUS_TYPE_JSFUNC =>
    cases ap with
    | nil => simp at h
    | cons a ap0 =>
      cases a <;> simp only [List.cons_append] at h ⊢ <;> try (simp at h; done)
      split at h
      · simp_all
      · split at h <;> simp_all
  all_goals first
    | (simp only [Option.some.injEq, Prod.mk.injEq] at h ⊢
       obtain ⟨h1, h2, h3, h4⟩ := h
       subst h1 h2 h3 h4
       simp)
    | (cases ap with
       | nil => simp at h
       | cons a ap0 =>
         cases a <;> simp only [List.cons_append] at h ⊢ <;> try (simp at h; done)
         exact vsetprops_added_app E name ap0 x _ rc lp1 ap1 w1 h)

theorem vsetprops_object_add_app (E : v8plus_env) (lp : nvlist) (name : String)
    (x : List va_item) (rc0 : Int) (slp : nvlist) (ap3 : List va_item) (w3 : world)
    (rc : Int) (lp1 : nvlist) (ap1 : List va_item) (w1 : world)
    (h : vsetprops_object_add E lp name (some (rc0, slp, ap3, w3)) = some (rc, lp1, ap1, w1)) :
    vsetprops_object_add E lp name (some (rc0, slp, ap3 ++ x, w3)) =
      some (rc, lp1, ap1 ++ x, w1) := by
  simp only [vsetprops_object_add] at h ⊢
  split at h
  · simp_all
  · split at h <;> simp_all

theorem vsetprops_loop_app
    (next next1 : nvlist → v8plus_type_t → List va_item → world → Option vsetprops_result)
    (x : List va_item)
    (hnext : ∀ lp nt ap w rc lp1 ap1 w1, next lp nt ap w = some (rc, lp1, ap1, w1) →
      next1 lp nt (ap ++ x) w = some (rc, lp1, ap1 ++ x, w1))
    (rc0 : Int) (lp0 : nvlist) (ap0 : List va_item) (w0 : world)
    (rc : Int) (lp1 : nvlist) (ap1 : List va_item) (w1 : world)
    (h : vsetprops_loop next (some (rc0, lp0, ap0, w0)) = some (rc, lp1, ap1, w1)) :
    vsetprops_loop next1 (some (rc0, lp0, ap0 ++ x, w0)) = some (rc, lp1, ap1 ++ x, w1) := by
  simp only [vsetprops_loop] at h ⊢
  split at h
  · simp_all
  · rename_i hrc
    rw [if_neg hrc]
    cases ap0 with
    | nil => simp at h
    | cons a ap5 =>
      cases a <;> simp only [List.cons_append] at h ⊢ <;> try (simp at h)
      exact hnext _ _ _ _ _ _ _ _ h

theorem vsetprops_loop_none
    (next : nvlist → v8plus_type_t → List va_item → world → Option vsetprops_result) :
    vsetprops_loop next none = none := rfl

theorem vsetprops_object_add_none (E : v8plus_env) (lp : nvlist) (name : String) :
    vsetprops_object_add E lp name none = none := rfl

theorem vsetprops_succ (E : v8plus_env) (fuel : Nat) (lp : nvlist) (nt : v8plus_type_t)
    (ap : List va_item) (w : world) :
    v8plus_obj_vsetprops E (fuel + 1) lp nt ap w =
      if nt = V8PLUS_TYPE_NONE then some (0, lp, ap, w)
      else
        match ap with
        | .str name :: ap1 =>
          vsetprops_loop (v8plus_obj_vsetprops E fuel)
            (match nt with
              | V8PLUS_TYPE_OBJECT =>
                match ap1 with
                | .type nt1 :: ap2 =>
                  let a := nvlist_alloc w
                  if a.1 ≠ 0 then
                    some (-1, lp, ap2, (v8plus_nverr E a.1 (some name) a.2.2).2)
                  else
                    vsetprops_object_add E lp name
                      (v8plus_obj_vsetprops E fuel a.2.1 nt1 ap2 a.2.2)
                | _ => none
              | _ => vsetprops_arm E lp nt name ap1 w)
        | _ => none := rfl

/-- A result of the builder does not depend on the bound, once it is large enough, nor on
what follows the arguments it reads. -/
theorem vsetprops_ext (E : v8plus_env) :
    ∀ (f : Nat) (lp : nvlist) (nt : v8plus_type_t) (ap : List va_item) (w : world)
      (rc : Int) (lp1 : nvlist) (ap1 : List va_item) (w1 : world),
      v8plus_obj_vsetprops E f lp nt ap w = some (rc, lp1, ap1, w1) →
      ∀ (g : Nat) (x : List va_item), f ≤ g →
        v8plus_obj_vsetprops E g lp nt (ap ++ x) w = some (rc, lp1, ap1 ++ x, w1) := by
  intro f
  induction f with
  | zero => intro lp nt ap w rc lp1 ap1 w1 h; simp [v8plus_obj_vsetprops] at h
  | succ f ih =>
    intro lp nt ap w rc lp1 ap1 w1 h g x hg
    obtain ⟨g, rfl⟩ : ∃ g0, g = g0 + 1 := ⟨g - 1, by omega⟩
    have hfg : f ≤ g := by omega
    have hnext : ∀ lp nt ap w rc lp1 ap1 w1,
        v8plus_obj_vsetprops E f lp nt ap w = some (rc, lp1, ap1, w1) →
        v8plus_obj_vsetprops E g lp nt (ap ++ x) w = some (rc, lp1, ap1 ++ x, w1) :=
      fun lp nt ap w rc lp1 ap1 w1 h => ih lp nt ap w rc lp1 ap1 w1 h g x hfg
    rw [vsetprops_succ] at h ⊢
    by_cases hnt : nt = V8PLUS_TYPE_NONE
    · simp only [hnt, if_true, Option.some.injEq, Prod.mk.injEq] at h ⊢
      obtain ⟨h1, h2, h3, h4⟩ := h
      subst h1 h2 h3 h4
      simp
    · simp only [hnt, if_false] at h ⊢
      cases ap with
      | nil => simp at h
      | cons a ap0 =>
        cases a <;> simp only [List.cons_append] at h ⊢ <;> try (simp at h; done)
        rename_i name
        -- the outcome of the arm, for both bounds
        have hgroup : ∀ (G G1 : Option vsetprops_result),
            (∀ rc0 lp0 ap0 w0, G = some (rc0, lp0, ap0, w0) →
              G1 = some (rc0, lp0, ap0 ++ x, w0)) →
            vsetprops_loop (v8plus_obj_vsetprops E f) G = some (rc, lp1, ap1, w1) →
            vsetprops_loop (v8plus_obj_vsetprops E g) G1 = some (rc, lp1, ap1 ++ x, w1) := by
          intro G G1 hG hl
          cases G with
          | none => simp [vsetprops_loop] at hl
          | some r =>
            obtain ⟨rc0, lp0, ap0, w0⟩ := r
            rw [hG rc0 lp0 ap0 w0 rfl]
            exact vsetprops_loop_app _ _ x hnext rc0 lp0 ap0 w0 rc lp1 ap1 w1 hl
        refine hgroup _ _ ?_ h
        intro rc0 lp0 ap2 w0 hG
        cases nt <;> (try simp only at hG ⊢) <;>
          (try exact vsetprops_arm_app E lp _ name ap0 x w rc0 lp0 ap2 w0 hG)
        cases ap0 with
        | nil => simp at hG
        | cons b ap3 =>
          cases b <;> simp only [List.cons_append] at hG ⊢ <;> try (simp at hG)
          rename_i nt1
          by_cases ha : (nvlist_alloc w).1 = 0
          · simp only [ha, ne_eq, not_true_eq_false, if_false] at hG ⊢
            cases hn : v8plus_obj_vsetprops E f (nvlist_alloc w).2.1 nt1 ap3
                (nvlist_alloc w).2.2 with
            | none => rw [hn] at hG; simp [vsetprops_object_add] at hG
            | some r =>
              obtain ⟨rc3, slp, ap4, w3⟩ := r
              rw [hn] at hG
              rw [hnext _ _ _ _ _ _ _ _ hn]
              exact vsetprops_object_add_app E lp name x rc3 slp ap4 w3 _ _ _ _ hG
          · simp only [ha, ne_eq, not_false_eq_true, if_true, Option.some.injEq,
              Prod.mk.injEq] at hG ⊢
            rcases hG with ⟨rfl, rfl, rfl, rfl⟩
            simp

/-! ### The object builder: containers and single properties -/

theorem lookup_add_self (lp : nvlist) (p : nvpair) :
    nvlist_lookup_nvpair (nvlist_add lp p) p.name = some p := by
  unfold nvlist_lookup_nvpair nvlist_add
  rw [List.find?_append]
  have h : List.find? (fun q => q.name == p.name)
      (List.filter (fun q => q.name != p.name) lp) = none := by
    rw [List.find?_eq_none]
    intro q hq
    have := (List.mem_filter.1 hq).2
    simpa using this
  rw [h]
  simp

theorem lookup_add_other (lp : nvlist) (p : nvpair) (name : String) (h : p.name ≠ name) :
    nvlist_lookup_nvpair (nvlist_add lp p) name = nvlist_lookup_nvpair lp name := by
  unfold nvlist_lookup_nvpair nvlist_add
  rw [List.find?_append]
  have hp : List.find? (fun q => q.name == name) [p] = none := by simp [h]
  rw [hp, Option.or_none]
  have hb : (p.name == name) = false := by simpa using h
  induction lp with
  | nil => rfl
  | cons q rest ih =>
    by_cases hq : q.name = p.name
    · have h1 : (q.name != p.name) = false := by simp [hq]
      have h2 : (q.name == name) = false := by rw [hq]; exact hb
      rw [List.filter_cons, List.find?_cons, h1, h2]
      simpa using ih
    · have h1 : (q.name != p.name) = true := by simpa using hq
      rw [List.filter_cons, h1]
      simp only [if_true, List.find?_cons]
      rw [ih]

theorem nv_result_nil (w : world) (hs : w.nv_script = []) : nv_result w = (0, w) := by
  simp [nv_result, hs]

theorem nvlist_add_pair_nil (lp : nvlist) (p : nvpair) (w : world) (hs : w.nv_script = []) :
    nvlist_add_pair lp p w = (0, nvlist_add lp p, w) := by
  simp [nvlist_add_pair, nv_result_nil w hs]

theorem nvlist_alloc_nil (w : world) (hs : w.nv_script = []) :
    nvlist_alloc w = (0, [], { w with nv_live := w.nv_live + 1 }) := by
  simp [nvlist_alloc, nv_result_nil w hs]

theorem nv_result_script (w : world) (hs : w.nv_script = []) :
    (nv_result w).2.nv_script = [] := by
  rw [nv_result_nil w hs]; exact hs

theorem vsetprops_added_script (E : v8plus_env) (name : String) (ap : List va_item)
    (r : Nat × nvlist × world) (rc : Int) (lp1 : nvlist) (ap1 : List va_item) (w1 : world)
    (h : vsetprops_added E name ap r = some (rc, lp1, ap1, w1))
    (hs : r.2.2.nv_script = []) : w1.nv_script = [] := by
  unfold vsetprops_added at h
  split at h <;> simp only [Option.some.injEq, Prod.mk.injEq] at h <;>
    obtain ⟨-, -, -, rfl⟩ := h
  · exact hs
  · exact hs

theorem vsetprops_arm_script (E : v8plus_env) (lp : nvlist) (nt : v8plus_type_t)
    (name : String) (ap : List va_item) (w : world) (rc : Int) (lp1 : nvlist)
    (ap1 : List va_item) (w1 : world)
    (h : vsetprops_arm E lp nt name ap w = some (rc, lp1, ap1, w1))
    (hs : w.nv_script = []) : w1.nv_script = [] := by
  have hadd : ∀ lp p, (nvlist_add_pair lp p w).2.2.nv_script = [] := by
    intro lp p; rw [nvlist_add_pair_nil lp p w hs]; exact hs
  cases nt <;> simp only [vsetprops_arm] at h
  case V8PLUS_TYPE_NULL => exact vsetprops_added_script E name ap _ rc lp1 ap1 w1 h (hadd _ _)
  case V8PLUS_TYPE_UNDEFINED =>
    exact vsetprops_added_script E name ap _ rc lp1 ap1 w1 h (hadd _ _)
  case V8PLUS_TYPE_JSFUNC =>
    cases ap with
    | nil => simp at h
    | cons a ap0 =>
      cases a <;> try (simp at h)
      simp only [nvlist_add_uint64_array, nvlist_add_string_array,
        nvlist_add_pair_nil _ _ w hs, ne_eq, not_true_eq_false, if_false,
        Option.some.injEq, Prod.mk.injEq] at h
      obtain ⟨-, -, -, rfl⟩ := h
      exact hs
  all_goals first
    | (simp only [Option.some.injEq, Prod.mk.injEq] at h
       obtain ⟨-, -, -, rfl⟩ := h
       exact hs)
    | (cases ap with
       | nil => simp at h
       | cons a ap0 =>
         cases a <;> try (simp at h)
         exact vsetprops_added_script E name ap0 _ rc lp1 ap1 w1 h (hadd _ _))

theorem vsetprops_script (E : v8plus_env) :
    ∀ (f : Nat) (lp : nvlist) (nt : v8plus_type_t) (ap : List va_item) (w : world)
      (rc : Int) (lp1 : nvlist) (ap1 : List va_item) (w1 : world),
      v8plus_obj_vsetprops E f lp nt ap w = some (rc, lp1, ap1, w1) →
      w.nv_script = [] → w1.nv_script = [] := by
  intro f
  induction f with
  | zero => intro lp nt ap w rc lp1 ap1 w1 h; simp [v8plus_obj_vsetprops] at h
  | succ f ih =>
    intro lp nt ap w rc lp1 ap1 w1 h hs
    rw [vsetprops_succ] at h
    by_cases hnt : nt = V8PLUS_TYPE_NONE
    · simp only [hnt, if_true, Option.some.injEq, Prod.mk.injEq] at h
      obtain ⟨-, -, -, rfl⟩ := h
      exact hs
    · simp only [hnt, if_false] at h
      cases ap with
      | nil => simp at h
      | cons a ap0 =>
        cases a <;> try (simp at h)
        rename_i name
        have hgroup : ∀ (G : Option vsetprops_result),
            (∀ rc0 lp0 ap0 w0, G = some (rc0, lp0, ap0, w0) → w0.nv_script = []) →
            vsetprops_loop (v8plus_obj_vsetprops E f) G = some (rc, lp1, ap1, w1) →
            w1.nv_script = [] := by
          intro G hG hl
          cases G with
          | none => simp [vsetprops_loop] at hl
          | some r =>
            obtain ⟨rc0, lp0, ap2, w0⟩ := r
            have hw0 := hG rc0 lp0 ap2 w0 rfl
            simp only [vsetprops_loop] at hl
            by_cases hrc : rc0 = 0
            · simp only [hrc, ne_eq, not_true_eq_false, if_false] at hl
              cases ap2 with
              | nil => simp at hl
              | cons b ap3 =>
                cases b <;> try (simp at hl)
                exact ih _ _ _ _ _ _ _ _ hl hw0
            · simp only [hrc, ne_eq, not_false_eq_true, if_true, Option.some.injEq,
                Prod.mk.injEq] at hl
              obtain ⟨-, -, -, rfl⟩ := hl
              exact hw0
        refine hgroup _ ?_ h
        intro rc0 lp0 ap2 w0 hG
        cases nt <;> (try simp only at hG) <;>
          (try exact vsetprops_arm_script E lp _ name ap0 w rc0 lp0 ap2 w0 hG hs)
        cases ap0 with
        | nil => simp at hG
        | cons b ap3 =>
          cases b <;> try (simp at hG)
          rename_i nt1
          rw [nvlist_alloc_nil w hs] at hG
          simp only [ne_eq, not_true_eq_false, if_false] at hG
          cases hn : v8plus_obj_vsetprops E f [] nt1 ap3
              { w with nv_live := w.nv_live + 1 } with
          | none => rw [hn] at hG; simp [vsetprops_object_add] at hG
          | some r =>
            obtain ⟨rc3, slp, ap4, w3⟩ := r
            rw [hn] at hG
            have hw3 : w3.nv_script = [] := ih _ _ _ _ _ _ _ _ hn hs
            by_cases hrc3 : rc3 = 0
            · simp only [vsetprops_object_add, nvlist_add_nvlist,
                nvlist_add_pair_nil _ _ w3 hw3, hrc3, ne_eq, not_true_eq_false, if_false,
                Option.some.injEq, Prod.mk.injEq] at hG
              obtain ⟨-, -, -, rfl⟩ := hG
              exact hw3
            · simp only [vsetprops_object_add, hrc3, ne_eq, not_false_eq_true, if_true,
                Option.some.injEq, Prod.mk.injEq] at hG
              obtain ⟨-, -, -, rfl⟩ := hG
              exact hw3

theorem setprops_single (E : v8plus_env) (lp : nvlist) (nt : v8plus_type_t) (name : String)
    (ap1 : List va_item) (w : world) (lp1 : nvlist) (w1 : world)
    (hnone : nt ≠ V8PLUS_TYPE_NONE) (hobj : nt ≠ V8PLUS_TYPE_OBJECT)
    (h : vsetprops_arm E lp nt name ap1 w = some (0, lp1, [.type V8PLUS_TYPE_NONE], w1)) :
    v8plus_obj_setprops E lp nt (.str name :: ap1) w = some (0, lp1, w1) := by
  have hlen : ap1.length = (ap1.length - 1) + 1 := by
    cases ap1 with
    | nil =>
      cases nt <;> simp [vsetprops_arm, vsetprops_added] at h <;> split at h <;> simp at h
    | cons a r => simp
  unfold v8plus_obj_setprops
  simp only [List.length_cons]
  rw [vsetprops_succ, if_neg hnone]
  have hg : (match nt with
      | V8PLUS_TYPE_OBJECT =>
        match ap1 with
        | .type nt1 :: ap2 =>
          let a := nvlist_alloc w
          if a.1 ≠ 0 then
            some (-1, lp, ap2, (v8plus_nverr E a.1 (some name) a.2.2).2)
          else
            vsetprops_object_add E lp name
              (v8plus_obj_vsetprops E (ap1.length + 1) a.2.1 nt1 ap2 a.2.2)
        | _ => none
      | _ => vsetprops_arm E lp nt name ap1 w) = vsetprops_arm E lp nt name ap1 w := by
    cases nt <;> first | rfl | exact absurd rfl hobj
  simp only [hg, h, vsetprops_loop]
  rw [hlen, vsetprops_succ]
  simp

theorem setprops_object (E : v8plus_env) (lp : nvlist) (name : String) (nt1 : v8plus_type_t)
    (nested : List va_item) (w : world) (slp : nvlist) (w2 : world)
    (hs : w.nv_script = [])
    (h : v8plus_obj_vsetprops E (nested.length + 1) [] nt1 nested
      { w with nv_live := w.nv_live + 1 } = some (0, slp, [], w2)) :
    v8plus_obj_setprops E lp V8PLUS_TYPE_OBJECT
        (.str name :: .type nt1 :: (nested ++ [.type V8PLUS_TYPE_NONE])) w =
      some (0, nvlist_add lp (.mk name (.NVLIST slp)), nvlist_free w2) := by
  have hw2 : w2.nv_script = [] := vsetprops_script E _ _ _ _ _ _ _ _ _ h hs
  have hn := vsetprops_ext E _ _ _ _ _ _ _ _ _ h (nested.length + 1 + 1 + 1)
    [.type V8PLUS_TYPE_NONE] (by omega)
  unfold v8plus_obj_setprops
  simp only [List.length_cons, List.length_append, List.length_nil]
  rw [vsetprops_succ]
  simp only [nvlist_alloc_nil w hs, hn, vsetprops_object_add, nvlist_add_nvlist,
    nvlist_add_pair_nil _ _ w2 hw2, vsetprops_loop, List.nil_append, ne_eq,
    not_true_eq_false, if_false, reduceCtorEq]
  rw [show nested.length + 3 = (nested.length + 2) + 1 from rfl, vsetprops_succ]
  simp

theorem snprintf_u64 (v : Nat) (h : v < 2 ^ 64) :
    snprintf_buf 32 (fmt_dec (v % 2 ^ 64)) = fmt_dec v := by
  rw [Nat.mod_eq_of_lt h]
  apply snprintf_buf_of_lt
  have := fmt_dec_length v 20 (by norm_num) (by omega)
  omega

theorem arm_of_prop (E : v8plus_env) (lp : nvlist) (name : String) (g : prop_value)
    (w : world) (hs : w.nv_script = []) (hg : g.valid) :
    ∃ lp1 w1,
      vsetprops_arm E lp g.kind name (g.va ++ [.type V8PLUS_TYPE_NONE]) w =
        some (0, lp1, [.type V8PLUS_TYPE_NONE], w1) ∧
      (g.kind ≠ V8PLUS_TYPE_JSFUNC → lp1 = nvlist_add lp (.mk name g.encoding) ∧ w1 = w) ∧
      (∀ j, g = .jsfunc j →
        lp1 = nvlist_add (nvlist_add lp (.mk name g.encoding))
          (.mk V8PLUS_JSF_COOKIE (.STRING_ARRAY [])) ∧ w1 = v8plus_jsfunc_hold j w) := by
  cases g
  case jsfunc j =>
    exact ⟨nvlist_add (nvlist_add lp (.mk name (.UINT64_ARRAY [j])))
      (.mk V8PLUS_JSF_COOKIE (.STRING_ARRAY [])), v8plus_jsfunc_hold j w, by
      simp [vsetprops_arm, prop_value.kind, prop_value.va,
        nvlist_add_uint64_array, nvlist_add_string_array, nvlist_add_pair_nil _ _ w hs],
        by simp [prop_value.kind], by
          intro j1 hj
          cases hj
          exact ⟨rfl, rfl⟩⟩
  case strnumber64 v =>
    refine ⟨nvlist_add lp (.mk name (.STRING (fmt_dec v))), w, ?_,
      fun _ => ⟨rfl, rfl⟩, by intro j hj; cases hj⟩
    simp only [vsetprops_arm, prop_value.kind, prop_value.va, List.cons_append,
      List.nil_append, snprintf_u64 v hg, nvlist_add_string, nvlist_add_pair_nil _ _ w hs,
      vsetprops_added]
    simp
  all_goals
    refine ⟨nvlist_add lp (.mk name (prop_value.encoding _)), w, ?_,
      fun _ => ⟨rfl, rfl⟩, by intro j hj; cases hj⟩
    simp [vsetprops_arm, vsetprops_added, prop_value.kind, prop_value.va,
      prop_value.encoding, nvlist_add_string, nvlist_add_double, nvlist_add_boolean_value,
      nvlist_add_byte, nvlist_add_boolean, nvlist_add_pair_nil _ _ w hs]

/-- The outcome of the builder on a single property, and the pair it leaves under the
name. -/
theorem setprops_prop (E : v8plus_env) (lp : nvlist) (name : String) (g : prop_value)
    (w : world) (hs : w.nv_script = []) (hg : g.valid) :
    ∃ lp1 w1,
      v8plus_obj_setprops E lp g.kind (.str name :: (g.va ++ [.type V8PLUS_TYPE_NONE])) w =
        some (0, lp1, w1) ∧
      ((g.kind = V8PLUS_TYPE_JSFUNC → name ≠ V8PLUS_JSF_COOKIE) →
        nvlist_lookup_nvpair lp1 name = some (.mk name g.encoding)) ∧
      (g.kind ≠ V8PLUS_TYPE_JSFUNC → w1 = w) ∧
      (∀ j, g = .jsfunc j →
        nvlist_lookup_nvpair lp1 V8PLUS_JSF_COOKIE =
          some (.mk V8PLUS_JSF_COOKIE (.STRING_ARRAY [])) ∧ w1 = v8plus_jsfunc_hold j w) := by
  obtain ⟨lp1, w1, harm, h1, h2⟩ := arm_of_prop E lp name g w hs hg
  have hk1 : g.kind ≠ V8PLUS_TYPE_NONE := by cases g <;> simp [prop_value.kind]
  have hk2 : g.kind ≠ V8PLUS_TYPE_OBJECT := by cases g <;> simp [prop_value.kind]
  refine ⟨lp1, w1, setprops_single E lp g.kind name _ w lp1 w1 hk1 hk2 harm, ?_,
    fun hj => (h1 hj).2, ?_⟩
  · intro hname
    by_cases hj : g.kind = V8PLUS_TYPE_JSFUNC
    · obtain ⟨j, rfl⟩ : ∃ j, g = .jsfunc j := by
        cases g <;> simp [prop_value.kind] at hj
        exact ⟨_, rfl⟩
      rw [(h2 j rfl).1, lookup_add_other _ _ _ (by
        show V8PLUS_JSF_COOKIE ≠ name
        exact fun h => hname hj h.symm)]
      exact lookup_add_self lp (.mk name _)
    · rw [(h1 hj).1]
      exact lookup_add_self lp (.mk name _)
  · intro j hj
    refine ⟨?_, (h2 j hj).2⟩
    rw [(h2 j hj).1]
    exact lookup_add_self _ (.mk V8PLUS_JSF_COOKIE (.STRING_ARRAY []))

/-! ### Round trips and function handles -/

/-- C6 (amended): on a state without scripted failures, the builder applied to the single
group (name, k, v) of a supported kind with a valid payload succeeds, and the pair then
stored under the name classifies to k for Number, String, Boolean, Null, Undefined,
FunctionHandle and Object, and to String for StringEncodedInteger (for a function handle
the name is not the reserved marker key; for an object the nested sequence builds). -/
theorem built_pair_classifies (E : v8plus_env) (lp : nvlist) (name : String) (w : world)
    (hs : w.nv_script = []) :
    (∀ g : prop_value, g.valid → (g.kind = V8PLUS_TYPE_JSFUNC → name ≠ V8PLUS_JSF_COOKIE) →
      ∃ lp1 w1 pp,
        v8plus_obj_setprops E lp g.kind (.str name :: (g.va ++ [.type V8PLUS_TYPE_NONE])) w =
          some (0, lp1, w1) ∧
        nvlist_lookup_nvpair lp1 name = some pp ∧
        v8plus_typeof pp =
          if g.kind = V8PLUS_TYPE_STRNUMBER64 then V8PLUS_TYPE_STRING else g.kind) ∧
    (∀ nt1 nested slp w2,
      v8plus_obj_vsetprops E (nested.length + 1) (nvlist_alloc w).2.1 nt1 nested
        (nvlist_alloc w).2.2 = some (0, slp, [], w2) →
      ∃ lp1 w1 pp,
        v8plus_obj_setprops E lp V8PLUS_TYPE_OBJECT
          (.str name :: .type nt1 :: (nested ++ [.type V8PLUS_TYPE_NONE])) w =
          some (0, lp1, w1) ∧
        nvlist_lookup_nvpair lp1 name = some pp ∧
        v8plus_typeof pp = V8PLUS_TYPE_OBJECT) := by
  constructor
  · intro g hg hname
    obtain ⟨lp1, w1, h, hl, -, -⟩ := setprops_prop E lp name g w hs hg
    refine ⟨lp1, w1, _, h, hl hname, ?_⟩
    cases g <;> rfl
  · intro nt1 nested slp w2 h
    rw [nvlist_alloc_nil w hs] at h
    exact ⟨_, _, _, setprops_object E lp name nt1 nested w slp w2 hs h,
      lookup_add_self lp (.mk name (.NVLIST slp)), rfl⟩

/-- C6 (as stated, refuted): the builder stores the string-encoded integer 42 under "n"
as the string "42", which classifies as String, not as StringEncodedInteger. -/
theorem built_strnumber64_classifies_string :
    v8plus_obj_setprops env_einval [] V8PLUS_TYPE_STRNUMBER64
        [.str "n", .u64 42, .type V8PLUS_TYPE_NONE] world0 =
      some (0, [.mk "n" (.STRING "42")], world0) ∧
    nvlist_lookup_nvpair [.mk "n" (.STRING "42")] "n" = some (.mk "n" (.STRING "42")) ∧
    v8plus_typeof (.mk "n" (.STRING "42")) = V8PLUS_TYPE_STRING ∧
    v8plus_typeof (.mk "n" (.STRING "42")) ≠ V8PLUS_TYPE_STRNUMBER64 :=
  ⟨rfl, rfl, rfl, by decide⟩

/-- Witness of C6: the number 3.5 built under "n" classifies as Number, and the object
with the number 1.0 under "b", built under "a", classifies as Object. -/
theorem built_pair_classifies_witness :
    (∃ lp1 w1 pp,
      v8plus_obj_setprops env_einval [] V8PLUS_TYPE_NUMBER
        [.str "n", .dbl double_3_5, .type V8PLUS_TYPE_NONE] world0 = some (0, lp1, w1) ∧
      nvlist_lookup_nvpair lp1 "n" = some pp ∧
      v8plus_typeof pp = V8PLUS_TYPE_NUMBER) ∧
    (∃ lp1 w1 pp,
      v8plus_obj_setprops env_einval [] V8PLUS_TYPE_OBJECT
        [.str "a", .type V8PLUS_TYPE_NUMBER, .str "b", .dbl double_1_0,
          .type V8PLUS_TYPE_NONE, .type V8PLUS_TYPE_NONE] world0 = some (0, lp1, w1) ∧
      nvlist_lookup_nvpair lp1 "a" = some pp ∧
      v8plus_typeof pp = V8PLUS_TYPE_OBJECT) :=
  ⟨(built_pair_classifies env_einval [] "n" world0 rfl).1 (.number double_3_5) trivial
      (fun h => by cases h),
    (built_pair_classifies env_einval [] "a" world0 rfl).2 V8PLUS_TYPE_NUMBER
      [.str "b", .dbl double_1_0, .type V8PLUS_TYPE_NONE]
      [.mk "b" (.DOUBLE double_1_0)] ⟨V8PLUSERR_NOERROR, "", world0.jsfunc_holds, 1, []⟩ rfl⟩

/-- C7: on a state without scripted failures, the builder applied to the single group
(name, k, v) of a supported kind with a valid payload succeeds, and extraction with
expected kind k from the pair then stored under the name returns 0 and leaves exactly v in
the output slot (the slot keeps its content for Null and Undefined, which carry no
payload); every unsigned 64-bit v of a string-encoded integer comes back; for an object
the payload is the container built from the nested sequence (for a function handle the
name is not the reserved marker key). -/
theorem built_pair_extracts (E : v8plus_env) (lp : nvlist) (name : String) (w : world)
    (c : out_slot) (hs : w.nv_script = []) :
    (∀ g : prop_value, g.valid → (g.kind = V8PLUS_TYPE_JSFUNC → name ≠ V8PLUS_JSF_COOKIE) →
      ∃ lp1 w1 pp,
        v8plus_obj_setprops E lp g.kind (.str name :: (g.va ++ [.type V8PLUS_TYPE_NONE])) w =
          some (0, lp1, w1) ∧
        nvlist_lookup_nvpair lp1 name = some pp ∧
        v8plus_arg_value E g.kind pp (some c) = (0, some (g.payload.or c))) ∧
    (∀ nt1 nested slp w2,
      v8plus_obj_vsetprops E (nested.length + 1) (nvlist_alloc w).2.1 nt1 nested
        (nvlist_alloc w).2.2 = some (0, slp, [], w2) →
      ∃ lp1 w1 pp,
        v8plus_obj_setprops E lp V8PLUS_TYPE_OBJECT
          (.str name :: .type nt1 :: (nested ++ [.type V8PLUS_TYPE_NONE])) w =
          some (0, lp1, w1) ∧
        nvlist_lookup_nvpair lp1 name = some pp ∧
        v8plus_arg_value E V8PLUS_TYPE_OBJECT pp (some c) = (0, some (some (.nvlist slp)))) := by
  constructor
  · intro g hg hname
    obtain ⟨lp1, w1, h, hl, -, -⟩ := setprops_prop E lp name g w hs hg
    refine ⟨lp1, w1, _, h, hl hname, ?_⟩
    cases g
    case strnumber64 v =>
      simp [v8plus_arg_value, prop_value.kind, prop_value.encoding, prop_value.payload,
        nvpair_type, nvpair.value, nvpair_value_string, strtoull_fmt_dec E v hg, store]
    all_goals rfl
  · intro nt1 nested slp w2 h
    rw [nvlist_alloc_nil w hs] at h
    exact ⟨_, _, _, setprops_object E lp name nt1 nested w slp w2 hs h,
      lookup_add_self lp (.mk name (.NVLIST slp)), rfl⟩

/-- Witness of C7: the largest unsigned 64-bit value, built under "n" as a string-encoded
integer, is extracted unchanged, and the object with the number 1.0 under "b", built under
"a", is extracted as the container holding that pair. -/
theorem built_pair_extracts_witness :
    (∃ lp1 w1 pp,
      v8plus_obj_setprops env_einval [] V8PLUS_TYPE_STRNUMBER64
        [.str "n", .u64 18446744073709551615, .type V8PLUS_TYPE_NONE] world0 =
          some (0, lp1, w1) ∧
      nvlist_lookup_nvpair lp1 "n" = some pp ∧
      v8plus_arg_value env_einval V8PLUS_TYPE_STRNUMBER64 pp (some none) =
        (0, some (some (.uint64 18446744073709551615)))) ∧
    (∃ lp1 w1 pp,
      v8plus_obj_setprops env_einval [] V8PLUS_TYPE_OBJECT
        [.str "a", .type V8PLUS_TYPE_NUMBER, .str "b", .dbl double_1_0,
          .type V8PLUS_TYPE_NONE, .type V8PLUS_TYPE_NONE] world0 = some (0, lp1, w1) ∧
      nvlist_lookup_nvpair lp1 "a" = some pp ∧
      v8plus_arg_value env_einval V8PLUS_TYPE_OBJECT pp (some none) =
        (0, some (some (.nvlist [.mk "b" (.DOUBLE double_1_0)])))) :=
  ⟨(built_pair_extracts env_einval [] "n" world0 none rfl).1
      (.strnumber64 18446744073709551615)
      (by show (18446744073709551615 : Nat) < 2 ^ 64; decide) (fun h => by cases h),
    (built_pair_extracts env_einval [] "a" world0 none rfl).2 V8PLUS_TYPE_NUMBER
      [.str "b", .dbl double_1_0, .type V8PLUS_TYPE_NONE]
      [.mk "b" (.DOUBLE double_1_0)] ⟨V8PLUSERR_NOERROR, "", world0.jsfunc_holds, 1, []⟩ rfl⟩

/-- C10: on a state without scripted failures, encoding the function handle `j` under a
name other than the reserved marker key succeeds and leaves, in the container that
received the name, (a) the name as an unsigned-64 array holding exactly `j`, (b) the
reserved marker key, and (c) the hold count of `j` one higher, every other hold count
unchanged; encoding the same handle into a second container afterwards leaves its hold
count at the initial value plus 2. -/
theorem jsfunc_encoding (E : v8plus_env) (lp lp2 : nvlist) (name name2 : String) (j : Nat)
    (w : world) (hs : w.nv_script = []) (hj : j < 2 ^ 64)
    (hn : name ≠ V8PLUS_JSF_COOKIE) (hn2 : name2 ≠ V8PLUS_JSF_COOKIE) :
    ∃ lp1 w1,
      v8plus_obj_setprops E lp V8PLUS_TYPE_JSFUNC
        [.str name, .jsfunc j, .type V8PLUS_TYPE_NONE] w = some (0, lp1, w1) ∧
      nvlist_lookup_nvpair lp1 name = some (.mk name (.UINT64_ARRAY [j])) ∧
      nvlist_lookup_nvpair lp1 V8PLUS_JSF_COOKIE =
        some (.mk V8PLUS_JSF_COOKIE (.STRING_ARRAY [])) ∧
      w1.jsfunc_holds j = w.jsfunc_holds j + 1 ∧
      (∀ k, k ≠ j → w1.jsfunc_holds k = w.jsfunc_holds k) ∧
      ∃ lp3 w3,
        v8plus_obj_setprops E lp2 V8PLUS_TYPE_JSFUNC
          [.str name2, .jsfunc j, .type V8PLUS_TYPE_NONE] w1 = some (0, lp3, w3) ∧
        nvlist_lookup_nvpair lp3 name2 = some (.mk name2 (.UINT64_ARRAY [j])) ∧
        nvlist_lookup_nvpair lp3 V8PLUS_JSF_COOKIE =
          some (.mk V8PLUS_JSF_COOKIE (.STRING_ARRAY [])) ∧
        w3.jsfunc_holds j = w.jsfunc_holds j + 2 := by
  obtain ⟨lp1, w1, h, hl, -, hc⟩ := setprops_prop E lp name (.jsfunc j) w hs hj
  obtain ⟨hcookie, hw1⟩ := hc j rfl
  have hs1 : w1.nv_script = [] := by rw [hw1]; exact hs
  obtain ⟨lp3, w3, h3, hl3, -, hc3⟩ := setprops_prop E lp2 name2 (.jsfunc j) w1 hs1 hj
  obtain ⟨hcookie3, hw3⟩ := hc3 j rfl
  have hh1 : w1.jsfunc_holds j = w.jsfunc_holds j + 1 := by
    rw [hw1]; simp [v8plus_jsfunc_hold]
  refine ⟨lp1, w1, h, hl (fun _ => hn), hcookie, hh1, ?_, lp3, w3, h3, hl3 (fun _ => hn2),
    hcookie3, ?_⟩
  · intro k hk
    rw [hw1]
    simp [v8plus_jsfunc_hold, Function.update, hk]
  · rw [hw3]
    simp [v8plus_jsfunc_hold, hh1]

/-- Witness of C10: the handle 7 encoded under "f" into an empty container and then under
"g" into another one. -/
theorem jsfunc_encoding_witness :
    ∃ lp1 w1,
      v8plus_obj_setprops env_einval [] V8PLUS_TYPE_JSFUNC
        [.str "f", .jsfunc 7, .type V8PLUS_TYPE_NONE] world0 = some (0, lp1, w1) ∧
      nvlist_lookup_nvpair lp1 "f" = some (.mk "f" (.UINT64_ARRAY [7])) ∧
      nvlist_lookup_nvpair lp1 V8PLUS_JSF_COOKIE =
        some (.mk V8PLUS_JSF_COOKIE (.STRING_ARRAY [])) ∧
      w1.jsfunc_holds 7 = world0.jsfunc_holds 7 + 1 ∧
      (∀ k, k ≠ 7 → w1.jsfunc_holds k = world0.jsfunc_holds k) ∧
      ∃ lp3 w3,
        v8plus_obj_setprops env_einval [.mk "a" (.BYTE 0)] V8PLUS_TYPE_JSFUNC
          [.str "g", .jsfunc 7, .type V8PLUS_TYPE_NONE] w1 = some (0, lp3, w3) ∧
        nvlist_lookup_nvpair lp3 "g" = some (.mk "g" (.UINT64_ARRAY [7])) ∧
        nvlist_lookup_nvpair lp3 V8PLUS_JSF_COOKIE =
          some (.mk V8PLUS_JSF_COOKIE (.STRING_ARRAY [])) ∧
        w3.jsfunc_holds 7 = world0.jsfunc_holds 7 + 2 :=
  jsfunc_encoding env_einval [] [.mk "a" (.BYTE 0)] "f" "g" 7 world0 rfl (by decide)
    (by decide) (by decide)

/-! ### String-encoded integers -/

/-- C8 (amended): extraction with expected kind StringEncodedInteger from a stored string
succeeds exactly when `strtoull(s, NULL, 0)` leaves `errno` at 0: when the text, after
white space and a sign, begins with a run of digits (base 8, 10 or 16 by its prefix) whose
value fits 64 bits, whatever follows the run, or when it has no such digits and the C
library does not report `EINVAL` for a failed conversion.  With the digits, the value
written is theirs (negated modulo 2^64 after a minus sign).  With a C library that reports
`EINVAL` for a failed conversion, a string without leading digits is rejected:
`v8plus_arg_value` returns -1 and writes nothing, and `v8plus_args` reports `BADARG`. -/
theorem strnumber64_extraction (E : v8plus_env) (name s : String) (vp : Option out_slot) :
    ((v8plus_arg_value E V8PLUS_TYPE_STRNUMBER64 (.mk name (.STRING s)) vp).1 = 0 ↔
      match (strtoull_scan s).2 with
      | some v => v ≤ ULLONG_MAX
      | none => E.noconv_einval = false) ∧
    (∀ v, (strtoull_scan s).2 = some v → v ≤ ULLONG_MAX →
      v8plus_arg_value E V8PLUS_TYPE_STRNUMBER64 (.mk name (.STRING s)) vp =
        (0, store vp (.uint64 (if (strtoull_scan s).1 then (2 ^ 64 - v) % 2 ^ 64 else v)))) ∧
    (E.noconv_einval = true → (strtoull_scan s).2 = none →
      v8plus_arg_value E V8PLUS_TYPE_STRNUMBER64 (.mk name (.STRING s)) vp = (-1, vp) ∧
      ∀ flags w, ∃ w1,
        v8plus_args E [.mk "0" (.STRING s)] flags [⟨V8PLUS_TYPE_STRNUMBER64, vp⟩] w =
          some (-1, w1, [⟨V8PLUS_TYPE_STRNUMBER64, vp⟩]) ∧
        w1._v8plus_errno = V8PLUSERR_BADARG) := by
  have hval : ∀ nm, v8plus_arg_value E V8PLUS_TYPE_STRNUMBER64 (.mk nm (.STRING s)) vp =
      if (strtoull E s).2 ≠ 0 then (-1, vp) else (0, store vp (.uint64 (strtoull E s).1)) := by
    intro nm
    simp [v8plus_arg_value, nvpair_type, nvpair.value, nvpair_value_string]
  rcases hscan : strtoull_scan s with ⟨neg, dv⟩
  refine ⟨?_, ?_, ?_⟩
  · rw [hval]
    cases dv with
    | none =>
      cases hb : E.noconv_einval <;> simp [strtoull, hscan, hb, EINVAL]
    | some v =>
      by_cases hv : ULLONG_MAX < v
      · simp [strtoull, hscan, hv, ERANGE, Nat.not_le.2 hv]
      · simp [strtoull, hscan, hv, Nat.not_lt.1 hv]
  · intro v hv hle
    simp only at hv
    subst hv
    rw [hval]
    simp [strtoull, hscan, Nat.not_lt.2 hle]
  · intro hb hnone
    simp only at hnone
    subst hnone
    have hrc : ∀ nm vq, v8plus_arg_value E V8PLUS_TYPE_STRNUMBER64 (.mk nm (.STRING s)) vq =
        (-1, vq) := by
      intro nm vq
      simp [v8plus_arg_value, nvpair_type, nvpair.value, nvpair_value_string, strtoull,
        hscan, hb, EINVAL]
    refine ⟨hrc name vp, ?_⟩
    intro flags w
    have hkey : args_key 0 = "0" := by decide
    refine ⟨(v8plus_error E V8PLUSERR_BADARG
      (some ("argument " ++ fmt_dec 0 ++ " is of incorrect type")) w).2, ?_, rfl⟩
    simp [v8plus_args, v8plus_args_validate, hkey, nvlist_lookup_nvpair, nvpair.name, hrc]

/-- C8 (as stated, refuted): the text "12abc" is not an integer literal as a whole, yet
its extraction as a string-encoded integer succeeds with the value 12, whether or not the
C library reports `EINVAL` for a failed conversion, and `v8plus_args` accepts it. -/
theorem strnumber64_accepts_leading_digits :
    is_uint64_literal "12abc" = false ∧
    v8plus_arg_value env_einval V8PLUS_TYPE_STRNUMBER64 (.mk "0" (.STRING "12abc"))
      (some none) = (0, some (some (.uint64 12))) ∧
    v8plus_arg_value env_iso V8PLUS_TYPE_STRNUMBER64 (.mk "0" (.STRING "12abc"))
      (some none) = (0, some (some (.uint64 12))) ∧
    v8plus_args env_einval [.mk "0" (.STRING "12abc")] 1
      [⟨V8PLUS_TYPE_STRNUMBER64, some none⟩] world0 =
      some (0, world0, [⟨V8PLUS_TYPE_STRNUMBER64, some (some (.uint64 12))⟩]) :=
  ⟨by decide, rfl, rfl, rfl⟩

/-- Witness of C8: with a C library that reports `EINVAL` for a failed conversion, the
strings "abc" and "" are rejected and nothing is written. -/
theorem strnumber64_extraction_witness :
    (v8plus_arg_value env_einval V8PLUS_TYPE_STRNUMBER64 (.mk "0" (.STRING "abc"))
        (some none) = (-1, some none) ∧
      ∀ flags w, ∃ w1,
        v8plus_args env_einval [.mk "0" (.STRING "abc")] flags
            [⟨V8PLUS_TYPE_STRNUMBER64, some none⟩] w =
          some (-1, w1, [⟨V8PLUS_TYPE_STRNUMBER64, some none⟩]) ∧
        w1._v8plus_errno = V8PLUSERR_BADARG) ∧
    (v8plus_arg_value env_einval V8PLUS_TYPE_STRNUMBER64 (.mk "0" (.STRING ""))
        (some none) = (-1, some none) ∧
      ∀ flags w, ∃ w1,
        v8plus_args env_einval [.mk "0" (.STRING "")] flags
            [⟨V8PLUS_TYPE_STRNUMBER64, some none⟩] w =
          some (-1, w1, [⟨V8PLUS_TYPE_STRNUMBER64, some none⟩]) ∧
        w1._v8plus_errno = V8PLUSERR_BADARG) :=
  ⟨(strnumber64_extraction env_einval "0" "abc" (some none)).2.2 rfl rfl,
    (strnumber64_extraction env_einval "0" "" (some none)).2.2 rfl rfl⟩

/-! ### Recording an error -/

/-- C14: recording an error with `v8plus_error` or `v8plus_verror` sets the error kind
to the given kind and returns `NULL`.  With an absent message and kind `NOERROR` the
stored message is empty, which is what `v8plus_void` leaves (kind `NOERROR`, empty
message, `NULL` result); with an absent message and another kind it is that kind's
canonical description as `snprintf` leaves it in the message buffer, hence the description
itself when it fits the buffer; with a message present it is the formatted message cut to
the buffer length (the length minus the terminating byte). -/
theorem v8plus_error_records (E : v8plus_env) (e : v8plus_errno_t) (w : world) :
    (∀ fmt, (v8plus_verror E e fmt w).1 = none ∧ (v8plus_error E e fmt w).1 = none ∧
      (v8plus_verror E e fmt w).2._v8plus_errno = e ∧
      (v8plus_error E e fmt w).2._v8plus_errno = e ∧
      (v8plus_error E e fmt w).2._v8plus_errmsg = (v8plus_verror E e fmt w).2._v8plus_errmsg) ∧
    (v8plus_error E V8PLUSERR_NOERROR none w).2._v8plus_errmsg = "" ∧
    v8plus_void E w =
      (none, { w with _v8plus_errmsg := "", _v8plus_errno := V8PLUSERR_NOERROR }) ∧
    (e ≠ V8PLUSERR_NOERROR →
      (v8plus_error E e none w).2._v8plus_errmsg =
          snprintf_buf V8PLUS_ERRMSG_LEN (E.v8plus_strerror e) ∧
        ((E.v8plus_strerror e).length < V8PLUS_ERRMSG_LEN →
          (v8plus_error E e none w).2._v8plus_errmsg = E.v8plus_strerror e)) ∧
    (∀ text, (v8plus_error E e (some text) w).2._v8plus_errmsg =
      ⟨text.data.take (V8PLUS_ERRMSG_LEN - 1)⟩) := by
  refine ⟨fun fmt => ⟨rfl, rfl, rfl, rfl, rfl⟩, rfl, rfl, ?_, fun text => rfl⟩
  intro he
  have h1 : (v8plus_error E e none w).2._v8plus_errmsg =
      snprintf_buf V8PLUS_ERRMSG_LEN (E.v8plus_strerror e) := by
    simp [v8plus_error, v8plus_verror, he]
  exact ⟨h1, fun hlen => by rw [h1, snprintf_buf_of_lt _ _ hlen]⟩

/-- Witness of C14: recording `BADARG` without a message stores the description of
`BADARG`. -/
theorem v8plus_error_records_witness :
    (v8plus_error env_einval V8PLUSERR_BADARG none world0).2._v8plus_errmsg = "error" :=
  ((v8plus_error_records env_einval V8PLUSERR_BADARG world0).2.2.2.1 (by decide)).2
    (by decide)

/-! ### The second loop of `v8plus_args` cannot abort -/

theorem validate_extract (E : v8plus_env) (lp : nvlist) :
    ∀ (args : List v8plus_argdecl) (i : Nat) (w : world) (k : Nat),
      v8plus_args_validate E lp i args w = Sum.inr k →
      ∃ args1, v8plus_args_extract E lp i args = some args1 := by
  intro args
  induction args with
  | nil => intro i w k _; exact ⟨[], rfl⟩
  | cons a rest ih =>
    intro i w k h
    rw [v8plus_args_validate] at h
    rw [v8plus_args_extract]
    by_cases hne : a.t = V8PLUS_TYPE_NONE
    · exact ⟨a :: rest, by simp [hne]⟩
    · simp only [hne, if_false] at h ⊢
      cases hpp : nvlist_lookup_nvpair lp (args_key i) with
      | none => simp [hpp] at h
      | some pp =>
        simp only [hpp] at h ⊢
        by_cases hrc : (v8plus_arg_value E a.t pp none).1 = 0
        · simp only [hrc, ne_eq, not_true_eq_false, if_false] at h
          obtain ⟨rest1, hrest⟩ := ih _ w k h
          have hrc1 : (v8plus_arg_value E a.t pp (args_vp a)).1 = 0 := by
            rw [arg_value_rc E a.t pp (args_vp a) none]; exact hrc
          exact ⟨args_written a (v8plus_arg_value E a.t pp (args_vp a)).2 :: rest1, by
            simp only [hrc1, ne_eq, not_true_eq_false, if_false, hrest]⟩
        · simp [hrc] at h

/-- C17: the second pass of `v8plus_args` cannot reach its abort: whenever the first
pass accepted every position, the second pass finds every key again and every
`v8plus_arg_value` call returns 0, so it runs to the end; `v8plus_args` therefore always
returns. -/
theorem v8plus_args_no_abort (E : v8plus_env) (lp : nvlist) (flags : Nat)
    (args : List v8plus_argdecl) (w : world) :
    (∀ k, v8plus_args_validate E lp 0 args w = Sum.inr k →
      ∃ args1, v8plus_args_extract E lp 0 args = some args1) ∧
    ∃ rc w1 args1, v8plus_args E lp flags args w = some (rc, w1, args1) := by
  refine ⟨fun k h => validate_extract E lp args 0 w k h, ?_⟩
  unfold v8plus_args
  cases hv : v8plus_args_validate E lp 0 args w with
  | inl w1 => exact ⟨_, _, _, rfl⟩
  | inr k =>
    obtain ⟨args1, hx⟩ := validate_extract E lp args 0 w k hv
    simp only [hx]
    split
    · exact ⟨_, _, _, rfl⟩
    · exact ⟨_, _, _, rfl⟩

/-- Witness of C17: the signature [Number, String] on the container with 3.5 under "0"
and "x" under "1" passes the first pass, and the second pass runs to the end. -/
theorem v8plus_args_no_abort_witness :
    ∃ args1, v8plus_args_extract env_einval
      [.mk "0" (.DOUBLE double_3_5), .mk "1" (.STRING "x")] 0
      [⟨V8PLUS_TYPE_NUMBER, some none⟩, ⟨V8PLUS_TYPE_STRING, some none⟩] = some args1 :=
  (v8plus_args_no_abort env_einval [.mk "0" (.DOUBLE double_3_5), .mk "1" (.STRING "x")] 1
    [⟨V8PLUS_TYPE_NUMBER, some none⟩, ⟨V8PLUS_TYPE_STRING, some none⟩] world0).1 2 rfl

/-! ### Classification against extraction -/

/-- C19: for every stored pair and every expected kind among Number, String, Boolean,
Object, Null, Undefined and FunctionHandle, `v8plus_arg_value` succeeds exactly when
`v8plus_typeof` of the pair is that kind; `Any` and `Invalid` accept every pair; a
string-encoded integer is accepted only from a pair that classifies as String; `None`
never succeeds; and an expected kind that succeeds on a pair of another classification is
`Any`, `Invalid` or the string-encoded integer. -/
theorem typeof_arg_value_agree (E : v8plus_env) (pp : nvpair) (vp : Option out_slot) :
    ((v8plus_arg_value E V8PLUS_TYPE_NUMBER pp vp).1 = 0 ↔
      v8plus_typeof pp = V8PLUS_TYPE_NUMBER) ∧
    ((v8plus_arg_value E V8PLUS_TYPE_STRING pp vp).1 = 0 ↔
      v8plus_typeof pp = V8PLUS_TYPE_STRING) ∧
    ((v8plus_arg_value E V8PLUS_TYPE_BOOLEAN pp vp).1 = 0 ↔
      v8plus_typeof pp = V8PLUS_TYPE_BOOLEAN) ∧
    ((v8plus_arg_value E V8PLUS_TYPE_OBJECT pp vp).1 = 0 ↔
      v8plus_typeof pp = V8PLUS_TYPE_OBJECT) ∧
    ((v8plus_arg_value E V8PLUS_TYPE_NULL pp vp).1 = 0 ↔
      v8plus_typeof pp = V8PLUS_TYPE_NULL) ∧
    ((v8plus_arg_value E V8PLUS_TYPE_UNDEFINED pp vp).1 = 0 ↔
      v8plus_typeof pp = V8PLUS_TYPE_UNDEFINED) ∧
    ((v8plus_arg_value E V8PLUS_TYPE_JSFUNC pp vp).1 = 0 ↔
      v8plus_typeof pp = V8PLUS_TYPE_JSFUNC) ∧
    (v8plus_arg_value E V8PLUS_TYPE_ANY pp vp).1 = 0 ∧
    (v8plus_arg_value E V8PLUS_TYPE_INVALID pp vp).1 = 0 ∧
    ((v8plus_arg_value E V8PLUS_TYPE_STRNUMBER64 pp vp).1 = 0 →
      v8plus_typeof pp = V8PLUS_TYPE_STRING) ∧
    (v8plus_arg_value E V8PLUS_TYPE_NONE pp vp).1 ≠ 0 ∧
    (∀ t, (v8plus_arg_value E t pp vp).1 = 0 → v8plus_typeof pp ≠ t →
      t = V8PLUS_TYPE_ANY ∨ t = V8PLUS_TYPE_INVALID ∨ t = V8PLUS_TYPE_STRNUMBER64) := by
  have h := fun t => arg_value_accepts E t pp vp
  refine ⟨h _, h _, h _, h _, h _, h _, h _, (h _).2 trivial, (h _).2 trivial, ?_, ?_, ?_⟩
  · intro h1
    exact ((h _).1 h1).1
  · intro h1
    exact (h _).1 h1
  · intro t h1 h2
    have h3 := (h t).1 h1
    cases t <;> simp_all [kind_accepts]

/-- Witness of C19: the string "12" is accepted as a string-encoded integer, and it
classifies as String. -/
theorem typeof_arg_value_agree_witness :
    (v8plus_arg_value env_einval V8PLUS_TYPE_STRNUMBER64 (.mk "0" (.STRING "12")) none).1 = 0 ∧
    v8plus_typeof (.mk "0" (.STRING "12")) = V8PLUS_TYPE_STRING :=
  ⟨rfl, (typeof_arg_value_agree env_einval (.mk "0" (.STRING "12")) none).2.2.2.2.2.2.2.2.2.1
    rfl⟩

/-! ### The deferral engine -/

/-- C15: for a task created by `v8plus_defer(obj, ctx, worker, completion)`, the hold
count of `obj` is one above its value before scheduling once the task is queued; running
the worker step and then the completion step adds exactly one call to the completion
calls, that of `completion` with the same `obj` and `ctx` and with the result
`worker(obj, ctx)`; afterwards the hold count of `obj` is what it was before scheduling,
the hold counts of the other objects never moved, and both records are freed. -/
theorem v8plus_defer_completes (cop ctxp : Nat) (worker : Nat → Nat → Nat)
    (completion : Nat) (s : uv_world) :
    (v8plus_defer cop ctxp worker completion s).2.obj_holds cop = s.obj_holds cop + 1 ∧
    (v8plus_defer cop ctxp worker completion s).2.queued =
      s.queued ++ [(v8plus_defer cop ctxp worker completion s).1] ∧
    (v8plus_defer cop ctxp worker completion s).2.completion_calls = s.completion_calls ∧
    (v8plus_uv_completion (v8plus_uv_worker (v8plus_defer cop ctxp worker completion s).1)
        (v8plus_defer cop ctxp worker completion s).2).completion_calls =
      s.completion_calls ++ [(completion, cop, ctxp, worker cop ctxp)] ∧
    (v8plus_uv_completion (v8plus_uv_worker (v8plus_defer cop ctxp worker completion s).1)
        (v8plus_defer cop ctxp worker completion s).2).obj_holds = s.obj_holds ∧
    (v8plus_uv_completion (v8plus_uv_worker (v8plus_defer cop ctxp worker completion s).1)
        (v8plus_defer cop ctxp worker completion s).2).heap_records = s.heap_records := by
  refine ⟨?_, rfl, rfl, rfl, ?_, ?_⟩
  · simp [v8plus_defer, v8plus_obj_hold]
  · funext k
    by_cases hk : k = cop
    · subst hk
      simp [v8plus_defer, v8plus_uv_completion, v8plus_uv_worker, v8plus_obj_hold,
        v8plus_obj_rele]
    · simp [v8plus_defer, v8plus_uv_completion, v8plus_uv_worker, v8plus_obj_hold,
        v8plus_obj_rele, Function.update, hk]
  · simp [v8plus_defer, v8plus_uv_completion, v8plus_uv_worker, v8plus_obj_hold,
      v8plus_obj_rele]

/-! ### The object builder: script consumption and failure records -/

theorem holds_after_nil (h : Nat → Nat) : holds_after [] h = h := by
  funext j; simp [holds_after]

theorem holds_after_append (hs1 hs2 : List Nat) (h : Nat → Nat) :
    holds_after hs2 (holds_after hs1 h) = holds_after (hs1 ++ hs2) h := by
  funext j; simp [holds_after, List.count_append, Nat.add_assoc]

theorem holds_after_single (j : Nat) (h : Nat → Nat) :
    Function.update h j (h j + 1) = holds_after [j] h := by
  funext k
  by_cases hk : k = j
  · subst hk; simp [holds_after]
  · have hjk : ¬ j = k := fun e => hk e.symm
    simp [holds_after, Function.update, hk, List.count_cons, hjk]

theorem world_after_refl (w : world) : world_after [] [] w w := by
  simp [world_after, holds_after_nil]

theorem world_after_trans (zs1 zs2 hs1 hs2 : List Nat) (w wg w1 : world)
    (h1 : world_after zs1 hs1 w wg) (h2 : world_after zs2 hs2 wg w1) :
    world_after (zs1 ++ zs2) (hs1 ++ hs2) w w1 := by
  obtain ⟨a1, a2, a3, a4, a5⟩ := h1
  obtain ⟨b1, b2, b3, b4, b5⟩ := h2
  refine ⟨?_, ?_, b3.trans a3, b4.trans a4, ?_⟩
  · intro z hz
    rcases List.mem_append.1 hz with h | h
    · exact a1 z h
    · exact b1 z h
  · rw [a2, b2, List.append_assoc]
  · rw [b5, a5, holds_after_append]

theorem failed_after_mono (E : v8plus_env) (ms ms1 : List String)
    (ks ks1 : List v8plus_type_t) (w w1 : world) (h : failed_after E ms ks w w1)
    (hm : ∀ m ∈ ms, m ∈ ms1) (hk : ∀ k ∈ ks, k ∈ ks1) : failed_after E ms1 ks1 w w1 := by
  obtain ⟨zs, hz, h⟩ := h
  refine ⟨zs, hz, ?_⟩
  rcases h with ⟨e, m, he, hmem, h1, h2, h3⟩ | ⟨nt, hmem, h1, h2, h3⟩
  · exact Or.inl ⟨e, m, he, hm m hmem, h1, h2, h3⟩
  · exact Or.inr ⟨nt, hk nt hmem, h1, h2, h3⟩

theorem failed_after_ahead (E : v8plus_env) (ms : List String) (ks : List v8plus_type_t)
    (zs1 hs : List Nat) (w wg w1 : world) (h1 : world_after zs1 hs w wg)
    (h : failed_after E ms ks wg w1) : failed_after E ms ks w w1 := by
  obtain ⟨a1, a2, -, -, -⟩ := h1
  obtain ⟨zs, hz, h⟩ := h
  refine ⟨zs1 ++ zs, ?_, ?_⟩
  · intro z hz1
    rcases List.mem_append.1 hz1 with h | h
    · exact a1 z h
    · exact hz z h
  · rcases h with ⟨e, m, he, hmem, h1, h2, h3⟩ | ⟨nt, hmem, h1, h2, h3⟩
    · exact Or.inl ⟨e, m, he, hmem, by rw [a2, h1, List.append_assoc], h2, h3⟩
    · exact Or.inr ⟨nt, hmem, by rw [a2, h1, List.append_assoc], h2, h3⟩

/-- The result of a libnvpair call taken from the script: a success, which leaves the
rest of the state alone, or a failure with the errno at the head of the script. -/
theorem nv_result_cases (w : world) :
    ((nv_result w).1 = 0 ∧ (∃ zs, world_after zs [] w (nv_result w).2) ∧
        (nv_result w).2.nv_live = w.nv_live) ∨
      ((nv_result w).1 ≠ 0 ∧ w.nv_script = (nv_result w).1 :: (nv_result w).2.nv_script) := by
  unfold nv_result
  cases hs : w.nv_script with
  | nil =>
    left
    exact ⟨rfl, ⟨[], by simp [world_after, holds_after_nil, hs]⟩, rfl⟩
  | cons e r =>
    by_cases he : e = 0
    · left
      subst he
      exact ⟨rfl, ⟨[0], by simp [world_after, holds_after_nil, hs]⟩, rfl⟩
    · right
      exact ⟨he, rfl⟩

theorem nvlist_add_pair_cases (lp : nvlist) (p : nvpair) (w : world) :
    ((nvlist_add_pair lp p w).1 = 0 ∧ (nvlist_add_pair lp p w).2.1 = nvlist_add lp p ∧
        (∃ zs, world_after zs [] w (nvlist_add_pair lp p w).2.2) ∧
        (nvlist_add_pair lp p w).2.2.nv_live = w.nv_live) ∨
      ((nvlist_add_pair lp p w).1 ≠ 0 ∧ (nvlist_add_pair lp p w).2.1 = lp ∧
        w.nv_script = (nvlist_add_pair lp p w).1 :: (nvlist_add_pair lp p w).2.2.nv_script) := by
  unfold nvlist_add_pair
  rcases nv_result_cases w with ⟨h0, hw, hl⟩ | ⟨h0, hs⟩
  · left
    simp only [h0, if_true]
    exact ⟨trivial, trivial, hw, hl⟩
  · right
    simp only [h0, if_false]
    exact ⟨h0, trivial, hs⟩

theorem nvlist_alloc_cases (w : world) :
    ((nvlist_alloc w).1 = 0 ∧ (nvlist_alloc w).2.1 = [] ∧
        (∃ zs, world_after zs [] w (nvlist_alloc w).2.2) ∧
        (nvlist_alloc w).2.2.nv_live = w.nv_live + 1) ∨
      ((nvlist_alloc w).1 ≠ 0 ∧
        w.nv_script = (nvlist_alloc w).1 :: (nvlist_alloc w).2.2.nv_script) := by
  unfold nvlist_alloc
  rcases nv_result_cases w with ⟨h0, ⟨zs, hw⟩, hl⟩ | ⟨h0, hs⟩
  · left
    simp only [h0, if_true]
    refine ⟨trivial, trivial, ⟨zs, ?_⟩, by simp [hl]⟩
    exact hw
  · right
    simp only [h0, if_false]
    exact ⟨h0, hs⟩

theorem failed_after_nverr (E : v8plus_env) (e : Nat) (m : String) (w wr : world)
    (he : e ≠ 0) (hs : w.nv_script = e :: wr.nv_script) :
    failed_after E [m] [] w (v8plus_nverr E e (some m) wr).2 :=
  ⟨[], by simp, Or.inl ⟨e, m, he, by simp, by simpa [v8plus_nverr] using hs,
    by simp [v8plus_nverr, nverr_kind], by simp [v8plus_nverr, nverr_text]⟩⟩

theorem added_round (E : v8plus_env) (name : String) (ap : List va_item) (lp : nvlist)
    (p : nvpair) (w : world) :
    ∃ r, vsetprops_added E name ap (nvlist_add_pair lp p w) = some r ∧
      round_outcome E [p.name] [name] [] [] lp (nvlist_add lp p) ap w r := by
  unfold vsetprops_added
  rcases nvlist_add_pair_cases lp p w with ⟨h0, hl, hw, hlive⟩ | ⟨h0, hl, hs⟩
  · simp only [h0, ne_eq, not_true_eq_false, if_false]
    exact ⟨_, rfl, Or.inl ⟨rfl, hl, rfl, hw, hlive⟩⟩
  · simp only [h0, ne_eq, not_false_eq_true, if_true]
    refine ⟨_, rfl, Or.inr ⟨rfl, fun key _ => by rw [hl], ?_⟩⟩
    exact failed_after_nverr E _ name w _ h0 hs

theorem round_outcome_mono (E : v8plus_env) (keys keys1 ms ms1 : List String)
    (ks ks1 : List v8plus_type_t) (hs : List Nat) (lp built : nvlist)
    (tail : List va_item) (w : world) (r : vsetprops_result)
    (h : round_outcome E keys ms ks hs lp built tail w r)
    (hkeys : ∀ k ∈ keys, k ∈ keys1) (hm : ∀ m ∈ ms, m ∈ ms1) (hk : ∀ k ∈ ks, k ∈ ks1) :
    round_outcome E keys1 ms1 ks1 hs lp built tail w r := by
  rcases h with h | ⟨h1, h2, h3⟩
  · exact Or.inl h
  · exact Or.inr ⟨h1, fun key hkey => h2 key (fun hin => hkey (hkeys key hin)),
      failed_after_mono E ms ms1 ks ks1 w _ h3 hm hk⟩

theorem arm_value_round (E : v8plus_env) (lp : nvlist) (name : String) (v : prop_value)
    (tail : List va_item) (w : world) (hv : v.valid) :
    ∃ r, vsetprops_arm E lp v.kind name (v.va ++ tail) w = some r ∧
      round_outcome E (prop_groups.value name v .done).keys
        (prop_groups.value name v .done).members [] (prop_groups.value name v .done).held
        lp (v.store name lp) tail w r := by
  cases v
  case jsfunc j =>
    simp only [vsetprops_arm, prop_value.kind, prop_value.va, List.cons_append,
      List.nil_append, nvlist_add_uint64_array, nvlist_add_string_array]
    rcases nvlist_add_pair_cases lp (.mk name (.UINT64_ARRAY [j])) w with
      ⟨h0, hl, ⟨zs1, hw1⟩, hlive1⟩ | ⟨h0, hl, hs⟩
    · simp only [h0, ne_eq, not_true_eq_false, if_false, hl]
      rcases nvlist_add_pair_cases (nvlist_add lp (.mk name (.UINT64_ARRAY [j])))
          (.mk V8PLUS_JSF_COOKIE (.STRING_ARRAY []))
          (nvlist_add_pair lp (.mk name (.UINT64_ARRAY [j])) w).2.2 with
        ⟨g0, gl, ⟨zs2, hw2⟩, hlive2⟩ | ⟨g0, gl, gs⟩
      · simp only [g0, ne_eq, not_true_eq_false, if_false]
        refine ⟨_, rfl, Or.inl ⟨rfl, gl, rfl, ⟨zs1 ++ zs2, ?_⟩, ?_⟩⟩
        · have h12 := world_after_trans zs1 zs2 [] [] _ _ _ hw1 hw2
          have hh : world_after [] [j]
              (nvlist_add_pair (nvlist_add lp (.mk name (.UINT64_ARRAY [j])))
                (.mk V8PLUS_JSF_COOKIE (.STRING_ARRAY []))
                (nvlist_add_pair lp (.mk name (.UINT64_ARRAY [j])) w).2.2).2.2
              (v8plus_jsfunc_hold j
                (nvlist_add_pair (nvlist_add lp (.mk name (.UINT64_ARRAY [j])))
                  (.mk V8PLUS_JSF_COOKIE (.STRING_ARRAY []))
                  (nvlist_add_pair lp (.mk name (.UINT64_ARRAY [j])) w).2.2).2.2) := by
            simp [world_after, v8plus_jsfunc_hold, holds_after_single]
          have := world_after_trans _ [] _ [j] _ _ _ h12 hh
          simpa [prop_groups.held] using this
        · show (v8plus_jsfunc_hold j _).nv_live = w.nv_live
          simp only [v8plus_jsfunc_hold]
          rw [hlive2, hlive1]
      · simp only [g0, ne_eq, not_false_eq_true, if_true]
        refine ⟨_, rfl, Or.inr ⟨rfl, ?_, ?_⟩⟩
        · intro key hkey
          simp only [gl]
          apply lookup_add_other
          intro hn
          apply hkey
          simp only [prop_groups.keys]
          rw [← hn]
          exact List.mem_cons_self _ _
        · have hf := failed_after_nverr E _ V8PLUS_JSF_COOKIE _ _ g0 gs
          have := failed_after_ahead E _ _ zs1 [] w _ _ hw1 hf
          exact failed_after_mono E _ _ _ _ _ _ this
            (by intro m hm; simp at hm; subst hm; simp [prop_groups.members])
            (by simp)
    · simp only [h0, ne_eq, not_false_eq_true, if_true]
      refine ⟨_, rfl, Or.inr ⟨rfl, fun key _ => by simp only [hl], ?_⟩⟩
      exact failed_after_mono E _ _ _ _ _ _ (failed_after_nverr E _ name w _ h0 hs)
        (by intro m hm; simp at hm; subst hm; simp [prop_groups.members]) (by simp)
  case strnumber64 n =>
    simp only [vsetprops_arm, prop_value.kind, prop_value.va, List.cons_append,
      List.nil_append, snprintf_u64 n hv, nvlist_add_string]
    obtain ⟨r, hr, ho⟩ := added_round E name tail lp (.mk name (.STRING (fmt_dec n))) w
    exact ⟨r, hr, round_outcome_mono E _ _ _ _ _ _ _ _ _ _ _ _ ho
      (by simp [prop_groups.keys, nvpair.name]) (by simp [prop_groups.members]) (by simp)⟩
  case string s =>
    simp only [vsetprops_arm, prop_value.kind, prop_value.va, List.cons_append,
      List.nil_append, nvlist_add_string, nvlist_add_double, nvlist_add_boolean_value,
      nvlist_add_byte, nvlist_add_boolean]
    obtain ⟨r, hr, ho⟩ := added_round E name tail lp (.mk name (.STRING s)) w
    exact ⟨r, hr, round_outcome_mono E _ _ _ _ _ _ _ _ _ _ _ _ ho
      (by simp [prop_groups.keys, nvpair.name]) (by simp [prop_groups.members]) (by simp)⟩
  case number d =>
    simp only [vsetprops_arm, prop_value.kind, prop_value.va, List.cons_append,
      List.nil_append, nvlist_add_string, nvlist_add_double, nvlist_add_boolean_value,
      nvlist_add_byte, nvlist_add_boolean]
    obtain ⟨r, hr, ho⟩ := added_round E name tail lp (.mk name (.DOUBLE d)) w
    exact ⟨r, hr, round_outcome_mono E _ _ _ _ _ _ _ _ _ _ _ _ ho
      (by simp [prop_groups.keys, nvpair.name]) (by simp [prop_groups.members]) (by simp)⟩
  case boolean b =>
    simp only [vsetprops_arm, prop_value.kind, prop_value.va, List.cons_append,
      List.nil_append, nvlist_add_string, nvlist_add_double, nvlist_add_boolean_value,
      nvlist_add_byte, nvlist_add_boolean]
    obtain ⟨r, hr, ho⟩ := added_round E name tail lp (.mk name (.BOOLEAN_VALUE b)) w
    exact ⟨r, hr, round_outcome_mono E _ _ _ _ _ _ _ _ _ _ _ _ ho
      (by simp [prop_groups.keys, nvpair.name]) (by simp [prop_groups.members]) (by simp)⟩
  case null =>
    simp only [vsetprops_arm, prop_value.kind, prop_value.va, List.cons_append,
      List.nil_append, nvlist_add_string, nvlist_add_double, nvlist_add_boolean_value,
      nvlist_add_byte, nvlist_add_boolean]
    obtain ⟨r, hr, ho⟩ := added_round E name tail lp (.mk name (.BYTE 0)) w
    exact ⟨r, hr, round_outcome_mono E _ _ _ _ _ _ _ _ _ _ _ _ ho
      (by simp [prop_groups.keys, nvpair.name]) (by simp [prop_groups.members]) (by simp)⟩
  case undefined =>
    simp only [vsetprops_arm, prop_value.kind, prop_value.va, List.cons_append,
      List.nil_append, nvlist_add_string, nvlist_add_double, nvlist_add_boolean_value,
      nvlist_add_byte, nvlist_add_boolean]
    obtain ⟨r, hr, ho⟩ := added_round E name tail lp (.mk name (.BOOLEAN)) w
    exact ⟨r, hr, round_outcome_mono E _ _ _ _ _ _ _ _ _ _ _ _ ho
      (by simp [prop_groups.keys, nvpair.name]) (by simp [prop_groups.members]) (by simp)⟩

theorem vsetprops_succ_none (E : v8plus_env) (F : Nat) (lp : nvlist) (ap : List va_item)
    (w : world) :
    v8plus_obj_vsetprops E (F + 1) lp V8PLUS_TYPE_NONE ap w = some (0, lp, ap, w) := by
  rw [vsetprops_succ]; simp

theorem vsetprops_succ_arm (E : v8plus_env) (F : Nat) (lp : nvlist) (nt : v8plus_type_t)
    (name : String) (ap1 : List va_item) (w : world)
    (hnone : nt ≠ V8PLUS_TYPE_NONE) (hobj : nt ≠ V8PLUS_TYPE_OBJECT) :
    v8plus_obj_vsetprops E (F + 1) lp nt (.str name :: ap1) w =
      vsetprops_loop (v8plus_obj_vsetprops E F) (vsetprops_arm E lp nt name ap1 w) := by
  rw [vsetprops_succ, if_neg hnone]
  cases nt <;> first | rfl | exact absurd rfl hobj

theorem vsetprops_succ_object (E : v8plus_env) (F : Nat) (lp : nvlist) (name : String)
    (nt1 : v8plus_type_t) (ap2 : List va_item) (w : world) :
    v8plus_obj_vsetprops E (F + 1) lp V8PLUS_TYPE_OBJECT (.str name :: .type nt1 :: ap2) w =
      vsetprops_loop (v8plus_obj_vsetprops E F)
        (if (nvlist_alloc w).1 ≠ 0 then
          some (-1, lp, ap2, (v8plus_nverr E (nvlist_alloc w).1 (some name)
            (nvlist_alloc w).2.2).2)
        else
          vsetprops_object_add E lp name
            (v8plus_obj_vsetprops E F (nvlist_alloc w).2.1 nt1 ap2 (nvlist_alloc w).2.2)) := by
  rw [vsetprops_succ]; simp

theorem loop_round (E : v8plus_env) (gs rest : prop_groups) (keys1 ms1 : List String)
    (ks1 : List v8plus_type_t) (hs1 : List Nat) (lp built : nvlist) (w : world)
    (extra : List va_item) (F : Nat) (G : Option vsetprops_result)
    (hG : ∃ r, G = some r ∧
      round_outcome E keys1 ms1 ks1 hs1 lp built (.type rest.first :: (rest.va ++ extra)) w r)
    (IH : ∀ lp w, ∃ r,
      v8plus_obj_vsetprops E F lp rest.first (rest.va ++ extra) w = some r ∧
        build_outcome E rest lp w extra r)
    (hkeys1 : ∀ k ∈ keys1, k ∈ gs.keys) (hkeys2 : ∀ k ∈ rest.keys, k ∈ gs.keys)
    (hm1 : ∀ m ∈ ms1, m ∈ gs.members) (hm2 : ∀ m ∈ rest.members, m ∈ gs.members)
    (hk1 : ∀ k ∈ ks1, k ∈ gs.bad_kinds) (hk2 : ∀ k ∈ rest.bad_kinds, k ∈ gs.bad_kinds)
    (hsup : (∃ r, G = some r ∧ r.1 = 0) → rest.supported → gs.supported)
    (hbuild : gs.build lp = rest.build built)
    (hheld : gs.held = hs1 ++ rest.held)
    (hframe : ∀ key, key ∉ gs.keys →
      nvlist_lookup_nvpair built key = nvlist_lookup_nvpair lp key) :
    ∃ r, vsetprops_loop (v8plus_obj_vsetprops E F) G = some r ∧
      build_outcome E gs lp w extra r := by
  obtain ⟨⟨rc, lpg, apg, wg⟩, hGr, ho⟩ := hG
  subst hGr
  rcases ho with ⟨h1, h2, h3, ⟨zs1, hw1⟩, hlive⟩ | ⟨h1, h2, h3⟩
  · simp only at h1 h2 h3 hw1 hlive
    subst h1 h2 h3
    obtain ⟨r, hr, hor⟩ := IH lpg wg
    refine ⟨r, by simp [vsetprops_loop, hr], ?_⟩
    rcases hor with ⟨r1, r2, r3, r4, ⟨zs2, hw2⟩, r5⟩ | ⟨r1, r2, r3⟩
    · refine Or.inl ⟨r1, hsup ⟨_, rfl, rfl⟩ r2, by rw [r3, hbuild], r4, ⟨zs1 ++ zs2, ?_⟩,
        r5.trans hlive⟩
      rw [hheld]
      exact world_after_trans zs1 zs2 hs1 _ w wg _ hw1 hw2
    · refine Or.inr ⟨r1, ?_, ?_⟩
      · intro key hkey
        rw [r2 key (fun hin => hkey (hkeys2 key hin)), hframe key hkey]
      · exact failed_after_mono E _ _ _ _ _ _
          (failed_after_ahead E _ _ zs1 hs1 w wg _ hw1 r3) hm2 hk2
  · simp only at h1 h2 h3
    subst h1
    refine ⟨(-1, lpg, apg, wg), by simp [vsetprops_loop], ?_⟩
    exact Or.inr ⟨rfl, fun key hkey => h2 key (fun hin => hkey (hkeys1 key hin)),
      failed_after_mono E _ _ _ _ _ _ h3 hm1 hk1⟩

/-! ### The object builder on group sequences -/

theorem keys_value (name : String) (v : prop_value) (rest : prop_groups) :
    (prop_groups.value name v rest).keys = (prop_groups.value name v .done).keys ++ rest.keys := by
  cases v <;> simp [prop_groups.keys]

theorem members_value (name : String) (v : prop_value) (rest : prop_groups) :
    (prop_groups.value name v rest).members =
      (prop_groups.value name v .done).members ++ rest.members := by
  cases v <;> simp [prop_groups.members]

theorem held_value (name : String) (v : prop_value) (rest : prop_groups) :
    (prop_groups.value name v rest).held = (prop_groups.value name v .done).held ++ rest.held := by
  cases v <;> simp [prop_groups.held]

theorem store_frame (name : String) (v : prop_value) (lp : nvlist) (key : String)
    (h : key ∉ (prop_groups.value name v .done).keys) :
    nvlist_lookup_nvpair (v.store name lp) key = nvlist_lookup_nvpair lp key := by
  have hname : key ≠ name := by
    intro e
    apply h
    cases v <;> simp [prop_groups.keys, e]
  cases v
  case jsfunc j =>
    have hc : key ≠ V8PLUS_JSF_COOKIE := by
      intro e
      apply h
      simp [prop_groups.keys, e]
    simp only [prop_value.store]
    rw [lookup_add_other _ (.mk V8PLUS_JSF_COOKIE (.STRING_ARRAY [])) key (fun e => hc e.symm),
      lookup_add_other lp (.mk name _) key (fun e => hname e.symm)]
  all_goals
    simp only [prop_value.store]
    rw [lookup_add_other lp (.mk name _) key (fun e => hname e.symm)]

theorem world_after_free (zs hs : List Nat) (w w1 : world) (h : world_after zs hs w w1) :
    world_after zs hs w (nvlist_free w1) := h

/-- The outcome of the object arm of the builder, given the outcome of the nested call. -/
theorem object_round (E : v8plus_env) (lp : nvlist) (name : String) (ms : prop_groups)
    (tail : List va_item) (w : world) (nested : Option vsetprops_result)
    (hn : ∃ r, nested = some r ∧ build_outcome E ms (nvlist_alloc w).2.1 (nvlist_alloc w).2.2 tail r)
    (ap2 : List va_item) :
    ∃ r, (if (nvlist_alloc w).1 ≠ 0 then
          some (-1, lp, ap2, (v8plus_nverr E (nvlist_alloc w).1 (some name)
            (nvlist_alloc w).2.2).2)
        else vsetprops_object_add E lp name nested) = some r ∧
      round_outcome E [name] (name :: ms.members) ms.bad_kinds ms.held lp
        (nvlist_add lp (.mk name (.NVLIST (ms.build [])))) tail w r ∧
      (r.1 = 0 → ms.supported) := by
  rcases nvlist_alloc_cases w with ⟨a0, al, ⟨zs0, hw0⟩, alive⟩ | ⟨a0, as⟩
  · simp only [a0, ne_eq, not_true_eq_false, if_false]
    obtain ⟨⟨rc3, slp, ap3, w3⟩, hnr, ho⟩ := hn
    subst hnr
    rw [al] at ho
    rcases ho with ⟨h1, hsup, h3, h4, ⟨zs, hw⟩, hlive⟩ | ⟨h1, -, h3⟩
    · simp only at h1 h3 h4 hw hlive
      subst h1 h3 h4
      simp only [vsetprops_object_add, ne_eq, not_true_eq_false, if_false, nvlist_add_nvlist]
      have hw03 := world_after_trans zs0 zs [] ms.held w _ w3 hw0 hw
      rcases nvlist_add_pair_cases lp (.mk name (.NVLIST (ms.build []))) w3 with
        ⟨g0, gl, ⟨zs2, hw2⟩, glive⟩ | ⟨g0, gl, gs⟩
      · simp only [g0, not_true_eq_false, if_false]
        refine ⟨_, rfl, Or.inl ⟨rfl, gl, rfl, ⟨(zs0 ++ zs) ++ zs2, ?_⟩, ?_⟩, fun _ => hsup⟩
        · have := world_after_trans _ zs2 _ [] w w3 _ hw03 hw2
          simpa using world_after_free _ _ _ _ this
        · show (nvlist_free _).nv_live = w.nv_live
          simp only [nvlist_free]
          rw [glive, hlive, alive]
          simp
      · simp only [g0, not_false_eq_true, if_true]
        refine ⟨_, rfl, Or.inr ⟨rfl, fun key _ => by simp only [gl], ?_⟩, fun h => by simp at h⟩
        have hf := failed_after_nverr E _ name w3
          (nvlist_free (nvlist_add_pair lp (.mk name (.NVLIST (ms.build []))) w3).2.2) g0 gs
        have := failed_after_ahead E _ _ _ _ w w3 _ hw03 hf
        exact failed_after_mono E _ _ _ _ _ _ this
          (by intro m hm; simp at hm; subst hm; simp) (by simp)
    · simp only at h1 h3
      subst h1
      simp only [vsetprops_object_add, ne_eq, not_false_eq_true, if_true]
      refine ⟨_, rfl, Or.inr ⟨rfl, fun key _ => rfl, ?_⟩, fun h => by simp at h⟩
      have := failed_after_ahead E _ _ zs0 [] w _ w3 hw0 h3
      exact failed_after_mono E _ _ _ _ _ _ this
        (by intro m hm; exact List.mem_cons_of_mem _ hm) (by intro k hk; exact hk)
  · simp only [a0, ne_eq, not_false_eq_true, if_true]
    refine ⟨_, rfl, Or.inr ⟨rfl, fun key _ => rfl, ?_⟩, fun h => by simp at h⟩
    exact failed_after_mono E _ _ _ _ _ _ (failed_after_nverr E _ name w _ a0 as)
      (by intro m hm; simp at hm; subst hm; simp) (by simp)

/-- The builder on a well-formed group sequence returns, with the outcome of the
sequence, whatever the results of the libnvpair calls. -/
theorem vsetprops_groups (E : v8plus_env) :
    ∀ (gs : prop_groups), gs.wf → ∀ (F : Nat) (extra : List va_item) (lp : nvlist) (w : world),
      gs.va.length < F →
      ∃ r, v8plus_obj_vsetprops E F lp gs.first (gs.va ++ extra) w = some r ∧
        build_outcome E gs lp w extra r := by
  intro gs
  induction gs with
  | done =>
    intro _ F extra lp w hF
    obtain ⟨F, rfl⟩ : ∃ F0, F = F0 + 1 := ⟨F - 1, by omega⟩
    refine ⟨_, vsetprops_succ_none E F lp _ w, Or.inl ⟨rfl, trivial, rfl, rfl, ⟨[], ?_⟩, rfl⟩⟩
    exact world_after_refl w
  | value name v rest ih =>
    intro hwf F extra lp w hF
    obtain ⟨F, rfl⟩ : ∃ F0, F = F0 + 1 := ⟨F - 1, by omega⟩
    have hk1 : v.kind ≠ V8PLUS_TYPE_NONE := by cases v <;> simp [prop_value.kind]
    have hk2 : v.kind ≠ V8PLUS_TYPE_OBJECT := by cases v <;> simp [prop_value.kind]
    have hlen : rest.va.length < F := by
      simp only [prop_groups.va, List.length_cons, List.length_append] at hF
      omega
    have hva : (prop_groups.value name v rest).va ++ extra =
        .str name :: (v.va ++ .type rest.first :: (rest.va ++ extra)) := by
      simp [prop_groups.va]
    show ∃ r, v8plus_obj_vsetprops E (F + 1) lp v.kind _ w = some r ∧ _
    rw [hva, vsetprops_succ_arm E F lp v.kind name _ w hk1 hk2]
    refine loop_round E (.value name v rest) rest _ _ _ _ lp (v.store name lp) w extra F _
      (arm_value_round E lp name v _ w hwf.1)
      (fun lp w => ih hwf.2 F extra lp w hlen)
      ?_ ?_ ?_ ?_ ?_ ?_ ?_ rfl (held_value name v rest) ?_
    · intro k hk; rw [keys_value]; exact List.mem_append_left _ hk
    · intro k hk; rw [keys_value]; exact List.mem_append_right _ hk
    · intro k hk; rw [members_value]; exact List.mem_append_left _ hk
    · intro k hk; rw [members_value]; exact List.mem_append_right _ hk
    · intro k hk; cases hk
    · intro k hk; exact hk
    · intro _ h; exact h
    · intro key hkey
      apply store_frame
      intro hin
      apply hkey
      rw [keys_value]
      exact List.mem_append_left _ hin
  | any name pp rest ih =>
    intro hwf F extra lp w hF
    obtain ⟨F, rfl⟩ : ∃ F0, F = F0 + 1 := ⟨F - 1, by omega⟩
    have hlen : rest.va.length < F := by
      simp only [prop_groups.va, List.length_cons] at hF
      omega
    have hva : (prop_groups.any name pp rest).va ++ extra =
        .str name :: .pair pp :: .type rest.first :: (rest.va ++ extra) := by
      simp [prop_groups.va]
    show ∃ r, v8plus_obj_vsetprops E (F + 1) lp V8PLUS_TYPE_ANY _ w = some r ∧ _
    rw [hva, vsetprops_succ_arm E F lp _ name _ w (by decide) (by decide)]
    refine loop_round E (.any name pp rest) rest [pp.name] [name] [] [] lp (nvlist_add lp pp)
      w extra F _ (added_round E name _ lp pp w)
      (fun lp w => ih hwf F extra lp w hlen)
      ?_ ?_ ?_ ?_ ?_ ?_ ?_ rfl rfl ?_
    · intro k hk; simp at hk; subst hk; simp [prop_groups.keys]
    · intro k hk; simp [prop_groups.keys, hk]
    · intro k hk; simp at hk; subst hk; simp [prop_groups.members]
    · intro k hk; simp [prop_groups.members, hk]
    · intro k hk; cases hk
    · intro k hk; exact hk
    · intro _ h; exact h
    · intro key hkey
      apply lookup_add_other
      intro e
      apply hkey
      simp [prop_groups.keys, e]
  | object name ms rest ihm ih =>
    intro hwf F extra lp w hF
    obtain ⟨F, rfl⟩ : ∃ F0, F = F0 + 1 := ⟨F - 1, by omega⟩
    have hlen : rest.va.length < F := by
      simp only [prop_groups.va, List.length_cons, List.length_append] at hF
      omega
    have hlenm : ms.va.length < F := by
      simp only [prop_groups.va, List.length_cons, List.length_append] at hF
      omega
    have hva : (prop_groups.object name ms rest).va ++ extra =
        .str name :: .type ms.first :: (ms.va ++ .type rest.first :: (rest.va ++ extra)) := by
      simp [prop_groups.va]
    show ∃ r, v8plus_obj_vsetprops E (F + 1) lp V8PLUS_TYPE_OBJECT _ w = some r ∧ _
    rw [hva, vsetprops_succ_object]
    obtain ⟨r, hr, ho, hsupm⟩ := object_round E lp name ms
      (.type rest.first :: (rest.va ++ extra)) w _
      (ihm hwf.1 F (.type rest.first :: (rest.va ++ extra)) (nvlist_alloc w).2.1
        (nvlist_alloc w).2.2 hlenm)
      (ms.va ++ .type rest.first :: (rest.va ++ extra))
    refine loop_round E (.object name ms rest) rest [name] (name :: ms.members) ms.bad_kinds
      ms.held lp _ w extra F _ ⟨r, hr, ho⟩
      (fun lp w => ih hwf.2 F extra lp w hlen)
      ?_ ?_ ?_ ?_ ?_ ?_ ?_ rfl rfl ?_
    · intro k hk; simp at hk; subst hk; simp [prop_groups.keys]
    · intro k hk; simp [prop_groups.keys, hk]
    · intro k hk
      simp only [prop_groups.members, List.mem_cons, List.mem_append] at hk ⊢
      rcases hk with h | h
      · exact Or.inl h
      · exact Or.inr (Or.inl h)
    · intro k hk; simp [prop_groups.members, hk]
    · intro k hk; simp [prop_groups.bad_kinds, hk]
    · intro k hk; simp [prop_groups.bad_kinds, hk]
    · rintro ⟨r1, hr1, h0⟩ hrest
      rw [hr] at hr1
      cases hr1
      exact ⟨hsupm h0, hrest⟩
    · intro key hkey
      apply lookup_add_other
      intro e
      apply hkey
      simp [prop_groups.keys, ← e, nvpair.name]
  | bad name nt junk =>
    intro hwf F extra lp w hF
    obtain ⟨F, rfl⟩ : ∃ F0, F = F0 + 1 := ⟨F - 1, by omega⟩
    have hk : nt ≠ V8PLUS_TYPE_NONE ∧ nt ≠ V8PLUS_TYPE_OBJECT ∧
        vsetprops_arm E lp nt name (junk ++ extra) w =
          some (-1, lp, junk ++ extra, (v8plus_error E V8PLUSERR_YOUSUCK
            (some ("invalid property type " ++ fmt_int (E.type_number nt))) w).2) := by
      rcases hwf with h | ⟨n, h⟩ <;> subst h <;> simp [vsetprops_arm]
    show ∃ r, v8plus_obj_vsetprops E (F + 1) lp nt (.str name :: junk ++ extra) w = some r ∧ _
    rw [List.cons_append, vsetprops_succ_arm E F lp nt name _ w hk.1 hk.2.1, hk.2.2]
    refine ⟨(-1, lp, junk ++ extra, (v8plus_error E V8PLUSERR_YOUSUCK
      (some ("invalid property type " ++ fmt_int (E.type_number nt))) w).2),
      by simp [vsetprops_loop], Or.inr ⟨rfl, fun key _ => rfl, [], by simp, Or.inr
        ⟨nt, by simp [prop_groups.bad_kinds], rfl, rfl, rfl⟩⟩⟩

theorem supported_bad_kinds : ∀ (gs : prop_groups), gs.supported → gs.bad_kinds = [] := by
  intro gs
  induction gs with
  | done => intro _; rfl
  | value name v rest ih => intro h; exact ih h
  | any name pp rest ih => intro h; exact ih h
  | object name ms rest ihm ih =>
    intro h
    simp [prop_groups.bad_kinds, ihm h.1, ih h.2]
  | bad name nt junk => intro h; exact absurd h (by simp [prop_groups.supported])

theorem bad_kinds_supported : ∀ (gs : prop_groups), gs.bad_kinds = [] → gs.supported := by
  intro gs
  induction gs with
  | done => intro _; trivial
  | value name v rest ih => intro h; exact ih h
  | any name pp rest ih => intro h; exact ih h
  | object name ms rest ihm ih =>
    intro h
    simp only [prop_groups.bad_kinds, List.append_eq_nil] at h
    exact ⟨ihm h.1, ih h.2⟩
  | bad name nt junk => intro h; simp [prop_groups.bad_kinds] at h

/-- The outcome of `v8plus_obj_setprops` on a well-formed group sequence. -/
theorem setprops_groups (E : v8plus_env) (gs : prop_groups) (hwf : gs.wf) (lp : nvlist)
    (w : world) :
    ∃ rc lp1 ap1 w1, v8plus_obj_setprops E lp gs.first gs.va w = some (rc, lp1, w1) ∧
      build_outcome E gs lp w [] (rc, lp1, ap1, w1) := by
  obtain ⟨⟨rc, lp1, ap1, w1⟩, hr, ho⟩ :=
    vsetprops_groups E gs hwf (gs.va.length + 1) [] lp w (by omega)
  rw [List.append_nil] at hr
  exact ⟨rc, lp1, ap1, w1, by simp [v8plus_obj_setprops, hr], ho⟩

/-- The outcome of `v8plus_obj` on a well-formed group sequence whose first allocation
succeeds. -/
theorem obj_groups (E : v8plus_env) (gs : prop_groups) (hwf : gs.wf) (w : world)
    (ha : (nvlist_alloc w).1 = 0) :
    ∃ rc lp1 ap1 w1, build_outcome E gs [] (nvlist_alloc w).2.2 [] (rc, lp1, ap1, w1) ∧
      v8plus_obj E gs.first gs.va w =
        some (if rc ≠ 0 then (none, nvlist_free w1) else (some lp1, w1)) := by
  have hl : (nvlist_alloc w).2.1 = [] := by
    simp only [nvlist_alloc]
    by_cases h : (nv_result w).1 = 0 <;> simp [h]
  obtain ⟨⟨rc, lp1, ap1, w1⟩, hr, ho⟩ :=
    vsetprops_groups E gs hwf (gs.va.length + 1) [] [] (nvlist_alloc w).2.2 (by omega)
  rw [List.append_nil] at hr
  refine ⟨rc, lp1, ap1, w1, ho, ?_⟩
  unfold v8plus_obj
  simp only [ha, ne_eq, not_true_eq_false, if_false, hl, hr]
  split <;> rfl

theorem failed_after_clean (E : v8plus_env) (gs : prop_groups) (w w1 : world)
    (hs : w.nv_script = []) (h : failed_after E gs.members gs.bad_kinds w w1) :
    ∃ nt, nt ∈ gs.bad_kinds ∧ w1.nv_script = [] ∧ w1._v8plus_errno = V8PLUSERR_YOUSUCK ∧
      w1._v8plus_errmsg = invalid_type_text E nt := by
  obtain ⟨zs, -, h⟩ := h
  rcases h with ⟨e, m, -, -, h1, -, -⟩ | ⟨nt, hmem, h1, h2, h3⟩
  · rw [hs] at h1
    simp at h1
  · rw [hs] at h1
    have := List.append_eq_nil.1 h1.symm
    exact ⟨nt, hmem, this.2, h2, h3⟩

theorem world_after_clean (zs hs : List Nat) (w w1 : world) (hs0 : w.nv_script = [])
    (h : world_after zs hs w w1) (hlive : w1.nv_live = w.nv_live) :
    w1 = { w with jsfunc_holds := holds_after hs w.jsfunc_holds } := by
  obtain ⟨-, h2, h3, h4, h5⟩ := h
  rw [hs0] at h2
  have h6 := (List.append_eq_nil.1 h2.symm).2
  cases w1
  cases w
  simp_all

theorem lookup_add (lp : nvlist) (p : nvpair) (key : String) :
    nvlist_lookup_nvpair (nvlist_add lp p) key =
      (if key = p.name then some p else none).or (nvlist_lookup_nvpair lp key) := by
  by_cases h : key = p.name
  · subst h
    simp [lookup_add_self]
  · simp only [h, if_false, Option.none_or]
    exact lookup_add_other lp p key (fun e => h e.symm)

/-- The container a sequence builds holds, under each key, the pair of the last top-level
group that writes the key, and what the container held before under the other keys. -/
theorem lookup_build : ∀ (gs : prop_groups) (lp : nvlist) (key : String),
    nvlist_lookup_nvpair (gs.build lp) key =
      (gs.last_write key).or (nvlist_lookup_nvpair lp key) := by
  intro gs
  induction gs with
  | done => intro lp key; simp [prop_groups.build, prop_groups.last_write]
  | value name v rest ih =>
    intro lp key
    simp only [prop_groups.build, prop_groups.last_write, ih]
    rw [Option.or_assoc]
    congr 1
    cases v
    case jsfunc j =>
      simp only [prop_value.store, lookup_add, nvpair.name]
      by_cases hc : key = V8PLUS_JSF_COOKIE
      · simp [hc]
      · simp [hc]
    all_goals simp only [prop_value.store, lookup_add, nvpair.name]
  | any name pp rest ih =>
    intro lp key
    simp only [prop_groups.build, prop_groups.last_write, ih, lookup_add]
    rw [Option.or_assoc]
  | object name ms rest _ ih =>
    intro lp key
    simp only [prop_groups.build, prop_groups.last_write, ih, lookup_add, nvpair.name]
    rw [Option.or_assoc]
  | bad name nt junk => intro lp key; simp [prop_groups.build, prop_groups.last_write]

theorem last_write_none : ∀ (gs : prop_groups) (key : String), key ∉ gs.keys →
    gs.last_write key = none := by
  intro gs
  induction gs with
  | done => intro key _; rfl
  | value name v rest ih =>
    intro key h
    rw [keys_value, List.mem_append, not_or] at h
    simp only [prop_groups.last_write, ih key h.2, Option.none_or]
    cases v <;> simp_all [prop_groups.keys]
  | any name pp rest ih =>
    intro key h
    simp only [prop_groups.keys, List.mem_cons, not_or] at h
    simp [prop_groups.last_write, ih key h.2, h.1]
  | object name ms rest _ ih =>
    intro key h
    simp only [prop_groups.keys, List.mem_cons, not_or] at h
    simp [prop_groups.last_write, ih key h.2, h.1]
  | bad name nt junk => intro key _; rfl

/-! ### Nested construction and failures of a build -/

theorem wf_bad_kinds : ∀ (gs : prop_groups), gs.wf → ∀ nt ∈ gs.bad_kinds,
    nt = V8PLUS_TYPE_INVALID ∨ ∃ n, nt = OTHER n := by
  intro gs
  induction gs with
  | done => intro _ nt h; cases h
  | value name v rest ih => intro h nt hn; exact ih h.2 nt hn
  | any name pp rest ih => intro h nt hn; exact ih h nt hn
  | object name ms rest ihm ih =>
    intro h nt hn
    rcases List.mem_append.1 hn with h1 | h1
    · exact ihm h.1 nt h1
    · exact ih h.2 nt h1
  | bad name nt0 junk =>
    intro h nt hn
    simp only [prop_groups.bad_kinds, List.mem_singleton] at hn
    subst hn
    exact h

theorem setprops_clean (E : v8plus_env) (gs : prop_groups) (lp : nvlist) (w : world)
    (hwf : gs.wf) (hsup : gs.supported) (hs : w.nv_script = []) :
    v8plus_obj_setprops E lp gs.first gs.va w =
      some (0, gs.build lp, { w with jsfunc_holds := holds_after gs.held w.jsfunc_holds }) := by
  obtain ⟨rc, lp1, ap1, w1, hr, ho⟩ := setprops_groups E gs hwf lp w
  rcases ho with ⟨h1, -, h3, -, ⟨zs, hw⟩, hlive⟩ | ⟨-, -, hf⟩
  · simp only at h1 h3 hw hlive
    rw [hr, h1, h3, world_after_clean zs _ w w1 hs hw hlive]
  · obtain ⟨nt, hmem, -⟩ := failed_after_clean E gs w _ hs hf
    rw [supported_bad_kinds gs hsup] at hmem
    cases hmem

theorem obj_clean (E : v8plus_env) (gs : prop_groups) (w : world)
    (hwf : gs.wf) (hsup : gs.supported) (hs : w.nv_script = []) :
    v8plus_obj E gs.first gs.va w =
      some (some (gs.build []),
        { w with jsfunc_holds := holds_after gs.held w.jsfunc_holds,
                 nv_live := w.nv_live + 1 }) := by
  have ha := nvlist_alloc_nil w hs
  obtain ⟨rc, lp1, ap1, w1, ho, hr⟩ := obj_groups E gs hwf w (by rw [ha])
  rw [ha] at ho
  rcases ho with ⟨h1, -, h3, -, ⟨zs, hw⟩, hlive⟩ | ⟨-, -, hf⟩
  · simp only at h1 h3 hw hlive
    rw [hr, h1, h3,
      world_after_clean zs _ { w with nv_live := w.nv_live + 1 } w1 hs hw hlive]
    simp
  · obtain ⟨nt, hmem, -⟩ := failed_after_clean E gs _ _ hs hf
    rw [supported_bad_kinds gs hsup] at hmem
    cases hmem

/-- C11: for every well-formed group sequence of supported kinds, on a state without
scripted failures, `v8plus_obj_setprops` returns 0 with the container the sequence builds
on the given one, and `v8plus_obj` returns the container it builds from an empty one; each
encoded function handle is held once and every nested container is freed.  A sequence that
starts with an object group is written as the name, the nested sequence through its own
terminator, then the following groups; it builds the nested sequence into a fresh container
stored under the name of the group and adds the following groups to the enclosing
container. -/
theorem nested_construction (E : v8plus_env) (gs : prop_groups) (lp : nvlist) (w : world)
    (hwf : gs.wf) (hsup : gs.supported) (hs : w.nv_script = []) :
    v8plus_obj_setprops E lp gs.first gs.va w =
      some (0, gs.build lp, { w with jsfunc_holds := holds_after gs.held w.jsfunc_holds }) ∧
    v8plus_obj E gs.first gs.va w =
      some (some (gs.build []),
        { w with jsfunc_holds := holds_after gs.held w.jsfunc_holds,
                 nv_live := w.nv_live + 1 }) ∧
    (∀ name ms rest, gs = .object name ms rest →
      gs.first = V8PLUS_TYPE_OBJECT ∧
      gs.va = .str name :: .type ms.first :: (ms.va ++ .type rest.first :: rest.va) ∧
      gs.build lp = rest.build (nvlist_add lp (.mk name (.NVLIST (ms.build []))))) := by
  refine ⟨setprops_clean E gs lp w hwf hsup hs, obj_clean E gs w hwf hsup hs, ?_⟩
  intro name ms rest h
  subst h
  exact ⟨rfl, rfl, rfl⟩

/-- Witness of C11: building the object with the number 1.0 under "b", under "a", yields
a container whose key "a" classifies as Object and whose nested container has the key
"b", which classifies as Number and holds 1.0. -/
theorem nested_construction_witness :
    v8plus_obj env_einval V8PLUS_TYPE_OBJECT
        [.str "a", .type V8PLUS_TYPE_NUMBER, .str "b", .dbl double_1_0,
          .type V8PLUS_TYPE_NONE, .type V8PLUS_TYPE_NONE] world0 =
      some (some [.mk "a" (.NVLIST [.mk "b" (.DOUBLE double_1_0)])],
        { world0 with jsfunc_holds := holds_after groups_a_b.held world0.jsfunc_holds,
                      nv_live := world0.nv_live + 1 }) ∧
    v8plus_typeof (.mk "a" (.NVLIST [.mk "b" (.DOUBLE double_1_0)])) = V8PLUS_TYPE_OBJECT ∧
    nvlist_lookup_nvpair [.mk "b" (.DOUBLE double_1_0)] "b" =
      some (.mk "b" (.DOUBLE double_1_0)) ∧
    v8plus_typeof (.mk "b" (.DOUBLE double_1_0)) = V8PLUS_TYPE_NUMBER :=
  ⟨(nested_construction env_einval groups_a_b [] world0
      (by simp [groups_a_b, prop_groups.wf, prop_value.valid])
      (by simp [groups_a_b, prop_groups.supported]) rfl).2.1, rfl, rfl, rfl⟩

/-! ### The object builder call by call -/

theorem nv_result_cons (w : world) (e : Nat) (s : List Nat) (h : w.nv_script = e :: s) :
    nv_result w = (e, { w with nv_script := s }) := by
  simp [nv_result, h]

theorem nvlist_add_pair_ok (lp : nvlist) (p : nvpair) (w : world) (s : List Nat)
    (h : w.nv_script = 0 :: s) :
    nvlist_add_pair lp p w = (0, nvlist_add lp p, { w with nv_script := s }) := by
  simp [nvlist_add_pair, nv_result_cons w 0 s h]

theorem nvlist_add_pair_fail (lp : nvlist) (p : nvpair) (w : world) (e : Nat) (s : List Nat)
    (he : e ≠ 0) (h : w.nv_script = e :: s) :
    nvlist_add_pair lp p w = (e, lp, { w with nv_script := s }) := by
  simp [nvlist_add_pair, nv_result_cons w e s h, he]

theorem nvlist_alloc_ok (w : world) (s : List Nat) (h : w.nv_script = 0 :: s) :
    nvlist_alloc w = (0, [], { w with nv_script := s, nv_live := w.nv_live + 1 }) := by
  simp [nvlist_alloc, nv_result_cons w 0 s h]

theorem nvlist_alloc_fail (w : world) (e : Nat) (s : List Nat) (he : e ≠ 0)
    (h : w.nv_script = e :: s) :
    nvlist_alloc w = (e, [], { w with nv_script := s }) := by
  simp [nvlist_alloc, nv_result_cons w e s h, he]

theorem nverr_records (E : v8plus_env) (e : Nat) (m : String) (w : world) :
    (v8plus_nverr E e (some m) w).2 =
      { w with _v8plus_errmsg := nverr_text E m e, _v8plus_errno := nverr_kind e } := by
  simp [v8plus_nverr, nverr_text, nverr_kind]

/-- The arm of a property whose adds succeed. -/
theorem arm_value_ok (E : v8plus_env) (lp : nvlist) (name : String) (v : prop_value)
    (ap : List va_item) (w : world) (s : List Nat) (hv : v.valid)
    (hs : w.nv_script = List.replicate (v.calls name).length 0 ++ s) :
    vsetprops_arm E lp v.kind name (v.va ++ ap) w =
      some (0, v.store name lp, ap,
        { w with nv_script := s, jsfunc_holds := holds_after v.held w.jsfunc_holds }) := by
  cases v
  case jsfunc j =>
    have hs1 : w.nv_script = 0 :: 0 :: s := by simpa [prop_value.calls] using hs
    simp [vsetprops_arm, prop_value.kind, prop_value.va, prop_value.store, prop_value.held,
      prop_value.encoding, nvlist_add_uint64_array, nvlist_add_string_array,
      nvlist_add_pair_ok _ _ w _ hs1,
      nvlist_add_pair_ok _ _ { w with nv_script := 0 :: s } s rfl, v8plus_jsfunc_hold,
      holds_after_single]
  case strnumber64 n =>
    have hs1 : w.nv_script = 0 :: s := by simpa [prop_value.calls] using hs
    simp only [vsetprops_arm, prop_value.kind, prop_value.va, List.cons_append,
      List.nil_append, snprintf_u64 n hv, nvlist_add_string, nvlist_add_pair_ok _ _ w _ hs1,
      vsetprops_added]
    simp [prop_value.store, prop_value.held, prop_value.encoding, holds_after_nil]
  all_goals
    have hs1 : w.nv_script = 0 :: s := by simpa [prop_value.calls] using hs
    simp [vsetprops_arm, vsetprops_added, prop_value.kind, prop_value.va,
      prop_value.encoding, prop_value.store, prop_value.held, holds_after_nil,
      nvlist_add_string, nvlist_add_double, nvlist_add_boolean_value, nvlist_add_byte,
      nvlist_add_boolean, nvlist_add_pair_ok _ _ w _ hs1]

/-- The arm of a property whose add number `k` fails with the errno `e`. -/
theorem arm_value_fail (E : v8plus_env) (lp : nvlist) (name : String) (v : prop_value)
    (ap : List va_item) (w : world) (k e : Nat) (s : List Nat) (m : String)
    (hm : (v.calls name)[k]? = some m) (he : e ≠ 0)
    (hs : w.nv_script = List.replicate k 0 ++ e :: s) :
    vsetprops_arm E lp v.kind name (v.va ++ ap) w =
      some (-1, v.store_at name k lp, ap,
        (v8plus_nverr E e (some m) { w with nv_script := s }).2) := by
  cases v
  case jsfunc j =>
    match k, hm, hs with
    | 0, hm, hs =>
      have hm1 : name = m := by simpa [prop_value.calls] using hm
      have hs1 : w.nv_script = e :: s := by simpa using hs
      subst hm1
      simp [vsetprops_arm, prop_value.kind, prop_value.va, prop_value.store_at,
        nvlist_add_uint64_array, nvlist_add_pair_fail _ _ w e s he hs1, he]
    | 1, hm, hs =>
      have hm1 : V8PLUS_JSF_COOKIE = m := by simpa [prop_value.calls] using hm
      have hs1 : w.nv_script = 0 :: e :: s := by simpa using hs
      subst hm1
      simp [vsetprops_arm, prop_value.kind, prop_value.va, prop_value.store_at,
        prop_value.encoding, nvlist_add_uint64_array, nvlist_add_string_array,
        nvlist_add_pair_ok _ _ w _ hs1,
        nvlist_add_pair_fail _ _ { w with nv_script := e :: s } e s he rfl, he]
    | k + 2, hm, _ => simp [prop_value.calls] at hm
  all_goals
    match k, hm, hs with
    | 0, hm, hs =>
      have hm1 : name = m := by simpa [prop_value.calls] using hm
      have hs1 : w.nv_script = e :: s := by simpa using hs
      subst hm1
      simp [vsetprops_arm, vsetprops_added, prop_value.kind, prop_value.va,
        prop_value.store_at, nvlist_add_string, nvlist_add_double, nvlist_add_boolean_value,
        nvlist_add_byte, nvlist_add_boolean, nvlist_add_pair_fail _ _ w e s he hs1, he]
    | k + 1, hm, _ => simp [prop_value.calls] at hm

theorem held_value_eq (name : String) (v : prop_value) (rest : prop_groups) :
    (prop_groups.value name v rest).held = v.held ++ rest.held := by
  cases v <;> simp [prop_groups.held, prop_value.held]

theorem kind_ne_none (v : prop_value) : v.kind ≠ V8PLUS_TYPE_NONE := by
  cases v <;> simp [prop_value.kind]

theorem kind_ne_object (v : prop_value) : v.kind ≠ V8PLUS_TYPE_OBJECT := by
  cases v <;> simp [prop_value.kind]

theorem first_value (name : String) (v : prop_value) (rest : prop_groups) :
    (prop_groups.value name v rest).first = v.kind := rfl

theorem first_any (name : String) (pp : nvpair) (rest : prop_groups) :
    (prop_groups.any name pp rest).first = V8PLUS_TYPE_ANY := rfl

theorem first_object (name : String) (ms rest : prop_groups) :
    (prop_groups.object name ms rest).first = V8PLUS_TYPE_OBJECT := rfl

theorem va_value (name : String) (v : prop_value) (rest : prop_groups) :
    (prop_groups.value name v rest).va =
      .str name :: (v.va ++ .type rest.first :: rest.va) := rfl

theorem va_any (name : String) (pp : nvpair) (rest : prop_groups) :
    (prop_groups.any name pp rest).va = .str name :: .pair pp :: .type rest.first :: rest.va :=
  rfl

theorem va_object (name : String) (ms rest : prop_groups) :
    (prop_groups.object name ms rest).va =
      .str name :: .type ms.first :: (ms.va ++ .type rest.first :: rest.va) := rfl

theorem calls_value (name : String) (v : prop_value) (rest : prop_groups) :
    (prop_groups.value name v rest).calls = v.calls name ++ rest.calls := rfl

theorem calls_any (name : String) (pp : nvpair) (rest : prop_groups) :
    (prop_groups.any name pp rest).calls = name :: rest.calls := rfl

theorem calls_object (name : String) (ms rest : prop_groups) :
    (prop_groups.object name ms rest).calls =
      name :: (ms.calls ++ (if ms.supported then name :: rest.calls else [])) := rfl

theorem object_add_ok (E : v8plus_env) (lp : nvlist) (name : String) (slp : nvlist)
    (ap3 : List va_item) (a : v8plus_errno_t) (b : String) (c : Nat → Nat) (d : Nat)
    (s : List Nat) :
    vsetprops_object_add E lp name (some (0, slp, ap3, ⟨a, b, c, d, 0 :: s⟩)) =
      some (0, nvlist_add lp (.mk name (.NVLIST slp)), ap3, ⟨a, b, c, d - 1, s⟩) := by
  simp [vsetprops_object_add, nvlist_add_nvlist, nvlist_add_pair, nv_result, nvlist_free]

theorem object_add_fail (E : v8plus_env) (lp : nvlist) (name : String) (slp : nvlist)
    (ap3 : List va_item) (a : v8plus_errno_t) (b : String) (c : Nat → Nat) (d : Nat)
    (e : Nat) (s : List Nat) (he : e ≠ 0) :
    vsetprops_object_add E lp name (some (0, slp, ap3, ⟨a, b, c, d, e :: s⟩)) =
      some (-1, lp, ap3, ⟨nverr_kind e, nverr_text E name e, c, d - 1, s⟩) := by
  simp [vsetprops_object_add, nvlist_add_nvlist, nvlist_add_pair, nv_result, nvlist_free, he,
    nverr_records]

theorem object_add_nested (E : v8plus_env) (lp : nvlist) (name : String) (slp : nvlist)
    (ap3 : List va_item) (w3 : world) :
    vsetprops_object_add E lp name (some (-1, slp, ap3, w3)) = some (-1, lp, ap3, w3) := by
  simp [vsetprops_object_add]

/-- The builder on a sequence of supported kinds all of whose libnvpair calls succeed. -/
theorem vsetprops_ok (E : v8plus_env) :
    ∀ (gs : prop_groups), gs.wf → gs.supported →
      ∀ (F : Nat) (extra : List va_item) (lp : nvlist) (w : world) (s : List Nat),
        gs.va.length < F →
        w.nv_script = List.replicate gs.calls.length 0 ++ s →
        v8plus_obj_vsetprops E F lp gs.first (gs.va ++ extra) w =
          some (0, gs.build lp, extra,
            { w with nv_script := s,
                     jsfunc_holds := holds_after gs.held w.jsfunc_holds }) := by
  intro gs
  induction gs with
  | done =>
    intro _ _ F extra lp w s hF hs
    obtain ⟨F, rfl⟩ : ∃ n, F = n + 1 := ⟨F - 1, by omega⟩
    have hs1 : w.nv_script = s := by simpa [prop_groups.calls] using hs
    subst hs1
    simp only [prop_groups.first, prop_groups.va, List.nil_append, prop_groups.build,
      prop_groups.held, holds_after_nil]
    rw [vsetprops_succ_none]
  | value name v rest ih =>
    intro hwf hsup F extra lp w s hF hs
    obtain ⟨hv, hwfr⟩ := hwf
    obtain ⟨F, rfl⟩ : ∃ n, F = n + 1 := ⟨F - 1, by omega⟩
    have hs1 : w.nv_script = List.replicate (v.calls name).length 0 ++
        (List.replicate rest.calls.length 0 ++ s) := by
      rw [hs, calls_value, List.length_append, List.replicate_add, List.append_assoc]
    have hF1 : rest.va.length < F := by
      rw [va_value] at hF
      simp only [List.length_cons, List.length_append] at hF
      omega
    rw [first_value, va_value]
    simp only [List.cons_append, List.append_assoc]
    rw [vsetprops_succ_arm E F lp v.kind name _ w (kind_ne_none v) (kind_ne_object v),
      arm_value_ok E lp name v _ w _ hv hs1]
    simp only [vsetprops_loop, ne_eq, not_true_eq_false, if_false]
    rw [ih hwfr hsup F extra _ _ s hF1 rfl]
    simp [prop_groups.build, held_value_eq, holds_after_append]
  | any name pp rest ih =>
    intro hwf hsup F extra lp w s hF hs
    obtain ⟨F, rfl⟩ : ∃ n, F = n + 1 := ⟨F - 1, by omega⟩
    have hs1 : w.nv_script = 0 :: (List.replicate rest.calls.length 0 ++ s) := by
      rw [hs, calls_any, List.length_cons, List.replicate_succ, List.cons_append]
    have hF1 : rest.va.length < F := by
      rw [va_any] at hF
      simp only [List.length_cons] at hF
      omega
    rw [first_any, va_any]
    simp only [List.cons_append]
    rw [vsetprops_succ_arm E F lp _ name _ w (by decide) (by decide)]
    simp only [vsetprops_arm, vsetprops_added, nvlist_add_nvpair,
      nvlist_add_pair_ok _ _ w _ hs1, vsetprops_loop, ne_eq, not_true_eq_false, if_false]
    rw [ih hwf hsup F extra _ _ s hF1 rfl]
    simp [prop_groups.build, prop_groups.held]
  | object name ms rest ihm ihr =>
    intro hwf hsup F extra lp w s hF hs
    obtain ⟨hwfm, hwfr⟩ := hwf
    obtain ⟨hsupm, hsupr⟩ := hsup
    obtain ⟨F, rfl⟩ : ∃ n, F = n + 1 := ⟨F - 1, by omega⟩
    have hlen : ms.va.length + rest.va.length + 3 < F + 1 := by
      rw [va_object] at hF
      simp only [List.length_cons, List.length_append] at hF
      omega
    have hs1 : w.nv_script = 0 :: (List.replicate ms.calls.length 0 ++
        (0 :: (List.replicate rest.calls.length 0 ++ s))) := by
      rw [hs, calls_object, if_pos hsupm]
      simp only [List.length_cons, List.length_append, List.replicate_succ,
        List.replicate_add, List.cons_append, List.append_assoc]
    rw [first_object, va_object]
    simp only [List.cons_append, List.append_assoc]
    rw [vsetprops_succ_object, nvlist_alloc_ok w _ hs1]
    simp only [ne_eq, not_true_eq_false, if_false]
    rw [ihm hwfm hsupm F _ [] _ _ (by omega) rfl]
    rw [object_add_ok]
    simp only [vsetprops_loop, ne_eq, not_true_eq_false, if_false]
    rw [ihr hwfr hsupr F extra _ _ s (by omega) rfl]
    simp [prop_groups.build, prop_groups.held, holds_after_append]
  | bad name nt junk =>
    intro _ hsup
    exact absurd hsup (by simp [prop_groups.supported])

theorem built_at_value (name : String) (v : prop_value) (rest : prop_groups) (k : Nat)
    (lp : nvlist) :
    (prop_groups.value name v rest).built_at k lp =
      if k < (v.calls name).length then v.store_at name k lp
      else rest.built_at (k - (v.calls name).length) (v.store name lp) := rfl

theorem built_at_any (name : String) (pp : nvpair) (rest : prop_groups) (k : Nat)
    (lp : nvlist) :
    (prop_groups.any name pp rest).built_at k lp =
      if k = 0 then lp else rest.built_at (k - 1) (nvlist_add lp pp) := rfl

theorem built_at_object (name : String) (ms rest : prop_groups) (k : Nat) (lp : nvlist) :
    (prop_groups.object name ms rest).built_at k lp =
      if k < ms.calls.length + 2 then lp
      else rest.built_at (k - (ms.calls.length + 2))
        (nvlist_add lp (.mk name (.NVLIST (ms.build [])))) := rfl

theorem held_at_value (name : String) (v : prop_value) (rest : prop_groups) (k : Nat) :
    (prop_groups.value name v rest).held_at k =
      if k < (v.calls name).length then []
      else v.held ++ rest.held_at (k - (v.calls name).length) := rfl

theorem held_at_any (name : String) (pp : nvpair) (rest : prop_groups) (k : Nat) :
    (prop_groups.any name pp rest).held_at k =
      if k = 0 then [] else rest.held_at (k - 1) := rfl

theorem held_at_object (name : String) (ms rest : prop_groups) (k : Nat) :
    (prop_groups.object name ms rest).held_at k =
      if k = 0 then []
      else if k - 1 < ms.calls.length then ms.held_at (k - 1)
      else if k - 1 = ms.calls.length then ms.held
      else ms.held ++ rest.held_at (k - (ms.calls.length + 2)) := rfl

theorem loop_failed (next : nvlist → v8plus_type_t → List va_item → world →
      Option vsetprops_result) (lp1 : nvlist) (ap4 : List va_item) (w1 : world) :
    vsetprops_loop next (some (-1, lp1, ap4, w1)) = some (-1, lp1, ap4, w1) := by
  simp [vsetprops_loop]

theorem loop_next (next : nvlist → v8plus_type_t → List va_item → world →
      Option vsetprops_result) (lp1 : nvlist) (nt2 : v8plus_type_t) (ap5 : List va_item)
    (w1 : world) :
    vsetprops_loop next (some (0, lp1, .type nt2 :: ap5, w1)) = next lp1 nt2 ap5 w1 := by
  simp [vsetprops_loop]

/-- The builder on a sequence whose libnvpair call number `k` fails with the errno `e`,
the calls before it succeeding: it returns -1 with the error of `v8plus_nverr` on the
member of that call, and makes no further call. -/
theorem vsetprops_fail (E : v8plus_env) :
    ∀ (gs : prop_groups), gs.wf →
      ∀ (F : Nat) (extra : List va_item) (lp : nvlist) (w : world) (k e : Nat)
        (s : List Nat) (m : String),
        gs.va.length < F → gs.calls[k]? = some m → e ≠ 0 →
        w.nv_script = List.replicate k 0 ++ e :: s →
        ∃ ap1 w1,
          v8plus_obj_vsetprops E F lp gs.first (gs.va ++ extra) w =
            some (-1, gs.built_at k lp, ap1, w1) ∧
          w1._v8plus_errno = nverr_kind e ∧ w1._v8plus_errmsg = nverr_text E m e ∧
          w1.nv_script = s ∧
          w1.jsfunc_holds = holds_after (gs.held_at k) w.jsfunc_holds := by
  intro gs
  induction gs with
  | done =>
    intro _ F extra lp w k e s m _ hm
    simp [prop_groups.calls] at hm
  | value name v rest ih =>
    intro hwf F extra lp w k e s m hF hm he hs
    obtain ⟨hv, hwfr⟩ := hwf
    obtain ⟨F, rfl⟩ : ∃ n, F = n + 1 := ⟨F - 1, by omega⟩
    have hF1 : rest.va.length < F := by
      rw [va_value] at hF
      simp only [List.length_cons, List.length_append] at hF
      omega
    rw [first_value, va_value]
    simp only [List.cons_append, List.append_assoc]
    rw [vsetprops_succ_arm E F lp v.kind name _ w (kind_ne_none v) (kind_ne_object v)]
    rw [calls_value] at hm
    by_cases hk : k < (v.calls name).length
    · rw [List.getElem?_append_left hk] at hm
      rw [arm_value_fail E lp name v _ w k e s m hm he hs, loop_failed, built_at_value,
        if_pos hk, held_at_value, if_pos hk, holds_after_nil]
      exact ⟨_, _, rfl, by simp [nverr_records]⟩
    · obtain ⟨k1, rfl⟩ : ∃ k1, k = (v.calls name).length + k1 :=
        ⟨k - (v.calls name).length, by omega⟩
      rw [List.getElem?_append_right (by omega), Nat.add_sub_cancel_left] at hm
      have hs1 : w.nv_script = List.replicate (v.calls name).length 0 ++
          (List.replicate k1 0 ++ e :: s) := by
        rw [hs, List.replicate_add, List.append_assoc]
      rw [arm_value_ok E lp name v _ w _ hv hs1, loop_next, built_at_value, if_neg hk,
        held_at_value, if_neg hk, Nat.add_sub_cancel_left]
      obtain ⟨ap1, w1, hr, h1, h2, h3, h4⟩ :=
        ih hwfr F extra (v.store name lp)
          { w with nv_script := List.replicate k1 0 ++ e :: s,
                   jsfunc_holds := holds_after v.held w.jsfunc_holds } k1 e s m hF1 hm he rfl
      exact ⟨ap1, w1, hr, h1, h2, h3, by rw [h4, holds_after_append]⟩
  | any name pp rest ih =>
    intro hwf F extra lp w k e s m hF hm he hs
    obtain ⟨F, rfl⟩ : ∃ n, F = n + 1 := ⟨F - 1, by omega⟩
    have hF1 : rest.va.length < F := by
      rw [va_any] at hF
      simp only [List.length_cons] at hF
      omega
    rw [first_any, va_any]
    simp only [List.cons_append]
    rw [vsetprops_succ_arm E F lp _ name _ w (by decide) (by decide)]
    rw [calls_any] at hm
    cases k with
    | zero =>
      have hm1 : name = m := by simpa using hm
      have hs1 : w.nv_script = e :: s := by simpa using hs
      subst hm1
      simp only [vsetprops_arm, vsetprops_added, nvlist_add_nvpair,
        nvlist_add_pair_fail _ _ w e s he hs1, ne_eq, he, not_false_eq_true, if_true,
        loop_failed, built_at_any, held_at_any, holds_after_nil]
      exact ⟨_, _, rfl, by simp [nverr_records]⟩
    | succ k1 =>
      have hm1 : rest.calls[k1]? = some m := by simpa using hm
      have hs1 : w.nv_script = 0 :: (List.replicate k1 0 ++ e :: s) := by
        rw [hs, List.replicate_succ, List.cons_append]
      simp only [vsetprops_arm, vsetprops_added, nvlist_add_nvpair,
        nvlist_add_pair_ok _ _ w _ hs1, ne_eq, not_true_eq_false, if_false, loop_next,
        built_at_any, held_at_any, Nat.add_one_ne_zero, Nat.add_sub_cancel]
      exact ih hwf F extra (nvlist_add lp pp)
        { w with nv_script := List.replicate k1 0 ++ e :: s } k1 e s m hF1 hm1 he rfl
  | object name ms rest ihm ihr =>
    intro hwf F extra lp w k e s m hF hm he hs
    obtain ⟨hwfm, hwfr⟩ := hwf
    obtain ⟨F, rfl⟩ : ∃ n, F = n + 1 := ⟨F - 1, by omega⟩
    have hlen : ms.va.length + rest.va.length + 3 < F + 1 := by
      rw [va_object] at hF
      simp only [List.length_cons, List.length_append] at hF
      omega
    rw [first_object, va_object]
    simp only [List.cons_append, List.append_assoc]
    rw [vsetprops_succ_object]
    rw [calls_object] at hm
    cases k with
    | zero =>
      have hm1 : name = m := by simpa using hm
      have hs1 : w.nv_script = e :: s := by simpa using hs
      subst hm1
      rw [nvlist_alloc_fail w e s he hs1]
      simp only [ne_eq, he, not_false_eq_true, if_true, loop_failed]
      rw [built_at_object, if_pos (by omega), held_at_object, if_pos rfl, holds_after_nil]
      exact ⟨_, _, rfl, by simp [nverr_records]⟩
    | succ k1 =>
      have hm1 : (ms.calls ++ (if ms.supported then name :: rest.calls else []))[k1]? =
          some m := by simpa using hm
      have hs1 : w.nv_script = 0 :: (List.replicate k1 0 ++ e :: s) := by
        rw [hs, List.replicate_succ, List.cons_append]
      rw [nvlist_alloc_ok w _ hs1]
      simp only [ne_eq, not_true_eq_false, if_false]
      by_cases hk : k1 < ms.calls.length
      · rw [List.getElem?_append_left hk] at hm1
        obtain ⟨ap1, w1, hr, h1, h2, h3, h4⟩ :=
          ihm hwfm F (.type rest.first :: (rest.va ++ extra)) []
            { w with nv_script := List.replicate k1 0 ++ e :: s, nv_live := w.nv_live + 1 }
            k1 e s m (by omega) hm1 he rfl
        rw [hr, object_add_nested, loop_failed, built_at_object, if_pos (by omega),
          held_at_object, if_neg (by omega), Nat.add_sub_cancel, if_pos hk]
        exact ⟨ap1, w1, rfl, h1, h2, h3, h4⟩
      · obtain ⟨k2, rfl⟩ : ∃ k2, k1 = ms.calls.length + k2 :=
          ⟨k1 - ms.calls.length, by omega⟩
        rw [List.getElem?_append_right (by omega), Nat.add_sub_cancel_left] at hm1
        by_cases hsup : ms.supported
        · rw [if_pos hsup] at hm1
          rw [vsetprops_ok E ms hwfm hsup F (.type rest.first :: (rest.va ++ extra)) []
            { w with nv_script := List.replicate (ms.calls.length + k2) 0 ++ e :: s,
                     nv_live := w.nv_live + 1 }
            (List.replicate k2 0 ++ e :: s) (by omega)
            (by simp only [List.replicate_add, List.append_assoc])]
          cases k2 with
          | zero =>
            have hm2 : name = m := by simpa using hm1
            subst hm2
            simp only [List.replicate_zero, List.nil_append]
            rw [object_add_fail _ _ _ _ _ _ _ _ _ _ _ he, loop_failed, built_at_object,
              if_pos (by omega), held_at_object, if_neg (by omega), Nat.add_sub_cancel,
              if_neg (by omega), if_pos (by omega)]
            exact ⟨_, _, rfl, rfl, rfl, rfl, rfl⟩
          | succ k3 =>
            have hm2 : rest.calls[k3]? = some m := by simpa using hm1
            simp only [List.replicate_succ, List.cons_append]
            rw [object_add_ok, loop_next, built_at_object, if_neg (by omega), held_at_object,
              if_neg (by omega), Nat.add_sub_cancel, if_neg (by omega), if_neg (by omega)]
            obtain ⟨ap1, w1, hr, h1, h2, h3, h4⟩ :=
              ihr hwfr F extra (nvlist_add lp (.mk name (.NVLIST (ms.build []))))
                ⟨w._v8plus_errno, w._v8plus_errmsg, holds_after ms.held w.jsfunc_holds,
                  w.nv_live + 1 - 1, List.replicate k3 0 ++ e :: s⟩ k3 e s m (by omega) hm2 he
                rfl
            have hk3 : ms.calls.length + (k3 + 1) + 1 - (ms.calls.length + 2) = k3 := by
              omega
            rw [hk3]
            exact ⟨ap1, w1, hr, h1, h2, h3, by rw [h4, holds_after_append]⟩
        · rw [if_neg hsup] at hm1
          simp at hm1
  | bad name nt junk =>
    intro _ F extra lp w k e s m _ hm
    simp [prop_groups.calls] at hm

/-! ### Failures of a build -/

/-- C12: let the libnvpair allocations and adds of a build of a well-formed sequence
succeed up to the call number `k`, and let that call fail with the errno `e`.  Then
`v8plus_obj_setprops` returns -1 and `v8plus_obj` returns `NULL`, at any nesting depth of
the failing call and whatever groups follow it; the error context holds the container-op
mapping of `e` and the message of `v8plus_nverr` on the member of that very call: the name
of the group whose add or nested allocation failed, or the marker key when the marker add
of a function handle failed, or `<none>` when the first allocation of `v8plus_obj` failed.
No later group is processed: no further result is taken from the script, the container
holds what the calls before the failing one added, and only the function handles of the
groups before it are held. -/
theorem build_failure (E : v8plus_env) (gs : prop_groups) (lp : nvlist) (w : world)
    (k e : Nat) (s : List Nat) (hwf : gs.wf) (hk : k < gs.calls.length) (he : e ≠ 0) :
    (w.nv_script = List.replicate k 0 ++ e :: s →
      ∃ w1, v8plus_obj_setprops E lp gs.first gs.va w =
          some (-1, gs.built_at k lp, w1) ∧
        w1._v8plus_errno = nverr_kind e ∧
        w1._v8plus_errmsg = nverr_text E (gs.calls.get ⟨k, hk⟩) e ∧
        w1.nv_script = s ∧
        w1.jsfunc_holds = holds_after (gs.held_at k) w.jsfunc_holds) ∧
    (w.nv_script = 0 :: (List.replicate k 0 ++ e :: s) →
      ∃ w1, v8plus_obj E gs.first gs.va w = some (none, w1) ∧
        w1._v8plus_errno = nverr_kind e ∧
        w1._v8plus_errmsg = nverr_text E (gs.calls.get ⟨k, hk⟩) e ∧
        w1.nv_script = s ∧
        w1.jsfunc_holds = holds_after (gs.held_at k) w.jsfunc_holds) ∧
    (w.nv_script = e :: s →
      ∃ w1, v8plus_obj E gs.first gs.va w = some (none, w1) ∧
        w1._v8plus_errno = nverr_kind e ∧
        w1._v8plus_errmsg = nverr_text E "<none>" e ∧
        w1.nv_script = s ∧ w1.jsfunc_holds = w.jsfunc_holds) ∧
    nverr_kind ENOMEM = V8PLUSERR_NOMEM ∧ nverr_kind EINVAL = V8PLUSERR_YOUSUCK ∧
    (e ≠ ENOMEM → e ≠ EINVAL → nverr_kind e = V8PLUSERR_UNKNOWN) := by
  have hm : gs.calls[k]? = some (gs.calls.get ⟨k, hk⟩) := by
    rw [List.getElem?_eq_getElem hk]
    rfl
  refine ⟨?_, ?_, ?_, rfl, rfl, ?_⟩
  · intro hs
    obtain ⟨ap1, w1, hr, h1, h2, h3, h4⟩ :=
      vsetprops_fail E gs hwf (gs.va.length + 1) [] lp w k e s _ (by omega) hm he hs
    rw [List.append_nil] at hr
    exact ⟨w1, by simp [v8plus_obj_setprops, hr], h1, h2, h3, h4⟩
  · intro hs
    obtain ⟨ap1, w1, hr, h1, h2, h3, h4⟩ :=
      vsetprops_fail E gs hwf (gs.va.length + 1) [] []
        { w with nv_script := List.replicate k 0 ++ e :: s, nv_live := w.nv_live + 1 }
        k e s _ (by omega) hm he rfl
    rw [List.append_nil] at hr
    refine ⟨nvlist_free w1, ?_, h1, h2, h3, h4⟩
    simp [v8plus_obj, nvlist_alloc_ok w _ hs, hr]
  · intro hs
    refine ⟨(v8plus_nverr E e none { w with nv_script := s }).2, ?_, ?_, ?_, rfl, rfl⟩
    · simp only [v8plus_obj, nvlist_alloc_fail w e s he hs, ne_eq, he, not_false_eq_true,
        if_true]
      rfl
    · simp [v8plus_nverr, nverr_kind]
    · simp [v8plus_nverr, nverr_text]
  · intro h1 h2
    simp [nverr_kind, h1, h2]

/-- Witness of C12: the function handle 7 under "f" in an object under "a", followed by
the number 1.0 under "c", when the third libnvpair call fails with `ENOMEM`.  The calls
are the allocation for "a", the two adds of "f", the add of "a" and the add of "c"; the
third is the marker add, so both entry points fail with `NOMEM` and the message on the
marker key, and "c" is not added. -/
theorem build_failure_witness :
    v8plus_obj_setprops env_einval [] V8PLUS_TYPE_OBJECT
        [.str "a", .type V8PLUS_TYPE_JSFUNC, .str "f", .jsfunc 7, .type V8PLUS_TYPE_NONE,
          .type V8PLUS_TYPE_NUMBER, .str "c", .dbl double_1_0, .type V8PLUS_TYPE_NONE]
        world_third_fails =
      some (-1, [], ⟨V8PLUSERR_NOMEM,
        "nvlist manipulation error on member .__v8plus_jsfunc_cookie: error",
        fun _ => 0, 1, []⟩) ∧
    groups_a_f_c.calls = ["a", "f", V8PLUS_JSF_COOKIE, "a", "c"] ∧
    (∃ w1, v8plus_obj_setprops env_einval [] groups_a_f_c.first groups_a_f_c.va
          world_third_fails = some (-1, groups_a_f_c.built_at 2 [], w1) ∧
        w1._v8plus_errno = nverr_kind 12 ∧
        w1._v8plus_errmsg =
          nverr_text env_einval (groups_a_f_c.calls.get ⟨2, by decide⟩) 12 ∧
        w1.nv_script = [] ∧
        w1.jsfunc_holds =
          holds_after (groups_a_f_c.held_at 2) world_third_fails.jsfunc_holds) ∧
    (∃ w1, v8plus_obj env_einval groups_a_f_c.first groups_a_f_c.va
          ⟨V8PLUSERR_NOERROR, "", fun _ => 0, 0, [0, 0, 0, 12]⟩ = some (none, w1) ∧
        w1._v8plus_errno = nverr_kind 12 ∧
        w1._v8plus_errmsg =
          nverr_text env_einval (groups_a_f_c.calls.get ⟨2, by decide⟩) 12 ∧
        w1.nv_script = [] ∧
        w1.jsfunc_holds = holds_after (groups_a_f_c.held_at 2) (fun _ => 0)) :=
  ⟨rfl, rfl,
    (build_failure env_einval groups_a_f_c [] world_third_fails 2 12 []
      (by simp [groups_a_f_c, prop_groups.wf, prop_value.valid]) (by decide)
      (by decide)).1 rfl,
    (build_failure env_einval groups_a_f_c []
      ⟨V8PLUSERR_NOERROR, "", fun _ => 0, 0, [0, 0, 0, 12]⟩ 2 12 []
      (by simp [groups_a_f_c, prop_groups.wf, prop_value.valid]) (by decide)
      (by decide)).2.1 rfl⟩

/-- C13: on a well-formed group sequence that holds a group of kind `Invalid` or of a
kind value outside the enumeration, at any position and depth, on a state without
scripted failures, the builder returns instead of aborting: `v8plus_obj_setprops` returns
-1 and `v8plus_obj` returns `NULL`, and the error context holds `YOUSUCK` with the message
"invalid property type" followed by the number of such a kind. -/
theorem invalid_kind_fails (E : v8plus_env) (gs : prop_groups) (lp : nvlist) (w : world)
    (hwf : gs.wf) (hbad : ¬ gs.supported) (hs : w.nv_script = []) :
    (∃ lp1 w1 nt, v8plus_obj_setprops E lp gs.first gs.va w = some (-1, lp1, w1) ∧
      nt ∈ gs.bad_kinds ∧ (nt = V8PLUS_TYPE_INVALID ∨ ∃ n, nt = OTHER n) ∧
      w1._v8plus_errno = V8PLUSERR_YOUSUCK ∧
      w1._v8plus_errmsg = snprintf_buf V8PLUS_ERRMSG_LEN
        ("invalid property type " ++ fmt_int (E.type_number nt))) ∧
    (∃ w1 nt, v8plus_obj E gs.first gs.va w = some (none, w1) ∧
      nt ∈ gs.bad_kinds ∧ (nt = V8PLUS_TYPE_INVALID ∨ ∃ n, nt = OTHER n) ∧
      w1._v8plus_errno = V8PLUSERR_YOUSUCK ∧
      w1._v8plus_errmsg = snprintf_buf V8PLUS_ERRMSG_LEN
        ("invalid property type " ++ fmt_int (E.type_number nt))) := by
  constructor
  · obtain ⟨rc, lp1, ap1, w1, hr, ho⟩ := setprops_groups E gs hwf lp w
    rcases ho with ⟨-, h2, -⟩ | ⟨h1, -, hf⟩
    · exact absurd h2 hbad
    · simp only at h1 hf
      subst h1
      obtain ⟨nt, hmem, -, h2, h3⟩ := failed_after_clean E gs w w1 hs hf
      exact ⟨lp1, w1, nt, hr, hmem, wf_bad_kinds gs hwf nt hmem, h2, h3⟩
  · have ha := nvlist_alloc_nil w hs
    obtain ⟨rc, lp1, ap1, w1, ho, hr⟩ := obj_groups E gs hwf w (by rw [ha])
    rw [ha] at ho
    rcases ho with ⟨-, h2, -⟩ | ⟨h1, -, hf⟩
    · exact absurd h2 hbad
    · simp only at h1 hf
      subst h1
      obtain ⟨nt, hmem, -, h2, h3⟩ := failed_after_clean E gs _ w1 hs hf
      refine ⟨nvlist_free w1, nt, by rw [hr]; simp, hmem, wf_bad_kinds gs hwf nt hmem, h2, h3⟩

/-- Witness of C13: a number under "a" followed by a group "x" of kind `Invalid`. -/
theorem invalid_kind_fails_witness :
    v8plus_obj_setprops env_einval [] V8PLUS_TYPE_NUMBER
        [.str "a", .dbl double_1_0, .type V8PLUS_TYPE_INVALID, .str "x"] world0 =
      some (-1, [.mk "a" (.DOUBLE double_1_0)],
        ⟨V8PLUSERR_YOUSUCK, "invalid property type 0", fun _ => 0, 0, []⟩) ∧
    ∃ w1 nt, v8plus_obj env_einval groups_a_invalid.first groups_a_invalid.va world0 =
        some (none, w1) ∧
      nt ∈ groups_a_invalid.bad_kinds ∧ (nt = V8PLUS_TYPE_INVALID ∨ ∃ n, nt = OTHER n) ∧
      w1._v8plus_errno = V8PLUSERR_YOUSUCK ∧
      w1._v8plus_errmsg = snprintf_buf V8PLUS_ERRMSG_LEN
        ("invalid property type " ++ fmt_int (env_einval.type_number nt)) :=
  ⟨rfl, (invalid_kind_fails env_einval groups_a_invalid [] world0
    (by simp [groups_a_invalid, prop_groups.wf, prop_value.valid])
    (by simp [groups_a_invalid, prop_groups.supported]) rfl).2⟩

/-- C16 (the code at the failing input): building the object with the number 1.0 under
"b", under "a", when the add of "b" to the nested container fails with `ENOMEM`:
`v8plus_obj` returns `NULL` and one list obtained from `nvlist_alloc` is still live, the
nested one; the same failure in a top-level group leaves none. -/
theorem nested_failure_leaks :
    (∃ w1, v8plus_obj env_einval V8PLUS_TYPE_OBJECT
        [.str "a", .type V8PLUS_TYPE_NUMBER, .str "b", .dbl double_1_0,
          .type V8PLUS_TYPE_NONE, .type V8PLUS_TYPE_NONE] world_third_fails = some (none, w1) ∧
      world_third_fails.nv_live = 0 ∧ w1.nv_live = 1) ∧
    (∃ w1, v8plus_obj env_einval V8PLUS_TYPE_NUMBER
        [.str "b", .dbl double_1_0, .type V8PLUS_TYPE_NONE]
        ⟨V8PLUSERR_NOERROR, "", fun _ => 0, 0, [0, 12]⟩ = some (none, w1) ∧
      w1.nv_live = 0) :=
  ⟨⟨⟨V8PLUSERR_NOMEM, "nvlist manipulation error on member b: error", fun _ => 0, 1, []⟩,
      rfl, rfl, rfl⟩,
    ⟨⟨V8PLUSERR_NOMEM, "nvlist manipulation error on member b: error", fun _ => 0, 0, []⟩,
      rfl, rfl⟩⟩

/-! ### Appending to a container, and groups of kind `Any` -/

theorem keys_named : ∀ (gs : prop_groups) (key : String), key ∈ gs.keys →
    key ∈ gs.names ∨ key ∈ gs.pair_names ∨ key = V8PLUS_JSF_COOKIE := by
  intro gs
  induction gs with
  | done => intro key h; cases h
  | value name v rest ih =>
    intro key h
    have h1 : key = name ∨ key = V8PLUS_JSF_COOKIE ∨ key ∈ rest.keys := by
      cases v <;> simp [prop_groups.keys] at h <;> tauto
    rcases h1 with h1 | h1 | h1
    · exact Or.inl (by simp [prop_groups.names, h1])
    · exact Or.inr (Or.inr h1)
    · rcases ih key h1 with h2 | h2 | h2
      · exact Or.inl (by simp [prop_groups.names, h2])
      · exact Or.inr (Or.inl (by simpa [prop_groups.pair_names] using h2))
      · exact Or.inr (Or.inr h2)
  | any name pp rest ih =>
    intro key h
    simp only [prop_groups.keys, List.mem_cons] at h
    rcases h with h1 | h1
    · exact Or.inr (Or.inl (by simp [prop_groups.pair_names, h1]))
    · rcases ih key h1 with h2 | h2 | h2
      · exact Or.inl (by simp [prop_groups.names, h2])
      · exact Or.inr (Or.inl (by simp [prop_groups.pair_names, h2]))
      · exact Or.inr (Or.inr h2)
  | object name ms rest _ ih =>
    intro key h
    simp only [prop_groups.keys, List.mem_cons] at h
    rcases h with h1 | h1
    · exact Or.inl (by simp [prop_groups.names, h1])
    · rcases ih key h1 with h2 | h2 | h2
      · exact Or.inl (by simp [prop_groups.names, h2])
      · exact Or.inr (Or.inl (by simpa [prop_groups.pair_names] using h2))
      · exact Or.inr (Or.inr h2)
  | bad name nt junk => intro key h; cases h

/-- C18 (amended): `v8plus_obj_setprops` on a well-formed group sequence always returns,
and whether it succeeds or fails, every key that is neither the name of a top-level group,
nor the name of the pair supplied by a top-level group of kind `Any`, nor the reserved
marker key holds in the container what it held before the call.  On success the container
is the one the sequence builds on the given one: under each key that a top-level group
writes, the encoding of the last top-level group that writes it, and what was there before
under the other keys. -/
theorem setprops_frame (E : v8plus_env) (gs : prop_groups) (lp : nvlist) (w : world)
    (hwf : gs.wf) :
    ∃ rc lp1 w1, v8plus_obj_setprops E lp gs.first gs.va w = some (rc, lp1, w1) ∧
      (∀ key, key ∉ gs.names → key ∉ gs.pair_names → key ≠ V8PLUS_JSF_COOKIE →
        nvlist_lookup_nvpair lp1 key = nvlist_lookup_nvpair lp key) ∧
      (rc = 0 → lp1 = gs.build lp ∧
        ∀ key, nvlist_lookup_nvpair lp1 key =
          (gs.last_write key).or (nvlist_lookup_nvpair lp key)) := by
  obtain ⟨rc, lp1, ap1, w1, hr, ho⟩ := setprops_groups E gs hwf lp w
  refine ⟨rc, lp1, w1, hr, ?_, ?_⟩
  · intro key hn hp hc
    have hkey : key ∉ gs.keys := by
      intro hk
      rcases keys_named gs key hk with h | h | h
      · exact hn h
      · exact hp h
      · exact hc h
    rcases ho with ⟨-, -, h3, -⟩ | ⟨-, h2, -⟩
    · simp only at h3
      rw [h3, lookup_build, last_write_none gs key hkey, Option.none_or]
    · exact h2 key hkey
  · intro h0
    rcases ho with ⟨-, -, h3, -⟩ | ⟨h1, -⟩
    · simp only at h3
      exact ⟨h3, fun key => by rw [h3, lookup_build]⟩
    · simp only at h1
      omega

/-- C18 (as stated, refuted): a group of kind `Any` named "x" that supplies a pair named
"k" replaces the value the container held under "k", although "k" is neither the name of a
group nor the marker key; and after a number and then a string were added under the same
name "a", the container holds the string only, not the encoding of the first group. -/
theorem setprops_frame_not_by_group_names :
    (v8plus_obj_setprops env_einval [.mk "k" (.DOUBLE double_1_0)] V8PLUS_TYPE_ANY
        [.str "x", .pair (.mk "k" (.BOOLEAN_VALUE true)), .type V8PLUS_TYPE_NONE] world0 =
        some (0, [.mk "k" (.BOOLEAN_VALUE true)], world0) ∧
      "k" ≠ "x" ∧ "k" ≠ V8PLUS_JSF_COOKIE ∧
      nvlist_lookup_nvpair [.mk "k" (.DOUBLE double_1_0)] "k" =
        some (.mk "k" (.DOUBLE double_1_0)) ∧
      nvlist_lookup_nvpair [.mk "k" (.BOOLEAN_VALUE true)] "k" =
        some (.mk "k" (.BOOLEAN_VALUE true)) ∧
      v8plus_typeof (.mk "k" (.DOUBLE double_1_0)) ≠
        v8plus_typeof (.mk "k" (.BOOLEAN_VALUE true))) ∧
    (v8plus_obj_setprops env_einval [] V8PLUS_TYPE_NUMBER
        [.str "a", .dbl double_1_0, .type V8PLUS_TYPE_STRING, .str "a", .str "x",
          .type V8PLUS_TYPE_NONE] world0 =
        some (0, [.mk "a" (.STRING "x")], world0) ∧
      nvlist_lookup_nvpair [.mk "a" (.STRING "x")] "a" = some (.mk "a" (.STRING "x")) ∧
      v8plus_typeof (.mk "a" (.STRING "x")) ≠ V8PLUS_TYPE_NUMBER) :=
  ⟨⟨rfl, by decide, by decide, rfl, rfl, by decide⟩, rfl, rfl, by decide⟩

/-- Witness of C18: a number added under "a" to a container that holds a byte under "z":
the call returns, and "z" holds what it held. -/
theorem setprops_frame_witness :
    ∃ rc lp1 w1, v8plus_obj_setprops env_einval [.mk "z" (.BYTE 0)]
        (prop_groups.value "a" (.number double_1_0) .done).first
        (prop_groups.value "a" (.number double_1_0) .done).va world0 = some (rc, lp1, w1) ∧
      (∀ key, key ∉ (prop_groups.value "a" (.number double_1_0) .done).names →
        key ∉ (prop_groups.value "a" (.number double_1_0) .done).pair_names →
        key ≠ V8PLUS_JSF_COOKIE →
        nvlist_lookup_nvpair lp1 key = nvlist_lookup_nvpair [.mk "z" (.BYTE 0)] key) ∧
      (rc = 0 → lp1 = (prop_groups.value "a" (.number double_1_0) .done).build
          [.mk "z" (.BYTE 0)] ∧
        ∀ key, nvlist_lookup_nvpair lp1 key =
          ((prop_groups.value "a" (.number double_1_0) .done).last_write key).or
            (nvlist_lookup_nvpair [.mk "z" (.BYTE 0)] key)) :=
  setprops_frame env_einval (.value "a" (.number double_1_0) .done) [.mk "z" (.BYTE 0)]
    world0 (by simp [prop_groups.wf, prop_value.valid])

/-- C20: for a group of kind `Any` the builder adds the supplied pair itself, under the
name of the pair; the name of the group is not used as a key.  On a state without scripted
failures the call succeeds, and the container then holds under each key: the pair of the
last following group that writes the key; else the supplied pair, when the key is the name
of the pair; else what the container already held.  So the name of the pair is a key, and
the name of the group is a key only when it is the name of the pair or another group
added it.  When the add fails, the name of the group is the member the message names. -/
theorem any_group_key (E : v8plus_env) (lp : nvlist) (name : String) (pp : nvpair)
    (rest : prop_groups) (w : world) (hwf : rest.wf) (hsup : rest.supported) :
    (w.nv_script = [] →
      v8plus_obj_setprops E lp V8PLUS_TYPE_ANY
          (.str name :: .pair pp :: .type rest.first :: rest.va) w =
        some (0, rest.build (nvlist_add lp pp),
          { w with jsfunc_holds := holds_after rest.held w.jsfunc_holds }) ∧
      (∀ key, nvlist_lookup_nvpair (rest.build (nvlist_add lp pp)) key =
        (rest.last_write key).or
          ((if key = pp.name then some pp else none).or (nvlist_lookup_nvpair lp key))) ∧
      (rest.last_write pp.name = none →
        nvlist_lookup_nvpair (rest.build (nvlist_add lp pp)) pp.name = some pp) ∧
      (name ≠ pp.name → rest.last_write name = none →
        nvlist_lookup_nvpair (rest.build (nvlist_add lp pp)) name =
          nvlist_lookup_nvpair lp name)) ∧
    (∀ e r, e ≠ 0 → w.nv_script = e :: r →
      ∃ w1, v8plus_obj_setprops E lp V8PLUS_TYPE_ANY
          (.str name :: .pair pp :: .type rest.first :: rest.va) w = some (-1, lp, w1) ∧
        w1._v8plus_errno = nverr_kind e ∧ w1._v8plus_errmsg = nverr_text E name e) := by
  constructor
  · intro hs
    have hl : ∀ key, nvlist_lookup_nvpair (rest.build (nvlist_add lp pp)) key =
        (rest.last_write key).or
          ((if key = pp.name then some pp else none).or (nvlist_lookup_nvpair lp key)) := by
      intro key
      rw [lookup_build, lookup_add]
    refine ⟨setprops_clean E (.any name pp rest) lp w hwf hsup hs, hl, ?_, ?_⟩
    · intro h
      rw [hl, h]
      simp
    · intro hn h
      rw [hl, h]
      simp [hn]
  · intro e r he hs
    refine ⟨(v8plus_nverr E e (some name) { w with nv_script := r }).2, ?_, rfl, rfl⟩
    have hres : nv_result w = (e, { w with nv_script := r }) := by
      simp [nv_result, hs]
    unfold v8plus_obj_setprops
    simp only [List.length_cons]
    rw [vsetprops_succ_arm E _ lp _ name _ w (by decide) (by decide)]
    simp [vsetprops_arm, vsetprops_added, nvlist_add_nvpair, nvlist_add_pair, hres, he,
      vsetprops_loop]

/-- Witness of C20: the group named "x" of kind `Any` that supplies the pair "k" leaves
the key "k" in the new container, and no key "x". -/
theorem any_group_key_witness :
    v8plus_obj_setprops env_einval [] V8PLUS_TYPE_ANY
        [.str "x", .pair (.mk "k" (.BOOLEAN_VALUE true)), .type V8PLUS_TYPE_NONE] world0 =
      some (0, [.mk "k" (.BOOLEAN_VALUE true)],
        { world0 with jsfunc_holds := holds_after [] world0.jsfunc_holds }) ∧
    nvlist_lookup_nvpair [.mk "k" (.BOOLEAN_VALUE true)] "k" =
      some (.mk "k" (.BOOLEAN_VALUE true)) ∧
    nvlist_lookup_nvpair [.mk "k" (.BOOLEAN_VALUE true)] "x" = none :=
  ⟨((any_group_key env_einval [] "x" (.mk "k" (.BOOLEAN_VALUE true)) .done world0
      trivial trivial).1 rfl).1, rfl, rfl⟩

end V8plus
